import Mathlib

/-!
# A shallow embedding of `civ.c`

The C program is a turn-based strategy simulation.  This file embeds its data
model (`City`, `Tile`, `Unit`, `Player`, `Game`) and the state-changing
functions of `src/civ.c` as Lean functions, and proves properties of them.

Modelling conventions.

* A C `int` is a Lean `Int`.  Signed overflow is undefined in C, so arithmetic
  is the arithmetic of the integers.
* C's `%` truncates towards zero; it is `Int.tmod`.
* A C array is a total map from `int` indices to values.  Its declared
  capacity (`MAX_CITIES`, `MAX_UNITS`, ...) is a separate constant; an index
  outside the capacity is an out-of-bounds access in C and is merely another
  cell of the map here.
* The enumerations are the integers C gives them; the production queue stores
  unit tags and building tags in the same cells, as the source does.
* `rand()` reads a stream `rnd : Nat → Nat` at a cursor that is threaded
  through every function that draws random values.
* Locals that C leaves uninitialised (`Player player;`, `City capital;`,
  `Unit new_unit;`) start from the values held in `Env`.
* Console output is not modelled, except for the rows of symbols of
  `display_map`; console input is a function argument.
-/

set_option maxRecDepth 100000

namespace Civ

/-! ## Constants -/

abbrev MAP_WIDTH : Int := 20
abbrev MAP_HEIGHT : Int := 15
abbrev MAX_PLAYERS : Int := 8
abbrev MAX_CITIES : Int := 50
abbrev MAX_UNITS : Int := 100
abbrev START_YEAR : Int := 4000
abbrev END_YEAR : Int := 2050

abbrev TERRAIN_OCEAN : Int := 0
abbrev TERRAIN_PLAINS : Int := 1
abbrev TERRAIN_DESERT : Int := 2
abbrev TERRAIN_MOUNTAINS : Int := 3
abbrev TERRAIN_FOREST : Int := 4
abbrev TERRAIN_HILLS : Int := 5
abbrev TERRAIN_TUNDRA : Int := 6
abbrev TERRAIN_JUNGLE : Int := 7
abbrev TERRAIN_COUNT : Int := 8

abbrev UNIT_SETTLER : Int := 0
abbrev UNIT_WARRIOR : Int := 1
abbrev UNIT_ARCHER : Int := 2
abbrev UNIT_SWORDSMAN : Int := 3
abbrev UNIT_KNIGHT : Int := 4
abbrev UNIT_MUSKETEER : Int := 5
abbrev UNIT_CANNON : Int := 6
abbrev UNIT_TANK : Int := 7
abbrev UNIT_COUNT : Int := 8

abbrev BUILDING_COUNT : Int := 8

abbrev TECH_AGRICULTURE : Int := 0
abbrev TECH_POTTERY : Int := 1
abbrev TECH_COUNT : Int := 10

/-- The table `civ_names`. -/
def civ_names : Int → String := fun i =>
  if i = 0 then "Egypt" else if i = 1 then "Greece" else if i = 2 then "Rome"
  else if i = 3 then "China" else if i = 4 then "Persia" else if i = 5 then "Inca"
  else if i = 6 then "England" else if i = 7 then "France" else ""

/-- The local table `resources` of `generate_map`. -/
def resources : Int → String := fun i =>
  if i = 0 then "" else if i = 1 then "Wheat" else if i = 2 then "Fish"
  else if i = 3 then "Gold" else if i = 4 then "Iron" else if i = 5 then "Horses" else ""

/-! ## Data model -/

/-- The struct `City`. -/
structure City where
  name : String
  population : Int
  production : Int
  food : Int
  owner_id : Int
  buildings : Int → Int
  building_count : Int
  production_queue : Int → Int
  queue_count : Int
  production_progress : Int

/-- The struct `Tile`. -/
structure Tile where
  terrain : Int
  resource : String
  improved : Bool
  city_id : Int
  unit_id : Int
  owner_id : Int
  deriving DecidableEq

/-- The struct `Unit`. -/
structure Unit where
  type : Int
  health : Int
  movement : Int
  strength : Int
  experience : Int
  owner_id : Int
  x : Int
  y : Int
  deriving DecidableEq

/-- The struct `Player`. -/
structure Player where
  name : String
  civ_type : Int
  cities : Int → City
  city_count : Int
  units : Int → Unit
  unit_count : Int
  techs : Int → Bool
  researching : Int
  gold : Int
  happiness : Int
  is_ai : Bool
  relations : Int → Int

/-- The struct `Game`; `map y x` is `map[y][x]`. -/
structure Game where
  year : Int
  map : Int → Int → Tile
  players : Int → Player
  player_count : Int
  current_player : Int
  winner_id : Int

/-- The random stream and the contents of uninitialised locals. -/
structure Env where
  rnd : Nat → Nat
  player : Player
  city : City
  unit : Unit

/-! ## Memory and control helpers -/

/-- The array write `a[i] = v`. -/
def upd {α : Type} (a : Int → α) (i : Int) (v : α) : Int → α :=
  fun j => if j = i then v else a j

/-- The grid write `map[y][x] = t`. -/
def setTile (m : Int → Int → Tile) (y x : Int) (t : Tile) : Int → Int → Tile :=
  fun y1 x1 => if y1 = y ∧ x1 = x then t else m y1 x1

/-- The loop `for (i = lo; i < lo + n; i++) s = body i s`. -/
def forUp {σ : Type} (body : Int → σ → σ) : Nat → Int → σ → σ
  | 0, _, s => s
  | n + 1, i, s => forUp body n (i + 1) (body i s)

/-- The value of `rand()` at cursor `k`. -/
def rand (env : Env) (k : Nat) : Int := (env.rnd k : Int)

/-- The loop `for (i = 0; i < n; i++)` whose body may fail to return. -/
def forUpOpt {σ : Type} (body : Int → σ → Option σ) : Nat → Int → σ → Option σ
  | 0, _, s => some s
  | n + 1, i, s =>
    match body i s with
    | none => none
    | some t => forUpOpt body n (i + 1) t

/-- The assignment `game->map[y][x].city_id = v`. -/
def Game.setCityId (game : Game) (y x v : Int) : Game :=
  { game with map := setTile game.map y x { game.map y x with city_id := v } }

/-- The assignment `game->map[y][x].unit_id = v`. -/
def Game.setUnitId (game : Game) (y x v : Int) : Game :=
  { game with map := setTile game.map y x { game.map y x with unit_id := v } }

/-- The assignment `game->map[y][x].owner_id = v`. -/
def Game.setOwnerId (game : Game) (y x v : Int) : Game :=
  { game with map := setTile game.map y x { game.map y x with owner_id := v } }

/-! ## `generate_map` -/

/-- The body of the inner loop of `generate_map` at `(y, x)`; the state is the
game and the cursor of `rand()`. -/
def generate_tile (env : Env) (y x : Int) (st : Game × Nat) : Game × Nat :=
  let game := st.1
  let k := st.2
  let terrain := (rand env k).tmod TERRAIN_COUNT
  let k := k + 1
  let resource := ""
  let roll := (rand env k).tmod 10
  let k := k + 1
  let pick := if roll = 0 then (resources ((rand env k).tmod 6), k + 1) else (resource, k)
  let resource := pick.1
  let k := pick.2
  let tile : Tile :=
    { terrain := terrain, resource := "", improved := false,
      city_id := -1, unit_id := -1, owner_id := -1 }
  let game := { game with map := setTile game.map y x tile }
  let game :=
    if resource.length > 0 then
      { game with map := setTile game.map y x { game.map y x with resource := resource } }
    else game
  (game, k)

/-- Embedding of `generate_map`. -/
def generate_map (env : Env) (st : Game × Nat) : Game × Nat :=
  forUp (fun y st => forUp (fun x st => generate_tile env y x st) MAP_WIDTH.toNat 0 st)
    MAP_HEIGHT.toNat 0 st

/-! ## `create_players` -/

/-- The do-while loop of `create_players` that draws a starting position, run
for at most `fuel` iterations from cursor `k`: the position and the new cursor. -/
def find_start (env : Env) (m : Int → Int → Tile) : Nat → Nat → Option (Int × Int × Nat)
  | 0, _ => none
  | fuel + 1, k =>
    let start_x := (rand env k).tmod MAP_WIDTH
    let start_y := (rand env (k + 1)).tmod MAP_HEIGHT
    if (m start_y start_x).terrain = TERRAIN_OCEAN ∨
        (m start_y start_x).terrain = TERRAIN_MOUNTAINS then
      find_start env m fuel (k + 2)
    else some (start_x, start_y, k + 2)

/-- The body of the loop of `create_players` for player `i`. -/
def create_player (env : Env) (fuel : Nat) (i : Int) (st : Game × Nat) : Option (Game × Nat) :=
  let game := st.1
  let player := env.player
  let player := { player with
    name := civ_names i, civ_type := i, city_count := 0, unit_count := 0,
    gold := 100, happiness := 100, is_ai := decide (i > 0) }
  let player := { player with
    techs := forUp (fun j t => upd t j false) TECH_COUNT.toNat 0 player.techs }
  let player := { player with
    techs := upd player.techs TECH_AGRICULTURE true, researching := TECH_POTTERY }
  let player := { player with
    relations := forUp (fun j r => upd r j 0) MAX_PLAYERS.toNat 0 player.relations }
  match find_start env game.map fuel st.2 with
  | none => none
  | some (start_x, start_y, k) =>
    let capital := env.city
    let capital := { capital with
      name := player.name ++ " Capital", population := 1, production := 0, food := 0,
      owner_id := i, building_count := 0, queue_count := 0, production_progress := 0 }
    let player := { player with
      cities := upd player.cities player.city_count capital,
      city_count := player.city_count + 1 }
    let game := game.setCityId start_y start_x (player.city_count - 1)
    let game := game.setOwnerId start_y start_x i
    let settler : Unit := ⟨UNIT_SETTLER, 100, 2, 0, 0, i, start_x, start_y⟩
    let warrior : Unit := ⟨UNIT_WARRIOR, 100, 2, 10, 0, i, start_x, start_y⟩
    let player := { player with
      units := upd player.units player.unit_count settler,
      unit_count := player.unit_count + 1 }
    let player := { player with
      units := upd player.units player.unit_count warrior,
      unit_count := player.unit_count + 1 }
    let game := game.setUnitId start_y start_x (player.unit_count - 1)
    let warrior_x := (start_x + 1).tmod MAP_WIDTH
    let warrior_y := start_y
    let game := game.setUnitId warrior_y warrior_x (player.unit_count - 1)
    let warrior := { warrior with x := warrior_x, y := warrior_y }
    let player := { player with units := upd player.units (player.unit_count - 1) warrior }
    let game := { game with players := upd game.players i player }
    some (game, k)

/-- Embedding of `create_players`; `fuel` bounds each run of the do-while loop,
and the result is `none` when a run does not finish within it. -/
def create_players (env : Env) (fuel : Nat) (player_count : Int) (st : Game × Nat) :
    Option (Game × Nat) :=
  forUpOpt (create_player env fuel) player_count.toNat 0 st

/-- Embedding of `init_game`. -/
def init_game (env : Env) (fuel : Nat) (player_count : Int) (st : Game × Nat) :
    Option (Game × Nat) :=
  let game := { st.1 with
    year := START_YEAR, player_count := player_count, current_player := 0, winner_id := -1 }
  create_players env fuel player_count (generate_map env (game, st.2))

/-! ## `end_year` -/

/-- The inner loop `for (x = population; x >= 0; x--)` of the search for a free
tile, with `n` iterations left (`x = n - 1` next); the state is the new unit and
the map. -/
def place_x (unit_count pop y : Int) :
    Nat → Unit × (Int → Int → Tile) → Unit × (Int → Int → Tile)
  | 0, st => st
  | n + 1, st =>
    let x : Int := n
    let check_x := (x + pop).tmod MAP_WIDTH
    let check_y := (y + pop).tmod MAP_HEIGHT
    if (st.2 check_y check_x).unit_id = -1 then
      ({ st.1 with x := check_x, y := check_y },
        setTile st.2 check_y check_x { st.2 check_y check_x with unit_id := unit_count })
    else place_x unit_count pop y n st

/-- The outer loop `for (y = population; y >= 0; y--)` of the search, with `n`
iterations left (`y = n - 1` next). -/
def place_y (unit_count pop : Int) :
    Nat → Unit × (Int → Int → Tile) → Unit × (Int → Int → Tile)
  | 0, st => st
  | n + 1, st =>
    let y : Int := n
    let st := place_x unit_count pop y (pop + 1).toNat st
    if st.1.x ≠ -1 then st else place_y unit_count pop n st

/-- The body of the city loop of `end_year` for city `c` of player `p`. -/
def end_year_city (env : Env) (p c : Int) (st : Game × Nat) : Game × Nat :=
  let game := st.1
  let k := st.2
  let player := game.players p
  let city := player.cities c
  let city := { city with population := city.population + (rand env k).tmod 2 }
  let k := k + 1
  let city := { city with food := city.food + city.population * 2 }
  if city.queue_count > 0 then
    if city.production_progress ≤ 0 then
      let unit := city.production_queue 0
      let new_unit : Unit := { env.unit with
        type := unit, health := 100, owner_id := p, x := -1, y := -1 }
      let placed := place_y player.unit_count city.population (city.population + 1).toNat
        (new_unit, game.map)
      let new_unit := placed.1
      let player :=
        if new_unit.x ≠ -1 then
          { player with
            units := upd player.units player.unit_count new_unit,
            unit_count := player.unit_count + 1 }
        else player
      let city := { city with
        production_queue :=
          forUp (fun i q => upd q i (q (i + 1))) (city.queue_count - 1).toNat 0
            city.production_queue }
      let city := { city with queue_count := city.queue_count - 1 }
      let player := { player with cities := upd player.cities c city }
      ({ game with map := placed.2, players := upd game.players p player }, k)
    else
      let city := { city with production_progress := city.production_progress - 10 }
      let player := { player with cities := upd player.cities c city }
      ({ game with players := upd game.players p player }, k)
  else
    let player := { player with cities := upd player.cities c city }
    ({ game with players := upd game.players p player }, k)

/-- The research roll of `end_year` for player `p`. -/
def end_year_research (env : Env) (p : Int) (st : Game × Nat) : Game × Nat :=
  let game := st.1
  let player := game.players p
  if (rand env st.2).tmod 100 < 30 then
    let player := { player with techs := upd player.techs player.researching true }
    let player := { player with researching := (player.researching + 1).tmod TECH_COUNT }
    ({ game with players := upd game.players p player }, st.2 + 1)
  else (game, st.2 + 1)

/-- The body of the player loop of `end_year` for player `p`. -/
def end_year_player (env : Env) (p : Int) (st : Game × Nat) : Game × Nat :=
  let st := forUp (fun c st => end_year_city env p c st)
    (st.1.players p).city_count.toNat 0 st
  end_year_research env p st

/-- Embedding of `end_year`. -/
def end_year (env : Env) (st : Game × Nat) : Game × Nat :=
  let game := { st.1 with year := st.1.year + 10 }
  forUp (fun p st => end_year_player env p st) game.player_count.toNat 0 (game, st.2)

/-! ## `calculate_score` -/

/-- Embedding of `calculate_score`. -/
def calculate_score (game : Game) (player_id : Int) : Int :=
  let player := game.players player_id
  let score : Int := 0
  let score := score + player.city_count * 100
  let score := forUp (fun i score => score + (player.cities i).population * 50)
    player.city_count.toNat 0 score
  let score := forUp (fun i score => if player.techs i then score + 50 else score)
    TECH_COUNT.toNat 0 score
  let score := forUp (fun y score =>
      forUp (fun x score => if (game.map y x).owner_id = player_id then score + 5 else score)
        MAP_WIDTH.toNat 0 score)
    MAP_HEIGHT.toNat 0 score
  score

/-! ## `check_game_over` -/

/-- One iteration of the time-victory loop of `check_game_over`; the state is
`(highest_score, game)`. -/
def time_victory_step (i : Int) (st : Int × Game) : Int × Game :=
  let score := calculate_score st.2 i
  if score > st.1 then (score, { st.2 with winner_id := i }) else st

/-- The inner loop of the conquest check, from index `j` with `n` iterations
left: the final value of `all_conquered`. -/
def all_conquered (game : Game) (i : Int) : Nat → Int → Bool
  | 0, _ => true
  | n + 1, j =>
    if i ≠ j ∧ (game.players j).city_count > 0 then false
    else all_conquered game i n (j + 1)

/-- The outer loop of the conquest check, from index `i` with `n` iterations
left: the returned flag and the game. -/
def conquest (game : Game) : Nat → Int → Bool × Game
  | 0, _ => (false, game)
  | n + 1, i =>
    if (game.players i).city_count = 0 then conquest game n (i + 1)
    else if all_conquered game i game.player_count.toNat 0 then
      (true, { game with winner_id := i })
    else conquest game n (i + 1)

/-- Embedding of `check_game_over`: the returned flag and the game after the call. -/
def check_game_over (game : Game) : Bool × Game :=
  if game.year ≥ END_YEAR then
    let highest_score : Int := 0
    let st := forUp time_victory_step game.player_count.toNat 0 (highest_score, game)
    (true, st.2)
  else
    conquest game game.player_count.toNat 0

/-! ## `ai_turn` -/

/-- The coordinate `(pos + d + size) % size` that `ai_turn` and `move_unit`
compute for a step of `d` on an axis of length `size`. -/
def wrap_step (pos d size : Int) : Int := (pos + d + size).tmod size

/-- The body of the city loop of `ai_turn` for city `i` of player `p`. -/
def ai_turn_city (env : Env) (p i : Int) (st : Game × Nat) : Game × Nat :=
  let game := st.1
  let k := st.2
  let player := game.players p
  let city := player.cities i
  if city.queue_count = 0 then
    if (rand env k).tmod 2 = 0 then
      let unit := (rand env (k + 1)).tmod UNIT_COUNT
      let city := { city with
        production_queue := upd city.production_queue city.queue_count unit,
        queue_count := city.queue_count + 1 }
      let city := { city with production_progress := 100 }
      let player := { player with cities := upd player.cities i city }
      ({ game with players := upd game.players p player }, k + 2)
    else
      let building := (rand env (k + 1)).tmod BUILDING_COUNT
      let city := { city with
        production_queue := upd city.production_queue city.queue_count building,
        queue_count := city.queue_count + 1 }
      let city := { city with production_progress := 50 }
      let player := { player with cities := upd player.cities i city }
      ({ game with players := upd game.players p player }, k + 2)
  else (game, k)

/-- The body of the unit loop of `ai_turn` for unit `i` of player `p`. -/
def ai_turn_unit (env : Env) (p i : Int) (st : Game × Nat) : Game × Nat :=
  let game := st.1
  let k := st.2
  let player := game.players p
  let unit := player.units i
  let dx := (rand env k).tmod 3 - 1
  let dy := (rand env (k + 1)).tmod 3 - 1
  let new_x := wrap_step unit.x dx MAP_WIDTH
  let new_y := wrap_step unit.y dy MAP_HEIGHT
  if (game.map new_y new_x).terrain ≠ TERRAIN_OCEAN ∧
      (game.map new_y new_x).terrain ≠ TERRAIN_MOUNTAINS then
    let game := game.setUnitId unit.y unit.x (-1)
    let unit := { unit with x := new_x, y := new_y }
    let player := { player with units := upd player.units i unit }
    let game := { game with players := upd game.players p player }
    let game := game.setUnitId new_y new_x i
    (game, k + 2)
  else (game, k + 2)

/-- Embedding of `ai_turn`. -/
def ai_turn (env : Env) (st : Game × Nat) : Game × Nat :=
  let p := st.1.current_player
  let st := forUp (fun i st => ai_turn_city env p i st) (st.1.players p).city_count.toNat 0 st
  forUp (fun i st => ai_turn_unit env p i st) (st.1.players p).unit_count.toNat 0 st

/-! ## `manage_cities` -/

/-- One round of the menu loop of `manage_cities` on city `c` of player `p`:
`action` is the menu entry and `selection` the number read when the entry is
`1` (produce unit) or `2` (build building). -/
def manage_action (p c action selection : Int) (game : Game) : Game :=
  let player := game.players p
  let city := player.cities c
  if action = 1 then
    let unit_choice := selection - 1
    if unit_choice ≥ 0 ∧ unit_choice < UNIT_COUNT then
      let city := { city with
        production_queue := upd city.production_queue city.queue_count unit_choice,
        queue_count := city.queue_count + 1 }
      let city := { city with production_progress := 100 }
      let player := { player with cities := upd player.cities c city }
      { game with players := upd game.players p player }
    else game
  else if action = 2 then
    let building_choice := selection - 1
    if building_choice ≥ 0 ∧ building_choice < BUILDING_COUNT then
      let city := { city with
        production_queue := upd city.production_queue city.queue_count building_choice,
        queue_count := city.queue_count + 1 }
      let city := { city with production_progress := 50 }
      let player := { player with cities := upd player.cities c city }
      { game with players := upd game.players p player }
    else game
  else game

/-- The menu loop of `manage_cities`: the rounds are played in order and the
loop ends at the first action `4`; a list without a `4` is followed by one. -/
def manage_loop (p c : Int) : List (Int × Int) → Game → Game
  | [], game => game
  | round :: rest, game =>
    if round.1 = 4 then game
    else manage_loop p c rest (manage_action p c round.1 round.2 game)

/-- Embedding of `manage_cities`; `city_choice` is the number read at
"Select a city" and `actions` the rounds of the menu loop. -/
def manage_cities (game : Game) (city_choice : Int) (actions : List (Int × Int)) : Game :=
  let p := game.current_player
  let player := game.players p
  if player.city_count = 0 then game
  else
    let city_choice := city_choice - 1
    if city_choice < 0 ∨ city_choice ≥ player.city_count then game
    else manage_loop p city_choice actions game

/-! ## `move_unit` -/

/-- Embedding of `move_unit`; `unit_choice`, `dx` and `dy` are the numbers read
from the console. -/
def move_unit (game : Game) (unit_choice dx dy : Int) : Game :=
  let p := game.current_player
  let player := game.players p
  if player.unit_count = 0 then game
  else
    let unit_choice := unit_choice - 1
    if unit_choice < 0 ∨ unit_choice ≥ player.unit_count then game
    else
      let unit := player.units unit_choice
      let new_x := wrap_step unit.x dx MAP_WIDTH
      let new_y := wrap_step unit.y dy MAP_HEIGHT
      if (game.map new_y new_x).terrain = TERRAIN_OCEAN ∨
          (game.map new_y new_x).terrain = TERRAIN_MOUNTAINS then game
      else
        let game := game.setUnitId unit.y unit.x (-1)
        let unit := { unit with x := new_x, y := new_y }
        let player := { player with units := upd player.units unit_choice unit }
        let game := { game with players := upd game.players p player }
        game.setUnitId new_y new_x unit_choice

/-! ## `found_city` -/

/-- The search loop of `found_city` from index `i` with `n` iterations left:
the index of the first settler, or -1. -/
def find_settler (player : Player) : Nat → Int → Int
  | 0, _ => -1
  | n + 1, i =>
    if (player.units i).type = UNIT_SETTLER then i
    else find_settler player n (i + 1)

/-- Embedding of `found_city`; `city_name` is the name read from the console. -/
def found_city (env : Env) (game : Game) (city_name : String) : Game :=
  let p := game.current_player
  let player := game.players p
  let settler_id := find_settler player player.unit_count.toNat 0
  if settler_id = -1 then game
  else
    let settler := player.units settler_id
    if (game.map settler.y settler.x).city_id ≠ -1 then game
    else
      let new_city : City := { env.city with
        name := city_name, population := 1, production := 0, food := 0,
        owner_id := game.current_player, building_count := 0, queue_count := 0,
        production_progress := 0 }
      let player := { player with cities := upd player.cities player.city_count new_city }
      let game := game.setCityId settler.y settler.x player.city_count
      let game := game.setOwnerId settler.y settler.x game.current_player
      let player := { player with city_count := player.city_count + 1 }
      let game := game.setUnitId settler.y settler.x (-1)
      let player := { player with
        units := forUp (fun i u => upd u i (u (i + 1)))
          (player.unit_count - 1 - settler_id).toNat settler_id player.units }
      let player := { player with unit_count := player.unit_count - 1 }
      { game with players := upd game.players p player }

/-! ## `research_tech` -/

/-- Embedding of `research_tech`; `tech_choice` is the number read from the
console. -/
def research_tech (game : Game) (tech_choice : Int) : Game :=
  let p := game.current_player
  let player := game.players p
  let tech_choice := tech_choice - 1
  if tech_choice ≥ 0 ∧ tech_choice < TECH_COUNT ∧ player.techs tech_choice = false then
    { game with players := upd game.players p { player with researching := tech_choice } }
  else game

/-! ## `player_turn` and `run_game` -/

/-- The console input of one round of the player menu: the menu choice and the
answers to the prompts of the chosen entry (read only if the entry asks). -/
structure Answers where
  choice : Int
  city_choice : Int
  actions : List (Int × Int)
  unit_choice : Int
  dx : Int
  dy : Int
  city_name : String
  tech_choice : Int

/-- Embedding of `player_turn`: the rounds are played until choice `7`; the
result is `none` when the input ends before that. -/
def player_turn (env : Env) : List Answers → Game → Option (Game × List Answers)
  | [], _ => none
  | a :: rest, game =>
    if a.choice = 1 then player_turn env rest game
    else if a.choice = 2 then player_turn env rest (manage_cities game a.city_choice a.actions)
    else if a.choice = 3 then player_turn env rest (move_unit game a.unit_choice a.dx a.dy)
    else if a.choice = 4 then player_turn env rest (found_city env game a.city_name)
    else if a.choice = 5 then player_turn env rest (research_tech game a.tech_choice)
    else if a.choice = 6 then player_turn env rest game
    else if a.choice = 7 then some (game, rest)
    else player_turn env rest game

/-- The state of a run of the program: the game, the cursor of `rand()`, the
pending console input and the number of turns played so far (a ghost counter). -/
structure Session where
  game : Game
  k : Nat
  input : List Answers
  turns : Nat

/-- Embedding of `run_game`; `fuel` bounds the iterations of the while loop. -/
def run_game (env : Env) : Nat → Session → Option Session
  | 0, _ => none
  | fuel + 1, s =>
    let over := check_game_over s.game
    if over.1 then some { s with game := over.2 }
    else
      let game := over.2
      let current := game.players game.current_player
      let played : Option ((Game × Nat) × List Answers) :=
        if current.is_ai then some (ai_turn env (game, s.k), s.input)
        else (player_turn env s.input game).map (fun r => ((r.1, s.k), r.2))
      match played with
      | none => none
      | some r =>
        let game := { r.1.1 with
          current_player := (r.1.1.current_player + 1).tmod r.1.1.player_count }
        let st := if game.current_player = 0 then end_year env (game, r.1.2) else (game, r.1.2)
        run_game env fuel { game := st.1, k := st.2, input := r.2, turns := s.turns + 1 }

/-! ## `display_map` -/

/-- The symbol that `display_map` prints for the tile `(y, x)`: the terrain
symbol, replaced by the symbol of the unit that the tile refers to, replaced by
`C` when the tile holds a city.  The unit is looked up as
`players[map[y][x].owner_id].units[unit_id]`. -/
def display_tile (game : Game) (y x : Int) : Char :=
  let tile := game.map y x
  let symbol : Char :=
    if tile.terrain = TERRAIN_OCEAN then '~'
    else if tile.terrain = TERRAIN_PLAINS then '.'
    else if tile.terrain = TERRAIN_DESERT then 'd'
    else if tile.terrain = TERRAIN_MOUNTAINS then '^'
    else if tile.terrain = TERRAIN_FOREST then '*'
    else if tile.terrain = TERRAIN_HILLS then 'h'
    else if tile.terrain = TERRAIN_TUNDRA then 't'
    else if tile.terrain = TERRAIN_JUNGLE then 'j'
    else '?'
  let symbol : Char :=
    if tile.unit_id ≠ -1 then
      let unit := (game.players (game.map y x).owner_id).units tile.unit_id
      if unit.type = UNIT_SETTLER then 'S'
      else if unit.type = UNIT_WARRIOR then 'W'
      else if unit.type = UNIT_ARCHER then 'A'
      else if unit.type = UNIT_SWORDSMAN then 's'
      else if unit.type = UNIT_KNIGHT then 'K'
      else if unit.type = UNIT_MUSKETEER then 'M'
      else if unit.type = UNIT_CANNON then 'C'
      else if unit.type = UNIT_TANK then 'T'
      else symbol
    else symbol
  if tile.city_id ≠ -1 then 'C' else symbol

/-- Embedding of `display_map`: the rows of symbols it prints. -/
def display_map (game : Game) : List (List Char) :=
  (List.range MAP_HEIGHT.toNat).map (fun (y : Nat) =>
    (List.range MAP_WIDTH.toNat).map (fun (x : Nat) => display_tile game (y : Int) (x : Int)))

/-! ## Specification-side notions -/

/-- Sum of the populations of the first `city_count` cities of a player. -/
def populationSum (player : Player) : Int :=
  ((List.range player.city_count.toNat).map (fun (i : Nat) => (player.cities (i : Int)).population)).sum

/-- Number of true entries among the `TECH_COUNT` technology flags. -/
def techsKnown (player : Player) : Nat :=
  ((List.range 10).filter (fun (i : Nat) => player.techs (i : Int))).length

/-- Number of grid tiles whose `owner_id` is `p`. -/
def tilesOwned (game : Game) (p : Int) : Nat :=
  ((List.range 15).map (fun (y : Nat) =>
    ((List.range 20).filter (fun (x : Nat) => decide ((game.map (y : Int) (x : Int)).owner_id = p))).length)).sum

/-- Player `i` is the only one of the first `player_count` players that has a city. -/
def SoleSurvivor (g : Game) (i : Int) : Prop :=
  0 ≤ i ∧ i < g.player_count ∧ 1 ≤ (g.players i).city_count ∧
    ∀ j, 0 ≤ j → j < g.player_count → 1 ≤ (g.players j).city_count → j = i

/-- Index `w` is a player of `g` whose score is at least the score of every player. -/
def HighestScorer (g : Game) (w : Int) : Prop :=
  0 ≤ w ∧ w < g.player_count ∧
    ∀ j, 0 ≤ j → j < g.player_count → calculate_score g j ≤ calculate_score g w

/-- What a player of a running game has: agriculture is known, the city count
is not negative, and none of the first `city_count` cities has a negative
population. -/
def Settled (pl : Player) : Prop :=
  pl.techs TECH_AGRICULTURE = true ∧ 0 ≤ pl.city_count ∧
    ∀ c, 0 ≤ c → c < pl.city_count → 0 ≤ (pl.cities c).population

/-- Every one of the first `player_count` players of `g` is `Settled`. -/
def Established (g : Game) : Prop :=
  ∀ q, 0 ≤ q → q < g.player_count → Settled (g.players q)

/-- What one year does to the production queue of a city: `old` is the city
before `end_year`, `new` the same city after it.  With a non-empty queue and
`production_progress ≤ 0` the head entry is removed and the others move up one
place; with `production_progress > 0` the queue is as before. -/
def QueueStep (old new : City) : Prop :=
  (1 ≤ old.queue_count → old.production_progress ≤ 0 →
    new.queue_count = old.queue_count - 1 ∧
    ∀ i, 0 ≤ i → i < old.queue_count - 1 →
      new.production_queue i = old.production_queue (i + 1)) ∧
  (0 < old.production_progress →
    new.queue_count = old.queue_count ∧ new.production_queue = old.production_queue)

/-- A freshly generated tile: terrain in `0..TERRAIN_COUNT-1`, not improved, no
city, no unit, no owner. -/
def FreshTile (t : Tile) : Prop :=
  0 ≤ t.terrain ∧ t.terrain < TERRAIN_COUNT ∧ t.improved = false ∧
    t.city_id = -1 ∧ t.unit_id = -1 ∧ t.owner_id = -1

/-- The starting holdings of player `i`: one city of population 1 and two
units, a settler at index 0 and a warrior at index 1, all owned by `i`. -/
def StartingPlayer (i : Int) (pl : Player) : Prop :=
  pl.city_count = 1 ∧ (pl.cities 0).population = 1 ∧ (pl.cities 0).owner_id = i ∧
    pl.unit_count = 2 ∧ (pl.units 0).type = UNIT_SETTLER ∧ (pl.units 1).type = UNIT_WARRIOR ∧
    (pl.units 0).owner_id = i ∧ (pl.units 1).owner_id = i

/-- Terrain on which a unit may stand: neither ocean nor mountains. -/
def LandTile (t : Tile) : Prop :=
  t.terrain ≠ TERRAIN_OCEAN ∧ t.terrain ≠ TERRAIN_MOUNTAINS

/-- Tile/unit reference consistency: every grid tile whose `unit_id` is some
`k ≠ -1` is the recorded position of unit `k` of some player, with `k` below
that player's `unit_count`. -/
def UnitRefsConsistent (g : Game) : Prop :=
  ∀ y x, 0 ≤ y → y < MAP_HEIGHT → 0 ≤ x → x < MAP_WIDTH → (g.map y x).unit_id ≠ -1 →
    ∃ p, 0 ≤ p ∧ p < g.player_count ∧ (g.map y x).unit_id < (g.players p).unit_count ∧
      ((g.players p).units (g.map y x).unit_id).x = x ∧
      ((g.players p).units (g.map y x).unit_id).y = y

/-- The states reachable from `init_game` through `found_city` and `end_year`,
with any console input and any random stream. -/
inductive ReachFoundYear : Game → Prop
  | init (env : Env) (fuel : Nat) (player_count : Int) (st r : Game × Nat) :
      init_game env fuel player_count st = some r → ReachFoundYear r.1
  | found (env : Env) (g : Game) (city_name : String) :
      ReachFoundYear g → ReachFoundYear (found_city env g city_name)
  | year (env : Env) (g : Game) (k : Nat) :
      ReachFoundYear g → ReachFoundYear (end_year env (g, k)).1

/-- What every player holds in the states of `ReachFoundYear`: units and cities
are three in all, and no city has an entry in its queue. -/
def StartBudget (g : Game) : Prop :=
  ∀ p, 0 ≤ p → p < g.player_count →
    0 ≤ (g.players p).unit_count ∧ 0 ≤ (g.players p).city_count ∧
    (g.players p).unit_count + (g.players p).city_count = 3 ∧
    ∀ c, 0 ≤ c → c < (g.players p).city_count → ((g.players p).cities c).queue_count = 0

/-- The game `g` with the field `researching` of the current player set to `t`
and nothing else changed. -/
def withResearching (g : Game) (t : Int) : Game :=
  let player := { g.players g.current_player with researching := t }
  { g with players := upd g.players g.current_player player }

/-- The recorded position of a unit lies inside the grid. -/
def InGrid (u : Unit) : Prop :=
  0 ≤ u.x ∧ u.x < MAP_WIDTH ∧ 0 ≤ u.y ∧ u.y < MAP_HEIGHT

/-- What `ai_turn` does to one unit on the map `m`: the unit stays as it is, or
it takes a step of at most one in each direction, with wraparound, onto a land
tile. -/
def AiMove (m : Int → Int → Tile) (old new : Unit) : Prop :=
  new = old ∨
    ∃ dx dy, -1 ≤ dx ∧ dx ≤ 1 ∧ -1 ≤ dy ∧ dy ≤ 1 ∧
      new.x = wrap_step old.x dx MAP_WIDTH ∧ new.y = wrap_step old.y dy MAP_HEIGHT ∧
      LandTile (m new.y new.x)

/-- The states the program can be in: the state returned by `init_game`, and
every state obtained from a reachable one by `check_game_over`, `ai_turn`, one of
the menu actions of `player_turn`, the move to the next player, or `end_year`,
with any console input and any random stream. -/
inductive Reachable : Game → Prop
  | init (env : Env) (fuel : Nat) (player_count : Int) (st r : Game × Nat) :
      init_game env fuel player_count st = some r → Reachable r.1
  | check (g : Game) : Reachable g → Reachable (check_game_over g).2
  | ai (env : Env) (g : Game) (k : Nat) : Reachable g → Reachable (ai_turn env (g, k)).1
  | manage (g : Game) (city_choice : Int) (actions : List (Int × Int)) :
      Reachable g → Reachable (manage_cities g city_choice actions)
  | move (g : Game) (unit_choice dx dy : Int) :
      Reachable g → Reachable (move_unit g unit_choice dx dy)
  | found (env : Env) (g : Game) (city_name : String) :
      Reachable g → Reachable (found_city env g city_name)
  | research (g : Game) (tech_choice : Int) :
      Reachable g → Reachable (research_tech g tech_choice)
  | next (g : Game) :
      Reachable g →
        Reachable { g with current_player := (g.current_player + 1).tmod g.player_count }
  | year (env : Env) (g : Game) (k : Nat) : Reachable g → Reachable (end_year env (g, k)).1

/-- The unit lookup of `display_map` on tile `(y, x)` stays inside the arrays:
the tile's `owner_id` is a player index and its `unit_id` is below that player's
`unit_count`. -/
def LookupValid (g : Game) (y x : Int) : Prop :=
  0 ≤ (g.map y x).owner_id ∧ (g.map y x).owner_id < g.player_count ∧
    (g.map y x).unit_id < (g.players (g.map y x).owner_id).unit_count

/-- Unit `s` is the first settler of the player: it is a settler among the
first `unit_count` units, and no unit with a lower index is a settler. -/
def FirstSettler (pl : Player) (s : Int) : Prop :=
  0 ≤ s ∧ s < pl.unit_count ∧ (pl.units s).type = UNIT_SETTLER ∧
    ∀ j, 0 ≤ j → j < s → (pl.units j).type ≠ UNIT_SETTLER

/-- The unit that `end_year` prepares for a completed entry `tag` of player `p`,
before a tile is found for it. -/
def freshUnit (env : Env) (p tag : Int) : Unit :=
  { env.unit with type := tag, health := 100, owner_id := p, x := -1, y := -1 }

/-- The unit `u` with its position set to the tile `(tx, ty)`. -/
def placedUnit (u : Unit) (tx ty : Int) : Unit :=
  { u with x := tx, y := ty }

/-- The map `m` with the `unit_id` of tile `(tx, ty)` set to `k`. -/
def markTile (m : Int → Int → Tile) (ty tx k : Int) : Int → Int → Tile :=
  setTile m ty tx { m ty tx with unit_id := k }

/-- The tile `(tx, ty)` is one of the tiles `((x + pop) mod 20, (y + pop) mod 15)`
with `0 ≤ x, y ≤ pop` that `end_year` scans for a city of population `pop`. -/
def ScanTile (pop ty tx : Int) : Prop :=
  ∃ x y, 0 ≤ x ∧ x ≤ pop ∧ 0 ≤ y ∧ y ≤ pop ∧
    tx = (x + pop) % MAP_WIDTH ∧ ty = (y + pop) % MAP_HEIGHT

/-! ## Sample states -/

/-- A city with population 1 and an empty queue. -/
def sampleCity : City :=
  { name := "Thebes", population := 1, production := 0, food := 0, owner_id := 0,
    buildings := fun _ => 0, building_count := 0, production_queue := fun _ => 0,
    queue_count := 0, production_progress := 0 }

/-- A settler of player 0 at the origin. -/
def sampleUnit : Unit :=
  { type := UNIT_SETTLER, health := 100, movement := 2, strength := 0, experience := 0,
    owner_id := 0, x := 0, y := 0 }

/-- An unclaimed, empty plains tile. -/
def sampleTile : Tile :=
  { terrain := TERRAIN_PLAINS, resource := "", improved := false, city_id := -1,
    unit_id := -1, owner_id := -1 }

/-- A player with no city, no unit and no technology. -/
def barePlayer : Player :=
  { name := "", civ_type := 0, cities := fun _ => sampleCity, city_count := 0,
    units := fun _ => sampleUnit, unit_count := 0, techs := fun _ => false,
    researching := TECH_POTTERY, gold := 100, happiness := 100, is_ai := true,
    relations := fun _ => 0 }

/-- A player with one city and the starting technology. -/
def cityPlayer : Player :=
  { barePlayer with city_count := 1, techs := upd (fun _ => false) TECH_AGRICULTURE true }

/-- Year 0, two players, only player 0 has a city. -/
def conquestGame : Game :=
  { year := 0, map := fun _ _ => sampleTile,
    players := upd (fun _ => barePlayer) 0 cityPlayer,
    player_count := 2, current_player := 0, winner_id := -1 }

/-- Year 0, two players, both with a city. -/
def openGame : Game :=
  { conquestGame with players := fun _ => cityPlayer }

/-- A city of player 0 whose queue holds an archer, then a knight, with the
head entry finished. -/
def queueCity : City :=
  { sampleCity with
    production_queue := upd (upd (fun _ => 0) 0 UNIT_ARCHER) 1 UNIT_KNIGHT,
    queue_count := 2, production_progress := 0 }

/-- Year 0, two players; player 0 owns `queueCity`, on tile `(10, 10)`. -/
def queueGame : Game :=
  { year := 0,
    map := setTile (fun _ _ => sampleTile) 10 10
      { sampleTile with city_id := 0, owner_id := 0 },
    players := upd (fun _ => cityPlayer) 0 { cityPlayer with cities := fun _ => queueCity },
    player_count := 2, current_player := 0, winner_id := -1 }

/-- A random stream that is 0 everywhere, with sample values for the locals. -/
def zeroEnv : Env :=
  { rnd := fun _ => 0, player := barePlayer, city := sampleCity, unit := sampleUnit }

/-- A game whose map holds no fresh tile: every tile is an improved tile of
terrain 99 with a city, a unit and an owner. -/
def staleGame : Game :=
  { year := 0,
    map := fun _ _ =>
      { terrain := 99, resource := "Gold", improved := true,
        city_id := 7, unit_id := 7, owner_id := 7 },
    players := fun _ => barePlayer, player_count := 0, current_player := 0, winner_id := 0 }

/-- A random stream that counts upwards, with sample values for the locals. -/
def countEnv : Env :=
  { rnd := fun k => k, player := barePlayer, city := sampleCity, unit := sampleUnit }

/-- The game `queueGame` with four warriors of player 1 standing on the tiles
`(1, 1)`, `(2, 1)`, `(1, 2)` and `(2, 2)`. -/
def blockedGame : Game :=
  { queueGame with
    map := fun y x =>
      if 1 ≤ y ∧ y ≤ 2 ∧ 1 ≤ x ∧ x ≤ 2 then
        { sampleTile with unit_id := 2 * (y - 1) + (x - 1) }
      else queueGame.map y x,
    players := upd queueGame.players 1
      { cityPlayer with
        units := fun i =>
          { sampleUnit with
            type := UNIT_WARRIOR, owner_id := 1, x := 1 + i.tmod 2, y := 1 + i.tdiv 2 },
        unit_count := 4 } }

/-- A random stream that is 0 at the cursors `2, 6, 10, ...` and 1 elsewhere:
`generate_map` then lays plains on the even columns and ocean on the odd ones. -/
def stripeEnv : Env :=
  { rnd := fun k => if k % 4 = 2 then 0 else 1,
    player := barePlayer, city := sampleCity, unit := sampleUnit }

/-- The game `conquestGame` in which player 0 also knows pottery (technology 1). -/
def potteryGame : Game :=
  { conquestGame with
    players := upd conquestGame.players 0
      { cityPlayer with techs := upd cityPlayer.techs TECH_POTTERY true } }

/-- A player with a settler on tile `(0, 0)` followed by a warrior on tile
`(1, 0)`, and no city. -/
def shiftPlayer : Player :=
  { barePlayer with
    units := upd (fun _ => sampleUnit) 1
      { sampleUnit with type := UNIT_WARRIOR, strength := 10, x := 1, y := 0 },
    unit_count := 2 }

/-- Year 0, one player, `shiftPlayer`; the tiles `(0, 0)` and `(1, 0)` hold the
indices 0 and 1 of its settler and its warrior. -/
def shiftGame : Game :=
  { year := 0,
    map := setTile (setTile (fun _ _ => sampleTile) 0 0 { sampleTile with unit_id := 0 }) 0 1
      { sampleTile with unit_id := 1 },
    players := fun _ => shiftPlayer,
    player_count := 1, current_player := 0, winner_id := -1 }

/-- The game `shiftGame` with ocean on the column `x = 2`. -/
def coastGame : Game :=
  { shiftGame with
    map := fun y x =>
      if x = 2 then { sampleTile with terrain := TERRAIN_OCEAN } else shiftGame.map y x }

/-- A random stream that is 2 everywhere (every AI step is `dx = dy = 1`), with
sample values for the locals. -/
def stepEnv : Env :=
  { rnd := fun _ => 2, player := barePlayer, city := sampleCity, unit := sampleUnit }

/-- A city whose queue holds an archer with half of the work left. -/
def slowCity : City :=
  { sampleCity with
    production_queue := upd (fun _ => 0) 0 UNIT_ARCHER,
    queue_count := 1, production_progress := 50 }

/-- The game `queueGame` in which player 0 owns two cities: `slowCity` at index
0 and `queueCity` at index 1. -/
def twinGame : Game :=
  { queueGame with
    players := upd queueGame.players 0
      { cityPlayer with
        cities := fun i => if i = 1 then queueCity else slowCity, city_count := 2 } }

/-- A random stream that is 7 everywhere (every research roll succeeds), with
sample values for the locals. -/
def luckyEnv : Env :=
  { rnd := fun _ => 7, player := barePlayer, city := sampleCity, unit := sampleUnit }

/-- The game `shiftGame` with a city of index 0 already standing on the
settler's tile `(0, 0)`. -/
def settledGame : Game :=
  { shiftGame with
    map := setTile shiftGame.map 0 0 { sampleTile with city_id := 0, unit_id := 0 } }

/-- The random stream of a quiet game: the stream of `stripeEnv` for the 608
draws of `init_game` with two players, and 0 from then on (no city grows and
every research roll succeeds). -/
def quietEnv : Env :=
  { rnd := fun k => if k < 608 then (if k % 4 = 2 then 0 else 1) else 0,
    player := barePlayer, city := sampleCity, unit := sampleUnit }

/-- The calls `end_year` of `n` successive years. -/
def yearsPass (env : Env) : Nat → Game × Nat → Game × Nat
  | 0, st => st
  | n + 1, st => yearsPass env n (end_year env st)

/-- One round of recruiting by player 0: in `manage_cities` the player orders a
warrior in city 1, eleven years pass (ten for the work, one for the completion),
and in `move_unit` the player moves the new unit, the last of its list, two
columns to the right. -/
def recruit (env : Env) (st : Game × Nat) : Game × Nat :=
  let st1 := yearsPass env 11 (manage_cities st.1 1 [(1, 2)], st.2)
  (move_unit st1.1 (st1.1.players 0).unit_count 2 0, st1.2)

/-- The first `n` rounds of recruiting. -/
def recruits (env : Env) : Nat → Game × Nat → Game × Nat
  | 0, st => st
  | n + 1, st => recruits env n (recruit env st)

/-- Player 0 moves its first settler (unit 1 of the menu) off the capital, by 18
columns and 7 rows, and founds a city there. -/
def firstColony (env : Env) (st : Game × Nat) : Game × Nat :=
  (found_city env (move_unit st.1 1 18 7) "Colony", st.2)

/-- Round `j` of settling by player 0: the player orders a settler in city 1,
eleven years pass, the player moves the new settler, the last unit of its list,
to a tile of its own (`2 + 2 * (j % 8)` columns and `j / 8` rows away), and
founds a city there. -/
def settle (env : Env) (j : Int) (st : Game × Nat) : Game × Nat :=
  let st1 := yearsPass env 11 (manage_cities st.1 1 [(1, 1)], st.2)
  let g2 := move_unit st1.1 (st1.1.players 0).unit_count (2 + 2 * j.tmod 8) (j.tdiv 8)
  (found_city env g2 "Colony", st1.2)

/-- The `n` rounds of settling from round `j` on. -/
def settles (env : Env) : Nat → Int → Game × Nat → Game × Nat
  | 0, _, st => st
  | n + 1, j, st => settles env n (j + 1) (settle env j st)

/-! ## Loop lemmas -/

theorem forUp_succ_last {σ : Type} (body : Int → σ → σ) (n : Nat) (lo : Int) (s : σ) :
    forUp body (n + 1) lo s = body (lo + n) (forUp body n lo s) := by
  induction n generalizing lo s with
  | zero => simp [forUp]
  | succ n ih =>
    rw [forUp, ih (lo + 1) (body lo s)]
    have h : lo + 1 + (n : Int) = lo + ((n + 1 : Nat) : Int) := by push_cast; ring
    rw [h]
    rfl

/-- Invariant rule for `forUp`. -/
theorem forUp_inv {σ : Type} (body : Int → σ → σ) (P : Int → σ → Prop) (n : Nat) (lo : Int)
    (s : σ) (h0 : P lo s)
    (hstep : ∀ i s, lo ≤ i → i < lo + n → P i s → P (i + 1) (body i s)) :
    P (lo + n) (forUp body n lo s) := by
  induction n generalizing lo s with
  | zero => simpa [forUp] using h0
  | succ n ih =>
    have h1 : P (lo + 1) (body lo s) :=
      hstep lo s (le_refl _) (by push_cast; omega) h0
    have h2 := ih (lo + 1) (body lo s) h1 (fun i t hi1 hi2 hp =>
      hstep i t (by omega) (by push_cast; omega) hp)
    have h : lo + 1 + (n : Int) = lo + ((n + 1 : Nat) : Int) := by push_cast; ring
    rw [h] at h2
    exact h2

theorem forUp_add (f : Int → Int) (n : Nat) (s : Int) :
    forUp (fun i acc => acc + f i) n 0 s
      = s + ((List.range n).map (fun (i : Nat) => f (i : Int))).sum := by
  induction n with
  | zero => simp [forUp]
  | succ n ih =>
    rw [forUp_succ_last, ih, List.range_succ]
    simp
    ring

theorem forUp_count (c : Int → Prop) [DecidablePred c] (w : Int) (n : Nat) (s : Int) :
    forUp (fun i acc => if c i then acc + w else acc) n 0 s
      = s + w * (((List.range n).filter (fun (i : Nat) => decide (c (i : Int)))).length : Int) := by
  induction n with
  | zero => simp [forUp]
  | succ n ih =>
    rw [forUp_succ_last, ih, List.range_succ, List.filter_append]
    by_cases h : c (n : Int) <;> simp [h]
    ring

theorem sum_map_mul_const (f : Nat → Int) (w : Int) (l : List Nat) :
    (l.map (fun i => f i * w)).sum = w * (l.map f).sum := by
  induction l with
  | nil => simp
  | cons a l ih => simp [ih]; ring

theorem sum_map_const_mul_cast (f : Nat → Nat) (w : Int) (l : List Nat) :
    (l.map (fun i => w * (f i : Int))).sum = w * ((l.map f).sum : Int) := by
  induction l with
  | nil => simp
  | cons a l ih => simp [ih]; ring

/-! ## Claim C1 -/

/-- C1: `calculate_score game p` is `100*C + 50*S + 50*T + 5*N`, where `C` is the
city count of player `p`, `S` the sum of the populations of its first `C` cities,
`T` the number of true technology flags and `N` the number of tiles owned by `p`.
It holds for every game state and every index, in particular for
`0 ≤ p < player_count`. -/
theorem calculate_score_formula (game : Game) (p : Int) :
    calculate_score game p
      = 100 * (game.players p).city_count + 50 * populationSum (game.players p)
        + 50 * (techsKnown (game.players p) : Int) + 5 * (tilesOwned game p : Int) := by
  unfold calculate_score populationSum techsKnown tilesOwned
  simp only [forUp_add, forUp_count, sum_map_mul_const, sum_map_const_mul_cast]
  have h10 : TECH_COUNT.toNat = 10 := rfl
  have h20 : MAP_WIDTH.toNat = 20 := rfl
  have h15 : MAP_HEIGHT.toNat = 15 := rfl
  simp only [h10, h20, h15, Bool.decide_eq_true]
  ring

/-! ## `check_game_over` -/

theorem all_conquered_iff (g : Game) (i : Int) (n : Nat) (lo : Int) :
    all_conquered g i n lo = true ↔
      ∀ j, lo ≤ j → j < lo + n → ¬ (i ≠ j ∧ (g.players j).city_count > 0) := by
  induction n generalizing lo with
  | zero =>
    simp only [all_conquered, true_iff]
    intro j h1 h2
    simp at h2
    omega
  | succ n ih =>
    rw [all_conquered]
    by_cases h : i ≠ lo ∧ (g.players lo).city_count > 0
    · rw [if_pos h]
      constructor
      · intro hf; exact absurd hf (by decide)
      · intro hall
        exact absurd h (hall lo (le_refl _) (by push_cast; omega))
    · rw [if_neg h, ih]
      constructor
      · intro hall j h1 h2
        by_cases hj : j = lo
        · subst hj; exact h
        · exact hall j (by omega) (by push_cast at h2; omega)
      · intro hall j h1 h2
        exact hall j (by omega) (by push_cast; omega)

/-- The two outcomes of the conquest loop: it stops at the first player that has
a city while nobody else has, or it runs through and changes nothing. -/
theorem conquest_cases (g : Game) (n : Nat) (lo : Int) :
    (∃ i, lo ≤ i ∧ i < lo + n ∧ (g.players i).city_count ≠ 0 ∧
        all_conquered g i g.player_count.toNat 0 = true ∧
        conquest g n lo = (true, { g with winner_id := i })) ∨
    (conquest g n lo = (false, g) ∧
      ∀ i, lo ≤ i → i < lo + n →
        ¬ ((g.players i).city_count ≠ 0 ∧ all_conquered g i g.player_count.toNat 0 = true)) := by
  induction n generalizing lo with
  | zero =>
    right
    refine ⟨rfl, ?_⟩
    intro i h1 h2
    simp at h2
    omega
  | succ n ih =>
    rw [conquest]
    by_cases h0 : (g.players lo).city_count = 0
    · rw [if_pos h0]
      rcases ih (lo + 1) with ⟨i, h1, h2, h3⟩ | ⟨h1, h2⟩
      · left
        exact ⟨i, by omega, by push_cast; omega, h3⟩
      · right
        refine ⟨h1, ?_⟩
        intro i hi1 hi2
        by_cases hi : i = lo
        · subst hi; intro hc; exact hc.1 h0
        · exact h2 i (by omega) (by push_cast at hi2; omega)
    · rw [if_neg h0]
      by_cases hc : all_conquered g lo g.player_count.toNat 0 = true
      · rw [if_pos hc]
        left
        exact ⟨lo, le_refl _, by push_cast; omega, h0, hc, rfl⟩
      · rw [if_neg hc]
        rcases ih (lo + 1) with ⟨i, h1, h2, h3⟩ | ⟨h1, h2⟩
        · left
          exact ⟨i, by omega, by push_cast; omega, h3⟩
        · right
          refine ⟨h1, ?_⟩
          intro i hi1 hi2
          by_cases hi : i = lo
          · subst hi; intro hc2; exact hc hc2.2
          · exact h2 i (by omega) (by push_cast at hi2; omega)

theorem sole_all_conquered (g : Game) (i : Int) (h : SoleSurvivor g i) :
    all_conquered g i g.player_count.toNat 0 = true := by
  rw [all_conquered_iff]
  intro j h1 h2 hc
  have hj : j < g.player_count := by omega
  exact hc.1 (h.2.2.2 j h1 hj (by omega)).symm

/-- With a sole survivor `i`, the conquest loop returns true with winner `i`. -/
theorem conquest_sole (g : Game) (i : Int) (h : SoleSurvivor g i) :
    conquest g g.player_count.toNat 0 = (true, { g with winner_id := i }) := by
  rcases conquest_cases g g.player_count.toNat 0 with ⟨k, h1, h2, h3, h4, h5⟩ | ⟨_, h2⟩
  · have hk : k = i := by
      by_contra hne
      rw [all_conquered_iff] at h4
      exact h4 i h.1 (by have := h.2.1; omega) ⟨hne, by have := h.2.2.1; omega⟩
    rw [h5, hk]
  · exact absurd ⟨by have := h.2.2.1; omega, sole_all_conquered g i h⟩
      (h2 i h.1 (by have := h.2.1; omega))

/-! ## Claim C2 -/

/-- C2: in a game state whose city counts are not negative, `check_game_over`
returns true if and only if `year ≥ END_YEAR` or exactly one of the first
`player_count` players has `city_count ≥ 1`. -/
theorem check_game_over_iff (g : Game)
    (hcount : ∀ j, 0 ≤ j → j < g.player_count → 0 ≤ (g.players j).city_count) :
    (check_game_over g).1 = true ↔ (END_YEAR ≤ g.year ∨ ∃ i, SoleSurvivor g i) := by
  unfold check_game_over
  by_cases hy : g.year ≥ END_YEAR
  · rw [if_pos hy]
    simp only [true_iff]
    exact Or.inl hy
  · rw [if_neg hy]
    constructor
    · intro hres
      right
      rcases conquest_cases g g.player_count.toNat 0 with ⟨i, h1, h2, h3, h4, _⟩ | ⟨h1, _⟩
      · have hi : i < g.player_count := by omega
        refine ⟨i, h1, hi, ?_, ?_⟩
        · have := hcount i h1 hi
          omega
        · intro j hj1 hj2 hj3
          rw [all_conquered_iff] at h4
          by_contra hne
          exact h4 j hj1 (by omega) ⟨fun e => hne e.symm, by omega⟩
      · rw [h1] at hres
        exact absurd hres Bool.false_ne_true
    · intro h
      rcases h with h | ⟨i, hi⟩
      · exact absurd h hy
      · rw [conquest_sole g i hi]

/-- Witness for C2: a two-player game in year 0 where only player 0 has a city. -/
theorem check_game_over_iff_witness :
    (check_game_over conquestGame).1 = true ∧
      ((check_game_over conquestGame).1 = true ↔
        (END_YEAR ≤ conquestGame.year ∨ ∃ i, SoleSurvivor conquestGame i)) :=
  ⟨by decide, check_game_over_iff conquestGame (by
    intro j _ _
    show (0 : Int) ≤ (if j = 0 then cityPlayer else barePlayer).city_count
    split_ifs <;> decide)⟩

/-! ## `check_game_over`: the time victory -/

theorem calculate_score_winner (g : Game) (w p : Int) :
    calculate_score { g with winner_id := w } p = calculate_score g p := rfl

/-- Invariant of the time-victory loop after `n` iterations: only `winner_id`
has changed, `highest_score` bounds the scores seen so far, and either no score
was positive and the winner is untouched, or the winner is an index seen so far
whose positive score is `highest_score`. -/
theorem time_victory_inv (g : Game) (n : Nat) :
    (forUp time_victory_step n 0 (0, g)).2
        = { g with winner_id := (forUp time_victory_step n 0 (0, g)).2.winner_id } ∧
      (∀ j, 0 ≤ j → j < (n : Int) →
        calculate_score g j ≤ (forUp time_victory_step n 0 (0, g)).1) ∧
      (((forUp time_victory_step n 0 (0, g)).1 = 0 ∧
          (forUp time_victory_step n 0 (0, g)).2.winner_id = g.winner_id) ∨
        (0 < (forUp time_victory_step n 0 (0, g)).1 ∧
          0 ≤ (forUp time_victory_step n 0 (0, g)).2.winner_id ∧
          (forUp time_victory_step n 0 (0, g)).2.winner_id < (n : Int) ∧
          calculate_score g (forUp time_victory_step n 0 (0, g)).2.winner_id
            = (forUp time_victory_step n 0 (0, g)).1)) := by
  induction n with
  | zero =>
    refine ⟨rfl, ?_, Or.inl ⟨rfl, rfl⟩⟩
    intro j h1 h2
    simp at h2
    omega
  | succ n ih =>
    rw [forUp_succ_last]
    generalize forUp time_victory_step n 0 (0, g) = st at ih
    obtain ⟨hs, hg⟩ := st
    obtain ⟨h1, h2, h3⟩ := ih
    simp only at h1 h2 h3
    have hsc : calculate_score hg (0 + (n : Int)) = calculate_score g (n : Int) := by
      rw [h1, calculate_score_winner, zero_add]
    unfold time_victory_step
    simp only [hsc]
    by_cases hgt : calculate_score g (n : Int) > hs
    · rw [if_pos hgt]
      refine ⟨?_, ?_, Or.inr ⟨?_, ?_, ?_, ?_⟩⟩
      · show ({ hg with winner_id := 0 + (n : Int) } : Game) = _
        rw [h1]
      · intro j hj1 hj2
        show calculate_score g j ≤ calculate_score g (n : Int)
        by_cases hj : j = (n : Int)
        · rw [hj]
        · have := h2 j hj1 (by push_cast at hj2; omega)
          omega
      · show 0 < calculate_score g (n : Int)
        rcases h3 with h3 | h3 <;> omega
      · show (0 : Int) ≤ 0 + (n : Int)
        omega
      · show 0 + (n : Int) < ((n + 1 : Nat) : Int)
        push_cast; omega
      · show calculate_score g (0 + (n : Int)) = calculate_score g (n : Int)
        rw [zero_add]
    · rw [if_neg hgt]
      refine ⟨h1, ?_, ?_⟩
      · intro j hj1 hj2
        show calculate_score g j ≤ hs
        by_cases hj : j = (n : Int)
        · rw [hj]; omega
        · exact h2 j hj1 (by push_cast at hj2; omega)
      · rcases h3 with h3 | ⟨h3, h4, h5, h6⟩
        · exact Or.inl h3
        · exact Or.inr ⟨h3, h4, by push_cast; omega, h6⟩

/-- The time-victory branch of `check_game_over`: it returns true; if some
player has a positive score, `winner_id` becomes the index of a player whose
score is at least every player's score; otherwise `winner_id` is not written. -/
theorem time_victory_outcome (g : Game) (hy : END_YEAR ≤ g.year) :
    (check_game_over g).1 = true ∧
      ((∃ i, 0 ≤ i ∧ i < g.player_count ∧ 0 < calculate_score g i) →
        HighestScorer (check_game_over g).2 (check_game_over g).2.winner_id) ∧
      ((∀ i, 0 ≤ i → i < g.player_count → calculate_score g i ≤ 0) →
        (check_game_over g).2.winner_id = g.winner_id) := by
  unfold check_game_over
  rw [if_pos (show g.year ≥ END_YEAR from hy)]
  obtain ⟨h1, h2, h3⟩ := time_victory_inv g g.player_count.toNat
  simp only
  generalize forUp time_victory_step g.player_count.toNat 0 (0, g) = st at h1 h2 h3
  refine ⟨trivial, ?_, ?_⟩
  · rintro ⟨i, hi1, hi2, hi3⟩
    have hbound := h2 i hi1 (by omega)
    rcases h3 with ⟨h3, _⟩ | ⟨_, h4, h5, h6⟩
    · omega
    · unfold HighestScorer
      rw [h1]
      simp only [calculate_score_winner]
      refine ⟨h4, by omega, ?_⟩
      intro j hj1 hj2
      rw [h6]
      exact h2 j hj1 (by omega)
  · intro hall
    rcases h3 with ⟨_, h3⟩ | ⟨h3, h4, h5, h6⟩
    · exact h3
    · have := hall _ h4 (by omega)
      omega

/-! ## Claim C4 -/

/-- C4: when `year < END_YEAR` and player `i` is the only player with
`city_count ≥ 1`, `check_game_over` returns true and sets `winner_id` to `i`;
and whenever `check_game_over` returns false, `winner_id` is unchanged. -/
theorem check_game_over_conquest (g : Game) :
    (∀ i, g.year < END_YEAR → SoleSurvivor g i →
      (check_game_over g).1 = true ∧ (check_game_over g).2.winner_id = i) ∧
    ((check_game_over g).1 = false → (check_game_over g).2.winner_id = g.winner_id) := by
  constructor
  · intro i hy hi
    unfold check_game_over
    rw [if_neg (show ¬ g.year ≥ END_YEAR by omega), conquest_sole g i hi]
    exact ⟨rfl, rfl⟩
  · unfold check_game_over
    by_cases hy : g.year ≥ END_YEAR
    · rw [if_pos hy]
      intro h
      exact absurd h (by simp)
    · rw [if_neg hy]
      rcases conquest_cases g g.player_count.toNat 0 with ⟨i, _, _, _, _, h5⟩ | ⟨h1, _⟩
      · rw [h5]
        intro h
        exact absurd h (by simp)
      · rw [h1]
        intro _
        rfl

theorem sole_conquestGame : SoleSurvivor conquestGame 0 := by
  refine ⟨by decide, by decide, by decide, ?_⟩
  intro j _ _ hj
  by_contra hne
  have : (conquestGame.players j).city_count = 0 := by
    show (if j = 0 then cityPlayer else barePlayer).city_count = 0
    rw [if_neg hne]
    rfl
  omega

/-- Witness for C4: in `conquestGame` player 0 wins by conquest, and in
`openGame`, where both players have a city, the call returns false and the
winner stays -1. -/
theorem check_game_over_conquest_witness :
    ((check_game_over conquestGame).1 = true ∧ (check_game_over conquestGame).2.winner_id = 0) ∧
      (check_game_over openGame).1 = false ∧ (check_game_over openGame).2.winner_id = -1 :=
  ⟨(check_game_over_conquest conquestGame).1 0 (by decide) sole_conquestGame,
    by decide, (check_game_over_conquest openGame).2 (by decide)⟩

/-! ## `end_year`: frame lemmas -/

theorem end_year_city_year (env : Env) (p c : Int) (st : Game × Nat) :
    (end_year_city env p c st).1.year = st.1.year ∧
    (end_year_city env p c st).1.player_count = st.1.player_count := by
  unfold end_year_city
  dsimp only
  split_ifs <;> exact ⟨rfl, rfl⟩

theorem end_year_city_other_player (env : Env) (p c q : Int) (st : Game × Nat) (h : q ≠ p) :
    (end_year_city env p c st).1.players q = st.1.players q := by
  unfold end_year_city
  dsimp only
  split_ifs <;> simp [upd, h]

theorem end_year_city_count (env : Env) (p c q : Int) (st : Game × Nat) :
    ((end_year_city env p c st).1.players q).city_count = (st.1.players q).city_count := by
  by_cases h : q = p
  · subst h
    unfold end_year_city
    dsimp only
    split_ifs <;> simp [upd]
  · rw [end_year_city_other_player env p c q st h]

theorem end_year_city_other_city (env : Env) (p c d : Int) (st : Game × Nat) (h : d ≠ c) :
    ((end_year_city env p c st).1.players p).cities d = (st.1.players p).cities d := by
  unfold end_year_city
  dsimp only
  split_ifs <;> simp [upd, h]

theorem end_year_research_year (env : Env) (p : Int) (st : Game × Nat) :
    (end_year_research env p st).1.year = st.1.year ∧
    (end_year_research env p st).1.player_count = st.1.player_count := by
  unfold end_year_research
  dsimp only
  split_ifs <;> exact ⟨rfl, rfl⟩

theorem end_year_research_other_player (env : Env) (p q : Int) (st : Game × Nat) (h : q ≠ p) :
    (end_year_research env p st).1.players q = st.1.players q := by
  unfold end_year_research
  dsimp only
  split_ifs <;> simp [upd, h]

theorem end_year_research_cities (env : Env) (p q : Int) (st : Game × Nat) :
    ((end_year_research env p st).1.players q).cities = (st.1.players q).cities ∧
    ((end_year_research env p st).1.players q).city_count = (st.1.players q).city_count := by
  unfold end_year_research
  dsimp only
  by_cases h : q = p
  · subst h
    split_ifs <;> simp [upd]
  · split_ifs <;> simp [upd, h]

/-- The city loop of one player keeps the year, the player count and every
other player. -/
theorem city_loop_frame (env : Env) (p : Int) (n : Nat) (st : Game × Nat) :
    (forUp (fun c st => end_year_city env p c st) n 0 st).1.year = st.1.year ∧
    (forUp (fun c st => end_year_city env p c st) n 0 st).1.player_count = st.1.player_count ∧
    (∀ q, q ≠ p →
      (forUp (fun c st => end_year_city env p c st) n 0 st).1.players q = st.1.players q) ∧
    ((forUp (fun c st => end_year_city env p c st) n 0 st).1.players p).city_count
      = (st.1.players p).city_count := by
  induction n with
  | zero => exact ⟨rfl, rfl, fun _ _ => rfl, rfl⟩
  | succ n ih =>
    rw [forUp_succ_last]
    obtain ⟨h1, h2, h3, h4⟩ := ih
    refine ⟨?_, ?_, ?_, ?_⟩
    · rw [(end_year_city_year _ _ _ _).1, h1]
    · rw [(end_year_city_year _ _ _ _).2, h2]
    · intro q hq
      rw [end_year_city_other_player _ _ _ _ _ hq, h3 q hq]
    · rw [end_year_city_count, h4]

theorem end_year_player_frame (env : Env) (p : Int) (st : Game × Nat) :
    (end_year_player env p st).1.year = st.1.year ∧
    (end_year_player env p st).1.player_count = st.1.player_count ∧
    (∀ q, q ≠ p → (end_year_player env p st).1.players q = st.1.players q) := by
  unfold end_year_player
  obtain ⟨h1, h2, h3, _⟩ := city_loop_frame env p (st.1.players p).city_count.toNat st
  refine ⟨?_, ?_, ?_⟩
  · rw [(end_year_research_year _ _ _).1, h1]
  · rw [(end_year_research_year _ _ _).2, h2]
  · intro q hq
    rw [end_year_research_other_player _ _ _ _ hq, h3 q hq]

/-- The player loop keeps the year and the player count, and leaves alone every
player it has not reached. -/
theorem player_loop_frame (env : Env) (n : Nat) (st : Game × Nat) :
    (forUp (fun p st => end_year_player env p st) n 0 st).1.year = st.1.year ∧
    (forUp (fun p st => end_year_player env p st) n 0 st).1.player_count = st.1.player_count ∧
    (∀ q, (n : Int) ≤ q →
      (forUp (fun p st => end_year_player env p st) n 0 st).1.players q = st.1.players q) := by
  induction n with
  | zero => exact ⟨rfl, rfl, fun _ _ => rfl⟩
  | succ n ih =>
    rw [forUp_succ_last]
    obtain ⟨h1, h2, h3⟩ := ih
    obtain ⟨f1, f2, f3⟩ := end_year_player_frame env (0 + (n : Int))
      (forUp (fun p st => end_year_player env p st) n 0 st)
    refine ⟨by rw [f1, h1], by rw [f2, h2], ?_⟩
    intro q hq
    rw [f3 q (by push_cast at hq; omega), h3 q (by push_cast at hq; omega)]

/-! ## Claim C5 -/

/-- C5: for every game state and every random stream, one application of
`end_year` yields a state whose year is the previous year plus 10. -/
theorem end_year_advances_ten (env : Env) (g : Game) (k : Nat) :
    (end_year env (g, k)).1.year = g.year + 10 := by
  unfold end_year
  rw [(player_loop_frame env _ _).1]

/-! ## Claim C6 -/

/-- The shift loop of the dequeue moves entries `1..n` to `0..n-1` and leaves
the cells from `n` on as they were. -/
theorem shift_loop (q : Int → Int) (n : Nat) :
    (∀ i, 0 ≤ i → i < (n : Int) →
      forUp (fun i q => upd q i (q (i + 1))) n 0 q i = q (i + 1)) ∧
    (∀ i, (n : Int) ≤ i → forUp (fun i q => upd q i (q (i + 1))) n 0 q i = q i) := by
  induction n with
  | zero =>
    refine ⟨?_, fun _ _ => rfl⟩
    intro i h1 h2
    simp at h2
    omega
  | succ n ih =>
    rw [forUp_succ_last]
    obtain ⟨h1, h2⟩ := ih
    constructor
    · intro i hi1 hi2
      by_cases hi : i = (n : Int)
      · subst hi
        simp only [upd, zero_add, if_true]
        exact h2 _ (by omega)
      · simp only [upd, zero_add, if_neg hi]
        exact h1 i hi1 (by push_cast at hi2; omega)
    · intro i hi
      have hne : i ≠ (n : Int) := by push_cast at hi; omega
      simp only [upd, zero_add, if_neg hne]
      exact h2 i (by push_cast at hi; omega)

/-- The body of the city loop acts on its own city as `QueueStep` says. -/
theorem end_year_city_queue (env : Env) (p c : Int) (st : Game × Nat) :
    QueueStep ((st.1.players p).cities c) (((end_year_city env p c st).1.players p).cities c) := by
  unfold end_year_city QueueStep
  dsimp only
  constructor
  · intro h1 h2
    rw [if_pos (show ((st.1.players p).cities c).queue_count > 0 by omega), if_pos h2]
    simp only [upd, if_true]
    refine ⟨trivial, ?_⟩
    intro i hi1 hi2
    exact (shift_loop _ _).1 i hi1 (by omega)
  · intro h
    split_ifs <;> first | omega | simp [upd]

/-- The city loop of player `p` acts on each of its cities as `QueueStep` says. -/
theorem city_loop_queue (env : Env) (p c : Int) (old : City) (n : Nat) (st : Game × Nat)
    (h0 : (st.1.players p).cities c = old) :
    (c < 0 ∨ (n : Int) ≤ c →
      ((forUp (fun c st => end_year_city env p c st) n 0 st).1.players p).cities c = old) ∧
    (0 ≤ c → c < (n : Int) →
      QueueStep old
        (((forUp (fun c st => end_year_city env p c st) n 0 st).1.players p).cities c)) := by
  induction n with
  | zero =>
    refine ⟨fun _ => h0, ?_⟩
    intro h1 h2
    simp at h2
    omega
  | succ n ih =>
    rw [forUp_succ_last]
    obtain ⟨h1, h2⟩ := ih
    constructor
    · intro hc
      rw [end_year_city_other_city _ _ _ _ _ (by push_cast at hc; omega)]
      exact h1 (by push_cast at hc; omega)
    · intro hc1 hc2
      by_cases hc : c = (n : Int)
      · have hq := end_year_city_queue env p c
          (forUp (fun c st => end_year_city env p c st) n 0 st)
        rw [h1 (Or.inr (by omega))] at hq
        have e : (0 : Int) + (n : Int) = c := by omega
        rw [e]
        exact hq
      · rw [end_year_city_other_city _ _ _ _ _ (by omega)]
        exact h2 hc1 (by push_cast at hc2; omega)

theorem end_year_player_queue (env : Env) (p c : Int) (st : Game × Nat)
    (hc1 : 0 ≤ c) (hc2 : c < (st.1.players p).city_count) :
    QueueStep ((st.1.players p).cities c)
      (((end_year_player env p st).1.players p).cities c) := by
  unfold end_year_player
  rw [(end_year_research_cities _ _ _ _).1]
  exact (city_loop_queue env p c _ _ st rfl).2 hc1 (by omega)

/-- The player loop acts on each city of each player it has reached as
`QueueStep` says. -/
theorem player_loop_queue (env : Env) (p c : Int) (n : Nat) (st : Game × Nat)
    (hc1 : 0 ≤ c) (hc2 : c < (st.1.players p).city_count) (hp1 : 0 ≤ p) (hp2 : p < (n : Int)) :
    QueueStep ((st.1.players p).cities c)
      (((forUp (fun p st => end_year_player env p st) n 0 st).1.players p).cities c) := by
  induction n with
  | zero => simp at hp2; omega
  | succ n ih =>
    rw [forUp_succ_last]
    by_cases hp : p = (n : Int)
    · have hq := end_year_player_queue env p c
        (forUp (fun p st => end_year_player env p st) n 0 st) hc1
        (by rw [(player_loop_frame env n st).2.2 p (by omega)]; exact hc2)
      rw [(player_loop_frame env n st).2.2 p (by omega)] at hq
      have e : (0 : Int) + (n : Int) = p := by omega
      rw [e]
      exact hq
    · rw [(end_year_player_frame env _ _).2.2 p (by omega)]
      exact ih (by push_cast at hp2; omega)

/-- C6: for a city `c` of a player `p` of the game, one application of
`end_year` acts on the production queue as follows.  If `1 ≤ queue_count ≤ 10`
and `production_progress ≤ 0`, then `queue_count` decreases by exactly 1 and the
remaining entries are the former entries `1..queue_count-1` in the same order.
If `production_progress > 0`, no entry is removed: `queue_count` and the queue
are unchanged. -/
theorem end_year_dequeues_head (env : Env) (g : Game) (k : Nat) (p c : Int)
    (hp : 0 ≤ p ∧ p < g.player_count) (hc : 0 ≤ c ∧ c < (g.players p).city_count) :
    (1 ≤ ((g.players p).cities c).queue_count → ((g.players p).cities c).queue_count ≤ 10 →
      ((g.players p).cities c).production_progress ≤ 0 →
      (((end_year env (g, k)).1.players p).cities c).queue_count
          = ((g.players p).cities c).queue_count - 1 ∧
        ∀ i, 0 ≤ i → i < ((g.players p).cities c).queue_count - 1 →
          (((end_year env (g, k)).1.players p).cities c).production_queue i
            = ((g.players p).cities c).production_queue (i + 1)) ∧
    (0 < ((g.players p).cities c).production_progress →
      (((end_year env (g, k)).1.players p).cities c).queue_count
          = ((g.players p).cities c).queue_count ∧
        (((end_year env (g, k)).1.players p).cities c).production_queue
          = ((g.players p).cities c).production_queue) := by
  have h := player_loop_queue env p c g.player_count.toNat
    ({ g with year := g.year + 10 }, k) hc.1 hc.2 hp.1 (by have := hp.2; omega)
  unfold QueueStep at h
  unfold end_year
  exact ⟨fun h1 _ h3 => h.1 h1 h3, h.2⟩

/-- Witness for C6: in `queueGame` the city of player 0 has the queue
archer, knight with the head finished; after `end_year` the queue is knight. -/
theorem end_year_dequeues_head_witness :
    (((end_year zeroEnv (queueGame, 0)).1.players 0).cities 0).queue_count = 1 ∧
      (((end_year zeroEnv (queueGame, 0)).1.players 0).cities 0).production_queue 0
        = UNIT_KNIGHT := by
  have h := (end_year_dequeues_head zeroEnv queueGame 0 0 0
    ⟨by decide, by decide⟩ ⟨by decide, by decide⟩).1 (by decide) (by decide) (by decide)
  exact ⟨h.1, h.2 0 (by decide) (by decide)⟩

/-! ## Claim C7 -/

/-- C7 fails on the code.  In `queueGame` the only city stands on tile
`(10, 10)`, every tile is free and the owner has no unit; `end_year` completes
the archer and puts it on tile `(2, 2)`, eight tiles away from the city.  In
`blockedGame` the tile next to the city is free and the owner has no unit, but
the four tiles that the search visits are occupied, and the owner gains no
unit. -/
theorem end_year_unit_not_near_city :
    ((queueGame.map 10 10).city_id = 0 ∧ (queueGame.map 10 10).owner_id = 0 ∧
      (∀ y x, (queueGame.map y x).city_id ≠ -1 → y = 10 ∧ x = 10) ∧
      (queueGame.map 10 11).unit_id = -1 ∧ (queueGame.players 0).unit_count = 0 ∧
      ((end_year zeroEnv (queueGame, 0)).1.players 0).unit_count = 1 ∧
      (((end_year zeroEnv (queueGame, 0)).1.players 0).units 0).type = UNIT_ARCHER ∧
      (((end_year zeroEnv (queueGame, 0)).1.players 0).units 0).x = 2 ∧
      (((end_year zeroEnv (queueGame, 0)).1.players 0).units 0).y = 2) ∧
    ((blockedGame.map 10 10).city_id = 0 ∧ (blockedGame.map 10 11).unit_id = -1 ∧
      (blockedGame.players 0).unit_count = 0 ∧
      ((end_year zeroEnv (blockedGame, 0)).1.players 0).unit_count = 0 ∧
      (((end_year zeroEnv (blockedGame, 0)).1.players 0).cities 0).queue_count = 1) := by
  refine ⟨⟨by decide, by decide, ?_, by decide, by decide, by decide, by decide, by decide,
    by decide⟩, by decide, by decide, by decide, by decide, by decide⟩
  intro y x h
  by_contra hne
  apply h
  show (if y = 10 ∧ x = 10 then _ else sampleTile).city_id = -1
  rw [if_neg hne]
  rfl

/-! ## Claim C8 -/

theorem forUpOpt_succ_last {σ : Type} (body : Int → σ → Option σ) (n : Nat) (lo : Int) (s : σ) :
    forUpOpt body (n + 1) lo s = (forUpOpt body n lo s).bind (body (lo + n)) := by
  induction n generalizing lo s with
  | zero =>
    simp only [forUpOpt, Nat.cast_zero, add_zero, Option.some_bind]
    cases body lo s <;> rfl
  | succ n ih =>
    rw [forUpOpt]
    cases hb : body lo s with
    | none => simp [forUpOpt, hb]
    | some t =>
      simp only []
      rw [ih (lo + 1) t]
      have h : lo + 1 + (n : Int) = lo + ((n + 1 : Nat) : Int) := by push_cast; ring
      rw [h]
      conv_rhs => rw [forUpOpt, hb]

/-- The body of the loop of `create_players`, when it returns, has stored the
starting holdings of player `i` and has left the other players alone. -/
theorem create_player_some (env : Env) (fuel : Nat) (i : Int) (st r : Game × Nat)
    (h : create_player env fuel i st = some r) :
    StartingPlayer i (r.1.players i) ∧ ∀ q, q ≠ i → r.1.players q = st.1.players q := by
  unfold create_player at h
  dsimp only at h
  split at h
  · exact absurd h (by simp)
  · injection h with h
    subst h
    constructor
    · unfold StartingPlayer
      simp [upd]
    · intro q hq
      simp [upd, hq, Game.setUnitId, Game.setCityId, Game.setOwnerId]

theorem create_players_loop (env : Env) (fuel : Nat) (n : Nat) (st r : Game × Nat)
    (h : forUpOpt (create_player env fuel) n 0 st = some r) :
    ∀ i, 0 ≤ i → i < (n : Int) → StartingPlayer i (r.1.players i) := by
  induction n generalizing r with
  | zero =>
    intro i h1 h2
    simp at h2
    omega
  | succ n ih =>
    intro i hi1 hi2
    rw [forUpOpt_succ_last] at h
    cases hm : forUpOpt (create_player env fuel) n 0 st with
    | none => rw [hm] at h; exact absurd h (by simp)
    | some mid =>
      rw [hm, Option.some_bind] at h
      obtain ⟨h1, h2⟩ := create_player_some env fuel _ mid r h
      by_cases hi : i = (n : Int)
      · have e : (0 : Int) + (n : Int) = i := by omega
        rw [e] at h1
        exact h1
      · rw [h2 i (by omega)]
        exact ih mid hm i hi1 (by push_cast at hi2; omega)

/-- C8: for every `player_count` in `2..8`, every random stream and every
bound on the do-while loop with which `create_players` returns, each created
player `i` has `city_count = 1` with `cities[0].population = 1` and
`cities[0].owner_id = i`, and `unit_count = 2` with `units[0]` a settler and
`units[1]` a warrior, both owned by `i`. -/
theorem create_players_holdings (env : Env) (fuel : Nat) (player_count : Int)
    (st r : Game × Nat) (hpc : 2 ≤ player_count ∧ player_count ≤ 8)
    (h : create_players env fuel player_count st = some r) (i : Int)
    (hi : 0 ≤ i ∧ i < player_count) :
    StartingPlayer i (r.1.players i) :=
  create_players_loop env fuel player_count.toNat st r h i hi.1 (by have := hi.2; omega)

/-- Witness for C8: on a map of plains with the zero stream, `create_players`
returns for two players, and player 1 has its starting holdings. -/
theorem create_players_holdings_witness :
    ∃ r, create_players zeroEnv 1 2 (conquestGame, 0) = some r ∧
      StartingPlayer 1 (r.1.players 1) := by
  obtain ⟨r, hr⟩ := Option.isSome_iff_exists.mp
    (show (create_players zeroEnv 1 2 (conquestGame, 0)).isSome = true by decide)
  exact ⟨r, hr, create_players_holdings zeroEnv 1 2 (conquestGame, 0) r
    ⟨by decide, by decide⟩ hr 1 ⟨by decide, by decide⟩⟩

/-! ## Claim C9 -/

theorem find_start_land (env : Env) (m : Int → Int → Tile) (fuel k : Nat) (x y : Int) (k1 : Nat)
    (h : find_start env m fuel k = some (x, y, k1)) : LandTile (m y x) := by
  induction fuel generalizing k with
  | zero => exact absurd h (by simp [find_start])
  | succ fuel ih =>
    rw [find_start] at h
    split_ifs at h with hc
    · exact ih _ h
    · injection h with h
      injection h with hx h
      injection h with hy _
      subst hx hy
      unfold LandTile
      exact ⟨fun e => hc (Or.inl e), fun e => hc (Or.inr e)⟩

/-- The body of the loop of `create_players` records the settler on a land tile
and changes no terrain. -/
theorem create_player_settler (env : Env) (fuel : Nat) (i : Int) (st r : Game × Nat)
    (h : create_player env fuel i st = some r) :
    LandTile (st.1.map ((r.1.players i).units 0).y ((r.1.players i).units 0).x) ∧
      ∀ y x, (r.1.map y x).terrain = (st.1.map y x).terrain := by
  unfold create_player at h
  dsimp only at h
  split at h
  · exact absurd h (by simp)
  · rename_i sx sy k1 hfs
    injection h with h
    subst h
    constructor
    · simpa [upd] using find_start_land env st.1.map fuel st.2 sx sy k1 hfs
    · intro y x
      simp only [Game.setUnitId, Game.setCityId, Game.setOwnerId, setTile]
      split_ifs <;> simp_all

/-- The settler half of C9 holds: whenever `create_players` returns, the settler
of every created player is recorded on a tile that is neither ocean nor
mountains. -/
theorem create_players_settler_on_land (env : Env) (fuel : Nat) (n : Nat) (st r : Game × Nat)
    (h : forUpOpt (create_player env fuel) n 0 st = some r) :
    (∀ y x, (r.1.map y x).terrain = (st.1.map y x).terrain) ∧
    ∀ i, 0 ≤ i → i < (n : Int) →
      LandTile (r.1.map ((r.1.players i).units 0).y ((r.1.players i).units 0).x) := by
  induction n generalizing r with
  | zero =>
    simp only [forUpOpt, Option.some.injEq] at h
    subst h
    refine ⟨fun _ _ => rfl, ?_⟩
    intro i h1 h2
    simp at h2
    omega
  | succ n ih =>
    rw [forUpOpt_succ_last] at h
    cases hm : forUpOpt (create_player env fuel) n 0 st with
    | none => rw [hm] at h; exact absurd h (by simp)
    | some mid =>
      rw [hm, Option.some_bind] at h
      obtain ⟨t1, t2⟩ := ih mid hm
      obtain ⟨c1, c2⟩ := create_player_settler env fuel _ mid r h
      obtain ⟨_, o2⟩ := create_player_some env fuel _ mid r h
      refine ⟨fun y x => by rw [c2, t1], ?_⟩
      intro i hi1 hi2
      unfold LandTile at *
      rw [c2]
      by_cases hi : i = (n : Int)
      · have e : (0 : Int) + (n : Int) = i := by omega
        rw [e] at c1
        exact c1
      · rw [o2 i (by omega)]
        exact t2 i hi1 (by push_cast at hi2; omega)

/-- C9 fails on the code.  With two players and the stream `stripeEnv`,
`init_game` generates plains on the even columns and ocean on the odd ones; the
start of player 0 is drawn as `(1, 1)`, rejected, then as `(0, 1)`, accepted.
The settler is recorded on the plains tile `(0, 1)`, and the warrior, placed one
column to the right without a terrain test, is recorded on the ocean tile
`(1, 1)`. -/
theorem create_players_warrior_on_ocean :
    (init_game stripeEnv 5 2 (staleGame, 0)).map (fun r =>
        (((r.1.players 0).units 0).type, ((r.1.players 0).units 0).x,
          ((r.1.players 0).units 0).y,
          (r.1.map ((r.1.players 0).units 0).y ((r.1.players 0).units 0).x).terrain))
      = some (UNIT_SETTLER, 0, 1, TERRAIN_PLAINS) ∧
    (init_game stripeEnv 5 2 (staleGame, 0)).map (fun r =>
        (((r.1.players 0).units 1).type, ((r.1.players 0).units 1).x,
          ((r.1.players 0).units 1).y,
          (r.1.map ((r.1.players 0).units 1).y ((r.1.players 0).units 1).x).terrain))
      = some (UNIT_WARRIOR, 1, 1, TERRAIN_OCEAN) :=
  ⟨by decide!, by decide!⟩

/-! ## Claim C10 -/

/-- The body of the inner loop of `generate_map` writes a fresh tile at
`(y, x)` and leaves every other tile as it was. -/
theorem generate_tile_cases (env : Env) (y x : Int) (st : Game × Nat) (y1 x1 : Int) :
    (y1 = y ∧ x1 = x ∧ FreshTile ((generate_tile env y x st).1.map y1 x1)) ∨
      (¬ (y1 = y ∧ x1 = x) ∧ (generate_tile env y x st).1.map y1 x1 = st.1.map y1 x1) := by
  have hnn : (0 : Int) ≤ rand env st.2 := Int.ofNat_nonneg _
  have ht1 : 0 ≤ (rand env st.2).tmod TERRAIN_COUNT := Int.tmod_nonneg _ hnn
  have ht2 : (rand env st.2).tmod TERRAIN_COUNT < TERRAIN_COUNT :=
    Int.tmod_lt_of_pos _ (by decide)
  by_cases h : y1 = y ∧ x1 = x
  · left
    obtain ⟨hy, hx⟩ := h
    subst hy hx
    refine ⟨rfl, rfl, ?_⟩
    unfold generate_tile FreshTile
    dsimp only
    split_ifs <;> simp [setTile, ht1, ht2]
  · right
    refine ⟨h, ?_⟩
    unfold generate_tile
    dsimp only
    split_ifs <;> simp [setTile, h]

/-- A row of `generate_map`: fresh tiles stay fresh, and the first `n` tiles of
row `y` are fresh after `n` iterations. -/
theorem generate_row (env : Env) (y : Int) (n : Nat) (st : Game × Nat) :
    (∀ y1 x1, FreshTile (st.1.map y1 x1) →
      FreshTile ((forUp (fun x st => generate_tile env y x st) n 0 st).1.map y1 x1)) ∧
    (∀ x1, 0 ≤ x1 → x1 < (n : Int) →
      FreshTile ((forUp (fun x st => generate_tile env y x st) n 0 st).1.map y x1)) := by
  induction n with
  | zero =>
    refine ⟨fun _ _ h => h, ?_⟩
    intro x1 h1 h2
    simp at h2
    omega
  | succ n ih =>
    rw [forUp_succ_last]
    obtain ⟨h1, h2⟩ := ih
    constructor
    · intro y1 x1 hf
      rcases generate_tile_cases env y (0 + (n : Int))
        (forUp (fun x st => generate_tile env y x st) n 0 st) y1 x1 with ⟨_, _, h⟩ | ⟨_, h⟩
      · exact h
      · rw [h]; exact h1 y1 x1 hf
    · intro x1 hx1 hx2
      rcases generate_tile_cases env y (0 + (n : Int))
        (forUp (fun x st => generate_tile env y x st) n 0 st) y x1 with ⟨_, _, h⟩ | ⟨hne, h⟩
      · exact h
      · rw [h]
        exact h2 x1 hx1 (by push_cast at hx2; omega)

/-- The rows of `generate_map`: after `n` rows, every tile of the first `n`
rows and the first `MAP_WIDTH` columns is fresh. -/
theorem generate_rows (env : Env) (n : Nat) (st : Game × Nat) :
    ∀ y1 x1, 0 ≤ y1 → y1 < (n : Int) → 0 ≤ x1 → x1 < MAP_WIDTH →
      FreshTile ((forUp (fun y st =>
        forUp (fun x st => generate_tile env y x st) MAP_WIDTH.toNat 0 st) n 0 st).1.map y1 x1) := by
  induction n with
  | zero =>
    intro y1 x1 h1 h2
    simp at h2
    omega
  | succ n ih =>
    intro y1 x1 hy1 hy2 hx1 hx2
    rw [forUp_succ_last]
    by_cases hy : y1 = (n : Int)
    · have e : (0 : Int) + (n : Int) = y1 := by omega
      rw [e]
      exact (generate_row env y1 MAP_WIDTH.toNat _).2 x1 hx1 (by simpa using hx2)
    · exact (generate_row env _ MAP_WIDTH.toNat _).1 y1 x1
        (ih y1 x1 hy1 (by push_cast at hy2; omega) hx1 hx2)

/-- C10: for every random stream (its values are natural numbers) and every
initial contents of the game, after `generate_map` each of the
`MAP_HEIGHT × MAP_WIDTH` tiles has a terrain in `0..TERRAIN_COUNT-1`,
`improved = false` and `city_id = unit_id = owner_id = -1`. -/
theorem generate_map_fills (env : Env) (g : Game) (k : Nat) (y x : Int)
    (hy : 0 ≤ y ∧ y < MAP_HEIGHT) (hx : 0 ≤ x ∧ x < MAP_WIDTH) :
    FreshTile ((generate_map env (g, k)).1.map y x) := by
  unfold generate_map
  exact generate_rows env MAP_HEIGHT.toNat (g, k) y x hy.1 (by simpa using hy.2) hx.1 hx.2

/-- Witness for C10: on a map without a fresh tile, the last tile `(14, 19)` is
fresh after `generate_map`. -/
theorem generate_map_fills_witness :
    ¬ FreshTile (staleGame.map 14 19) ∧
      FreshTile ((generate_map countEnv (staleGame, 0)).1.map 14 19) :=
  ⟨fun h => absurd h.2.1 (by decide),
    generate_map_fills countEnv staleGame 0 14 19 ⟨by decide, by decide⟩ ⟨by decide, by decide⟩⟩

/-! ## Claim C11 -/

/-- C11 fails on the code.  After `init_game` with two players and the stream
`stripeEnv`, both players start on tile `(0, 1)`; `create_players` writes on
that tile the `unit_id` 1, the index of the warrior, although the unit recorded
there is the settler at index 0, and the warriors of both players are recorded
on tile `(1, 1)`.  So the tile `(0, 1)` refers to a unit index that no player
has recorded at `(0, 1)`, and the state is not consistent. -/
theorem init_game_unit_refs_inconsistent :
    ∃ r, init_game stripeEnv 5 2 (staleGame, 0) = some r ∧
      r.1.player_count = 2 ∧ (r.1.map 1 0).unit_id = 1 ∧
      ((r.1.players 0).units 0).x = 0 ∧ ((r.1.players 0).units 0).y = 1 ∧
      ((r.1.players 0).units 1).x = 1 ∧ ((r.1.players 1).units 1).x = 1 ∧
      ¬ UnitRefsConsistent r.1 := by
  obtain ⟨r, hr⟩ := Option.isSome_iff_exists.mp
    (show (init_game stripeEnv 5 2 (staleGame, 0)).isSome = true by decide!)
  have h1 : (init_game stripeEnv 5 2 (staleGame, 0)).map (fun r =>
      (r.1.player_count, (r.1.map 1 0).unit_id, ((r.1.players 0).units 0).x,
        ((r.1.players 0).units 0).y)) = some (2, 1, 0, 1) := by decide!
  have h2 : (init_game stripeEnv 5 2 (staleGame, 0)).map (fun r =>
      (((r.1.players 0).units 1).x, ((r.1.players 1).units 1).x)) = some (1, 1) := by decide!
  rw [hr] at h1 h2
  simp only [Option.map_some', Option.some.injEq, Prod.mk.injEq] at h1 h2
  obtain ⟨a1, a2, a3, a4⟩ := h1
  obtain ⟨b1, b2⟩ := h2
  refine ⟨r, hr, a1, a2, a3, a4, b1, b2, ?_⟩
  intro hc
  obtain ⟨p, hp1, hp2, _, hx, _⟩ := hc 1 0 (by decide) (by decide) (by decide) (by decide)
    (by rw [a2]; decide)
  rw [a2] at hx
  rw [a1] at hp2
  have hp : p = 0 ∨ p = 1 := by omega
  rcases hp with hp | hp <;> subst hp <;> omega

/-! ## Claim C12 -/

/-- C12 fails on the code.  In the state that `init_game` builds for two players
with the stream `stripeEnv`, the human player opens city 1 in `manage_cities`
and selects "produce unit, settler" eleven times: every selection is valid, no
selection is refused, and the city ends with `queue_count = 11`, one more than
the capacity 10 of `production_queue`. -/
theorem manage_cities_overflows_queue :
    (init_game stripeEnv 5 2 (staleGame, 0)).map (fun r =>
        (r.1.current_player, (r.1.players 0).city_count,
          ((r.1.players 0).cities 0).queue_count,
          (((manage_cities r.1 1 (List.replicate 11 (1, 1))).players 0).cities 0).queue_count))
      = some (0, 1, 0, 11) := by
  decide!

/-! ## `end_year`: what one city and one player go through -/

/-- A city of player `p` below index `n` ends the city loop as the body of the
loop leaves it, run in a state where the city was still as at the start. -/
theorem city_loop_exact (env : Env) (p c : Int) (n : Nat) (st : Game × Nat)
    (hc1 : 0 ≤ c) (hc2 : c < (n : Int)) :
    ∃ st1 : Game × Nat, (st1.1.players p).cities c = (st.1.players p).cities c ∧
      ((forUp (fun c st => end_year_city env p c st) n 0 st).1.players p).cities c
        = ((end_year_city env p c st1).1.players p).cities c := by
  induction n with
  | zero => simp at hc2; omega
  | succ n ih =>
    rw [forUp_succ_last]
    by_cases hc : c = (n : Int)
    · refine ⟨forUp (fun c st => end_year_city env p c st) n 0 st, ?_, ?_⟩
      · exact (city_loop_queue env p c _ n st rfl).1 (Or.inr (by omega))
      · have e : (0 : Int) + (n : Int) = c := by omega
        rw [e]
    · obtain ⟨st1, h1, h2⟩ := ih (by push_cast at hc2; omega)
      refine ⟨st1, h1, ?_⟩
      rw [end_year_city_other_city _ _ _ _ _ (by omega)]
      exact h2

/-- A player below index `n` ends the player loop as the body of the loop
leaves it, run in a state where the player was still as at the start. -/
theorem player_loop_exact (env : Env) (p : Int) (n : Nat) (st : Game × Nat)
    (hp1 : 0 ≤ p) (hp2 : p < (n : Int)) :
    ∃ st1 : Game × Nat, st1.1.players p = st.1.players p ∧
      (forUp (fun p st => end_year_player env p st) n 0 st).1.players p
        = (end_year_player env p st1).1.players p := by
  induction n with
  | zero => simp at hp2; omega
  | succ n ih =>
    rw [forUp_succ_last]
    by_cases hp : p = (n : Int)
    · refine ⟨forUp (fun p st => end_year_player env p st) n 0 st, ?_, ?_⟩
      · exact (player_loop_frame env n st).2.2 p (by omega)
      · have e : (0 : Int) + (n : Int) = p := by omega
        rw [e]
    · obtain ⟨st1, h1, h2⟩ := ih (by push_cast at hp2; omega)
      refine ⟨st1, h1, ?_⟩
      rw [(end_year_player_frame env _ _).2.2 p (by omega)]
      exact h2

/-- A player of the game ends `end_year` as the body of the player loop leaves
it, run in a state where the player was still as before `end_year`. -/
theorem end_year_player_exact (env : Env) (g : Game) (k : Nat) (p : Int)
    (hp : 0 ≤ p ∧ p < g.player_count) :
    ∃ st1 : Game × Nat, st1.1.players p = g.players p ∧
      (end_year env (g, k)).1.players p = (end_year_player env p st1).1.players p := by
  unfold end_year
  exact player_loop_exact env p g.player_count.toNat ({ g with year := g.year + 10 }, k)
    hp.1 (by have := hp.2; omega)

/-- A city of a player of the game ends `end_year` as the body of the city loop
leaves it, run in a state where the city was still as before `end_year`. -/
theorem end_year_city_exact (env : Env) (g : Game) (k : Nat) (p c : Int)
    (hp : 0 ≤ p ∧ p < g.player_count) (hc : 0 ≤ c ∧ c < (g.players p).city_count) :
    ∃ st1 : Game × Nat, (st1.1.players p).cities c = (g.players p).cities c ∧
      ((end_year env (g, k)).1.players p).cities c
        = ((end_year_city env p c st1).1.players p).cities c := by
  obtain ⟨st1, h1, h2⟩ := end_year_player_exact env g k p hp
  obtain ⟨st2, h3, h4⟩ := city_loop_exact env p c (st1.1.players p).city_count.toNat st1
    hc.1 (by rw [h1]; have := hc.2; omega)
  refine ⟨st2, by rw [h3, h1], ?_⟩
  rw [h2]
  unfold end_year_player
  rw [(end_year_research_cities _ _ _ _).1]
  exact h4

/-- A city that does not complete an entry (its queue is empty or its
`production_progress` is positive) leaves its owner's units and the map alone. -/
theorem end_year_city_idle (env : Env) (p c : Int) (st : Game × Nat)
    (h : ¬ (((st.1.players p).cities c).queue_count > 0 ∧
      ((st.1.players p).cities c).production_progress ≤ 0)) :
    ((end_year_city env p c st).1.players p).units = (st.1.players p).units ∧
    ((end_year_city env p c st).1.players p).unit_count = (st.1.players p).unit_count ∧
    (end_year_city env p c st).1.map = st.1.map := by
  unfold end_year_city
  dsimp only
  split_ifs <;> first | (exfalso; exact h ⟨by assumption, by assumption⟩) | simp [upd]

theorem city_loop_idle (env : Env) (p : Int) (n : Nat) (st : Game × Nat)
    (h : ∀ d, 0 ≤ d → d < (n : Int) →
      ¬ (((st.1.players p).cities d).queue_count > 0 ∧
        ((st.1.players p).cities d).production_progress ≤ 0)) :
    ((forUp (fun c st => end_year_city env p c st) n 0 st).1.players p).units
        = (st.1.players p).units ∧
    ((forUp (fun c st => end_year_city env p c st) n 0 st).1.players p).unit_count
        = (st.1.players p).unit_count ∧
    (forUp (fun c st => end_year_city env p c st) n 0 st).1.map = st.1.map := by
  induction n with
  | zero => exact ⟨rfl, rfl, rfl⟩
  | succ n ih =>
    rw [forUp_succ_last]
    obtain ⟨h1, h2, h3⟩ := ih (fun d hd1 hd2 => h d hd1 (by push_cast; omega))
    have hcity := (city_loop_queue env p (0 + (n : Int)) _ n st rfl).1 (Or.inr (by omega))
    have hidle := end_year_city_idle env p (0 + (n : Int))
      (forUp (fun c st => end_year_city env p c st) n 0 st)
      (by rw [hcity]; exact h _ (by omega) (by push_cast; omega))
    exact ⟨by rw [hidle.1, h1], by rw [hidle.2.1, h2], by rw [hidle.2.2, h3]⟩

theorem end_year_research_units (env : Env) (p q : Int) (st : Game × Nat) :
    ((end_year_research env p st).1.players q).units = (st.1.players q).units ∧
    ((end_year_research env p st).1.players q).unit_count = (st.1.players q).unit_count := by
  unfold end_year_research
  dsimp only
  by_cases h : q = p
  · subst h
    split_ifs <;> simp [upd]
  · split_ifs <;> simp [upd, h]

/-- When no city of a player completes an entry, `end_year` leaves the units of
that player alone. -/
theorem end_year_idle_units (env : Env) (g : Game) (k : Nat) (p : Int)
    (hp : 0 ≤ p ∧ p < g.player_count)
    (h : ∀ d, 0 ≤ d → d < (g.players p).city_count →
      ¬ (((g.players p).cities d).queue_count > 0 ∧
        ((g.players p).cities d).production_progress ≤ 0)) :
    ((end_year env (g, k)).1.players p).units = (g.players p).units ∧
    ((end_year env (g, k)).1.players p).unit_count = (g.players p).unit_count := by
  obtain ⟨st1, h1, h2⟩ := end_year_player_exact env g k p hp
  rw [h2]
  unfold end_year_player
  have hl := city_loop_idle env p (st1.1.players p).city_count.toNat st1
    (by rw [h1]; intro d hd1 hd2; exact h d hd1 (by omega))
  rw [(end_year_research_units _ _ _ _).1, (end_year_research_units _ _ _ _).2, hl.1, hl.2.1, h1]
  exact ⟨rfl, rfl⟩

theorem end_year_city_count_kept (env : Env) (g : Game) (k : Nat) (p : Int)
    (hp : 0 ≤ p ∧ p < g.player_count) :
    ((end_year env (g, k)).1.players p).city_count = (g.players p).city_count := by
  obtain ⟨st1, h1, h2⟩ := end_year_player_exact env g k p hp
  rw [h2]
  unfold end_year_player
  rw [(end_year_research_cities _ _ _ _).2, (city_loop_frame env p _ st1).2.2.2, h1]

/-! ## `init_game`: frame lemmas -/

theorem generate_tile_frame (env : Env) (y x : Int) (st : Game × Nat) :
    (generate_tile env y x st).1.year = st.1.year ∧
    (generate_tile env y x st).1.player_count = st.1.player_count ∧
    (generate_tile env y x st).1.current_player = st.1.current_player ∧
    (generate_tile env y x st).1.winner_id = st.1.winner_id := by
  unfold generate_tile
  dsimp only
  split_ifs <;> exact ⟨rfl, rfl, rfl, rfl⟩

theorem generate_map_frame (env : Env) (st : Game × Nat) :
    (generate_map env st).1.year = st.1.year ∧
    (generate_map env st).1.player_count = st.1.player_count ∧
    (generate_map env st).1.current_player = st.1.current_player ∧
    (generate_map env st).1.winner_id = st.1.winner_id := by
  unfold generate_map
  refine forUp_inv _ (fun _ t => t.1.year = st.1.year ∧ t.1.player_count = st.1.player_count ∧
    t.1.current_player = st.1.current_player ∧ t.1.winner_id = st.1.winner_id) _ 0 st
    ⟨rfl, rfl, rfl, rfl⟩ ?_
  intro y t _ _ ht
  refine forUp_inv _ (fun _ t => t.1.year = st.1.year ∧ t.1.player_count = st.1.player_count ∧
    t.1.current_player = st.1.current_player ∧ t.1.winner_id = st.1.winner_id) _ 0 t ht ?_
  intro x u _ _ hu
  obtain ⟨f1, f2, f3, f4⟩ := generate_tile_frame env y x u
  exact ⟨by rw [f1, hu.1], by rw [f2, hu.2.1], by rw [f3, hu.2.2.1], by rw [f4, hu.2.2.2]⟩

theorem create_player_frame (env : Env) (fuel : Nat) (i : Int) (st r : Game × Nat)
    (h : create_player env fuel i st = some r) :
    r.1.year = st.1.year ∧ r.1.player_count = st.1.player_count ∧
    r.1.current_player = st.1.current_player ∧ r.1.winner_id = st.1.winner_id ∧
    ((r.1.players i).cities 0).queue_count = 0 := by
  unfold create_player at h
  dsimp only at h
  split at h
  · exact absurd h (by simp)
  · injection h with h
    subst h
    simp [upd, Game.setUnitId, Game.setCityId, Game.setOwnerId]

theorem create_players_frame (env : Env) (fuel : Nat) (n : Nat) (st r : Game × Nat)
    (h : forUpOpt (create_player env fuel) n 0 st = some r) :
    (r.1.year = st.1.year ∧ r.1.player_count = st.1.player_count ∧
      r.1.current_player = st.1.current_player ∧ r.1.winner_id = st.1.winner_id) ∧
    ∀ i, 0 ≤ i → i < (n : Int) → ((r.1.players i).cities 0).queue_count = 0 := by
  induction n generalizing r with
  | zero =>
    simp only [forUpOpt, Option.some.injEq] at h
    subst h
    refine ⟨⟨rfl, rfl, rfl, rfl⟩, ?_⟩
    intro i h1 h2
    simp at h2
    omega
  | succ n ih =>
    rw [forUpOpt_succ_last] at h
    cases hm : forUpOpt (create_player env fuel) n 0 st with
    | none => rw [hm] at h; exact absurd h (by simp)
    | some mid =>
      rw [hm, Option.some_bind] at h
      obtain ⟨⟨t1, t2, t3, t4⟩, t5⟩ := ih mid hm
      obtain ⟨c1, c2, c3, c4, c5⟩ := create_player_frame env fuel _ mid r h
      obtain ⟨_, o2⟩ := create_player_some env fuel _ mid r h
      refine ⟨⟨by rw [c1, t1], by rw [c2, t2], by rw [c3, t3], by rw [c4, t4]⟩, ?_⟩
      intro i hi1 hi2
      by_cases hi : i = (n : Int)
      · have e : (0 : Int) + (n : Int) = i := by omega
        rw [e] at c5
        exact c5
      · rw [o2 i (by omega)]
        exact t5 i hi1 (by push_cast at hi2; omega)

/-- The state that `init_game` returns: year `START_YEAR`, the given player
count, player 0 to move, no winner, and every player with its starting holdings
and an empty queue in its capital. -/
theorem init_game_state (env : Env) (fuel : Nat) (player_count : Int) (st r : Game × Nat)
    (h : init_game env fuel player_count st = some r) :
    r.1.year = START_YEAR ∧ r.1.player_count = player_count ∧ r.1.current_player = 0 ∧
    r.1.winner_id = -1 ∧
    ∀ i, 0 ≤ i → i < player_count →
      StartingPlayer i (r.1.players i) ∧ ((r.1.players i).cities 0).queue_count = 0 := by
  unfold init_game create_players at h
  dsimp only at h
  obtain ⟨⟨f1, f2, f3, f4⟩, f5⟩ := create_players_frame env fuel _ _ r h
  refine ⟨by rw [f1, (generate_map_frame env _).1],
    by rw [f2, (generate_map_frame env _).2.1],
    by rw [f3, (generate_map_frame env _).2.2.1],
    by rw [f4, (generate_map_frame env _).2.2.2], ?_⟩
  intro i hi1 hi2
  exact ⟨create_players_loop env fuel _ _ r h i hi1 (by omega), f5 i hi1 (by omega)⟩

/-! ## `found_city`: frame lemmas -/

theorem find_settler_range (pl : Player) (n : Nat) (lo : Int) (hlo : 0 ≤ lo) :
    find_settler pl n lo = -1 ∨
      (lo ≤ find_settler pl n lo ∧ find_settler pl n lo < lo + n ∧
        (pl.units (find_settler pl n lo)).type = UNIT_SETTLER) := by
  induction n generalizing lo with
  | zero => left; rfl
  | succ n ih =>
    rw [find_settler]
    split_ifs with h
    · right
      exact ⟨le_refl _, by push_cast; omega, h⟩
    · rcases ih (lo + 1) (by omega) with h1 | ⟨h1, h2, h3⟩
      · left; exact h1
      · right
        exact ⟨by omega, by push_cast; omega, h3⟩

theorem found_city_frame (env : Env) (g : Game) (nm : String) :
    (found_city env g nm).year = g.year ∧
    (found_city env g nm).player_count = g.player_count ∧
    (found_city env g nm).current_player = g.current_player ∧
    (found_city env g nm).winner_id = g.winner_id ∧
    ∀ q, q ≠ g.current_player → (found_city env g nm).players q = g.players q := by
  unfold found_city
  dsimp only
  split_ifs <;>
    simp +contextual [upd, Game.setUnitId, Game.setCityId, Game.setOwnerId]

/-- The two outcomes of `found_city` for the current player: nothing changes, or
the player had at least one unit, loses one, and gains a city with an empty
queue at the old `city_count`, the earlier cities staying as they were. -/
theorem found_city_counts (env : Env) (g : Game) (nm : String) :
    found_city env g nm = g ∨
    (1 ≤ (g.players g.current_player).unit_count ∧
      ((found_city env g nm).players g.current_player).unit_count
        = (g.players g.current_player).unit_count - 1 ∧
      ((found_city env g nm).players g.current_player).city_count
        = (g.players g.current_player).city_count + 1 ∧
      (((found_city env g nm).players g.current_player).cities
        (g.players g.current_player).city_count).queue_count = 0 ∧
      ∀ c, c ≠ (g.players g.current_player).city_count →
        ((found_city env g nm).players g.current_player).cities c
          = (g.players g.current_player).cities c) := by
  have hr := find_settler_range (g.players g.current_player)
    (g.players g.current_player).unit_count.toNat 0 (le_refl _)
  unfold found_city
  dsimp only
  split_ifs with h1 h2
  · left; rfl
  · left; rfl
  · right
    rcases hr with hr | ⟨_, hr, _⟩
    · exact absurd hr h1
    · refine ⟨by omega, ?_, ?_, ?_, ?_⟩ <;>
        simp +contextual [upd, Game.setUnitId, Game.setCityId, Game.setOwnerId]

/-! ## Claim C13 -/

/-- A city with an empty queue keeps its queue count through the body of the
city loop. -/
theorem end_year_city_queue_empty (env : Env) (p c : Int) (st : Game × Nat)
    (h : ((st.1.players p).cities c).queue_count = 0) :
    (((end_year_city env p c st).1.players p).cities c).queue_count = 0 := by
  unfold end_year_city
  dsimp only
  rw [if_neg (by omega)]
  simp [upd, h]

theorem start_budget_init (env : Env) (fuel : Nat) (player_count : Int) (st r : Game × Nat)
    (h : init_game env fuel player_count st = some r) : StartBudget r.1 := by
  obtain ⟨_, h2, _, _, h5⟩ := init_game_state env fuel player_count st r h
  intro p hp1 hp2
  rw [h2] at hp2
  obtain ⟨⟨s1, _, _, s4, _⟩, hq⟩ := h5 p hp1 hp2
  refine ⟨by omega, by omega, by omega, ?_⟩
  intro c hc1 hc2
  have hc : c = 0 := by omega
  rw [hc]
  exact hq

theorem start_budget_found (env : Env) (g : Game) (nm : String) (h : StartBudget g) :
    StartBudget (found_city env g nm) := by
  obtain ⟨_, f2, _, _, f5⟩ := found_city_frame env g nm
  intro p hp1 hp2
  rw [f2] at hp2
  obtain ⟨b1, b2, b3, b4⟩ := h p hp1 hp2
  by_cases hp : p = g.current_player
  · subst hp
    rcases found_city_counts env g nm with hsame | ⟨c1, c2, c3, c4, c5⟩
    · rw [hsame]
      exact ⟨b1, b2, b3, b4⟩
    · refine ⟨by omega, by omega, by omega, ?_⟩
      intro c hc1 hc2
      by_cases hc : c = (g.players g.current_player).city_count
      · rw [hc]; exact c4
      · rw [c5 c hc]
        exact b4 c hc1 (by omega)
  · rw [f5 p hp]
    exact ⟨b1, b2, b3, b4⟩

theorem start_budget_year (env : Env) (g : Game) (k : Nat) (h : StartBudget g) :
    StartBudget (end_year env (g, k)).1 := by
  intro p hp1 hp2
  have hpc : (end_year env (g, k)).1.player_count = g.player_count := by
    unfold end_year
    rw [(player_loop_frame env _ _).2.1]
  rw [hpc] at hp2
  obtain ⟨b1, b2, b3, b4⟩ := h p hp1 hp2
  have hidle := end_year_idle_units env g k p ⟨hp1, hp2⟩
    (fun d hd1 hd2 hcon => by have := b4 d hd1 hd2; omega)
  have hcc := end_year_city_count_kept env g k p ⟨hp1, hp2⟩
  refine ⟨by rw [hidle.2]; exact b1, by rw [hcc]; exact b2, by rw [hidle.2, hcc]; exact b3, ?_⟩
  intro c hc1 hc2
  rw [hcc] at hc2
  obtain ⟨st1, e1, e2⟩ := end_year_city_exact env g k p c ⟨hp1, hp2⟩ ⟨hc1, hc2⟩
  rw [e2]
  exact end_year_city_queue_empty env p c st1 (by rw [e1]; exact b4 c hc1 hc2)

theorem start_budget_reach (g : Game) (h : ReachFoundYear g) : StartBudget g := by
  induction h with
  | init env fuel pc st r hr => exact start_budget_init env fuel pc st r hr
  | found env g nm _ ih => exact start_budget_found env g nm ih
  | year env g k _ ih => exact start_budget_year env g k ih

/-- In the states reachable from `init_game` through `found_city` and `end_year`
alone, the counts stay within the capacities.  In these states no order is ever
placed, so every queue is empty and `end_year` stores no unit; the units and
cities of a player stay three in all.  The bound rests on that, not on a test
of the capacity. -/
theorem counts_within_capacity (g : Game) (h : ReachFoundYear g) (p : Int)
    (hp : 0 ≤ p ∧ p < g.player_count) :
    (0 ≤ (g.players p).unit_count ∧ (g.players p).unit_count ≤ MAX_UNITS) ∧
    (0 ≤ (g.players p).city_count ∧ (g.players p).city_count ≤ MAX_CITIES) := by
  obtain ⟨b1, b2, b3, _⟩ := start_budget_reach g h p hp.1 hp.2
  have hu : MAX_UNITS = 100 := rfl
  have hc : MAX_CITIES = 50 := rfl
  exact ⟨⟨b1, by omega⟩, ⟨b2, by omega⟩⟩

/-- An instance of `counts_within_capacity`: the state that `init_game` builds
for two players with the stream `stripeEnv`, followed by `found_city` and
`end_year`; player 0 still has two units and one city in it. -/
theorem counts_within_capacity_witness :
    ∃ r, init_game stripeEnv 5 2 (staleGame, 0) = some r ∧
      ((end_year zeroEnv (found_city zeroEnv r.1 "Memphis", 0)).1.players 0).unit_count = 2 ∧
      ((end_year zeroEnv (found_city zeroEnv r.1 "Memphis", 0)).1.players 0).city_count = 1 ∧
      ((end_year zeroEnv (found_city zeroEnv r.1 "Memphis", 0)).1.players 0).unit_count
        ≤ MAX_UNITS ∧
      ((end_year zeroEnv (found_city zeroEnv r.1 "Memphis", 0)).1.players 0).city_count
        ≤ MAX_CITIES := by
  obtain ⟨r, hr⟩ := Option.isSome_iff_exists.mp
    (show (init_game stripeEnv 5 2 (staleGame, 0)).isSome = true by decide!)
  have h1 : (init_game stripeEnv 5 2 (staleGame, 0)).map (fun r =>
      ((end_year zeroEnv (found_city zeroEnv r.1 "Memphis", 0)).1.player_count,
        ((end_year zeroEnv (found_city zeroEnv r.1 "Memphis", 0)).1.players 0).unit_count,
        ((end_year zeroEnv (found_city zeroEnv r.1 "Memphis", 0)).1.players 0).city_count))
      = some (2, 2, 1) := by decide!
  rw [hr] at h1
  simp only [Option.map_some', Option.some.injEq, Prod.mk.injEq] at h1
  obtain ⟨a1, a2, a3⟩ := h1
  have hb := counts_within_capacity _
    (ReachFoundYear.year zeroEnv _ 0
      (ReachFoundYear.found zeroEnv _ "Memphis"
        (ReachFoundYear.init stripeEnv 5 2 (staleGame, 0) r hr)))
    0 ⟨le_refl _, by rw [a1]; decide⟩
  exact ⟨r, hr, a2, a3, hb.1.2, hb.2.2⟩

theorem yearsPass_reachable (env : Env) (n : Nat) (st : Game × Nat) (h : Reachable st.1) :
    Reachable (yearsPass env n st).1 := by
  induction n generalizing st with
  | zero => exact h
  | succ n ih =>
    rw [yearsPass]
    exact ih _ (Reachable.year env st.1 st.2 h)

theorem recruits_reachable (env : Env) (n : Nat) (st : Game × Nat) (h : Reachable st.1) :
    Reachable (recruits env n st).1 := by
  induction n generalizing st with
  | zero => exact h
  | succ n ih =>
    rw [recruits]
    refine ih _ ?_
    have h1 : Reachable (yearsPass env 11 (manage_cities st.1 1 [(1, 2)], st.2)).1 :=
      yearsPass_reachable env 11 (manage_cities st.1 1 [(1, 2)], st.2)
        (Reachable.manage st.1 1 [(1, 2)] h)
    unfold recruit
    dsimp only
    generalize yearsPass env 11 (manage_cities st.1 1 [(1, 2)], st.2) = st1 at h1
    exact Reachable.move st1.1 (st1.1.players 0).unit_count 2 0 h1

theorem settles_reachable (env : Env) (n : Nat) (j : Int) (st : Game × Nat)
    (h : Reachable st.1) : Reachable (settles env n j st).1 := by
  induction n generalizing j st with
  | zero => exact h
  | succ n ih =>
    rw [settles]
    refine ih _ _ ?_
    have h1 : Reachable (yearsPass env 11 (manage_cities st.1 1 [(1, 1)], st.2)).1 :=
      yearsPass_reachable env 11 (manage_cities st.1 1 [(1, 1)], st.2)
        (Reachable.manage st.1 1 [(1, 1)] h)
    unfold settle
    dsimp only
    generalize yearsPass env 11 (manage_cities st.1 1 [(1, 1)], st.2) = st1 at h1
    exact Reachable.found env (move_unit st1.1 (st1.1.players 0).unit_count
      (2 + 2 * j.tmod 8) (j.tdiv 8)) "Colony"
      (Reachable.move st1.1 (st1.1.players 0).unit_count (2 + 2 * j.tmod 8) (j.tdiv 8) h1)

/-- The unit counts of player 0 after 98 and after 99 rounds of recruiting, and
the unit stored at index `MAX_UNITS` in round 99. -/
theorem recruits_counts :
    (init_game quietEnv 5 2 (staleGame, 0)).map (fun r =>
      (((recruits quietEnv 98 r).1.players 0).unit_count,
        ((recruits quietEnv 99 r).1.players 0).unit_count,
        (((recruits quietEnv 99 r).1.players 0).units MAX_UNITS).type,
        (((recruits quietEnv 99 r).1.players 0).units MAX_UNITS).health))
      = some (MAX_UNITS, MAX_UNITS + 1, UNIT_WARRIOR, 100) := by
  decide!

/-- The city counts of player 0 after the first colony and 48 and 49 rounds of
settling, and the city stored at index `MAX_CITIES` in round 49. -/
theorem settles_counts :
    (init_game quietEnv 5 2 (staleGame, 0)).map (fun r =>
      (((settles quietEnv 48 0 (firstColony quietEnv r)).1.players 0).city_count,
        ((settles quietEnv 49 0 (firstColony quietEnv r)).1.players 0).city_count,
        (((settles quietEnv 49 0 (firstColony quietEnv r)).1.players 0).cities
          MAX_CITIES).population))
      = some (MAX_CITIES, MAX_CITIES + 1, 1) := by
  decide!

/-- C13 fails on the code: neither `end_year` nor `found_city` tests the
capacity before it stores.  From the state that `init_game` builds for two
players, player 0 recruits 99 times (order a warrior with `manage_cities`, let
eleven years pass, move the new unit away with `move_unit`): after 98 rounds it
has `MAX_UNITS = 100` units, and in round 99 `end_year` stores the next unit at
`units[100]` and makes the count 101.  Likewise, after the first colony and 48
rounds of settling (order a settler, let eleven years pass, move it to a free
tile, `found_city`) the player has `MAX_CITIES = 50` cities, and in round 49
`found_city` stores the next city at `cities[50]` and makes the count 51.  All
these states are reachable. -/
theorem counts_exceed_capacity :
    ∃ r, init_game quietEnv 5 2 (staleGame, 0) = some r ∧
      (Reachable (recruits quietEnv 98 r).1 ∧
        ((recruits quietEnv 98 r).1.players 0).unit_count = MAX_UNITS) ∧
      (Reachable (recruits quietEnv 99 r).1 ∧
        ((recruits quietEnv 99 r).1.players 0).unit_count = MAX_UNITS + 1 ∧
        (((recruits quietEnv 99 r).1.players 0).units MAX_UNITS).type = UNIT_WARRIOR ∧
        (((recruits quietEnv 99 r).1.players 0).units MAX_UNITS).health = 100) ∧
      (Reachable (settles quietEnv 48 0 (firstColony quietEnv r)).1 ∧
        ((settles quietEnv 48 0 (firstColony quietEnv r)).1.players 0).city_count
          = MAX_CITIES) ∧
      (Reachable (settles quietEnv 49 0 (firstColony quietEnv r)).1 ∧
        ((settles quietEnv 49 0 (firstColony quietEnv r)).1.players 0).city_count
          = MAX_CITIES + 1 ∧
        (((settles quietEnv 49 0 (firstColony quietEnv r)).1.players 0).cities
          MAX_CITIES).population = 1) := by
  obtain ⟨r, hr, hfa⟩ := Option.map_eq_some'.mp recruits_counts
  obtain ⟨rb, hrb, hfb⟩ := Option.map_eq_some'.mp settles_counts
  have eb : r = rb := Option.some.inj (hr.symm.trans hrb)
  subst eb
  simp only [Prod.mk.injEq] at hfa hfb
  obtain ⟨a1, a2, a3, a4⟩ := hfa
  obtain ⟨b1, b2, b3⟩ := hfb
  have hreach : Reachable r.1 := Reachable.init quietEnv 5 2 (staleGame, 0) r hr
  have hcol : Reachable (firstColony quietEnv r).1 :=
    Reachable.found quietEnv (move_unit r.1 1 18 7) "Colony" (Reachable.move r.1 1 18 7 hreach)
  exact ⟨r, hr, ⟨recruits_reachable quietEnv 98 r hreach, a1⟩,
    ⟨recruits_reachable quietEnv 99 r hreach, a2, a3, a4⟩,
    ⟨settles_reachable quietEnv 48 0 (firstColony quietEnv r) hcol, b1⟩,
    ⟨settles_reachable quietEnv 49 0 (firstColony quietEnv r) hcol, b2, b3⟩⟩

/-! ## Claim C14 -/

/-- C14: for every game state and every menu input `n`, if `1 ≤ n ≤ TECH_COUNT`
and technology `n - 1` is not yet researched by the current player, then
`research_tech` yields the same game with only the field `researching` of the
current player replaced by `n - 1` (`withResearching`); for every other input
it yields the game unchanged. -/
theorem research_tech_selects (g : Game) (n : Int) :
    ((1 ≤ n ∧ n ≤ TECH_COUNT ∧ (g.players g.current_player).techs (n - 1) = false) →
      research_tech g n = withResearching g (n - 1)) ∧
    (¬ (1 ≤ n ∧ n ≤ TECH_COUNT ∧ (g.players g.current_player).techs (n - 1) = false) →
      research_tech g n = g) := by
  have ht : TECH_COUNT = 10 := rfl
  constructor
  · rintro ⟨h1, h2, h3⟩
    unfold research_tech withResearching
    dsimp only
    rw [if_pos ⟨by omega, by omega, h3⟩]
  · intro h
    unfold research_tech
    dsimp only
    rw [if_neg]
    rintro ⟨h1, h2, h3⟩
    exact h ⟨by omega, by omega, h3⟩

/-- Witness for C14: in `potteryGame` the current player knows agriculture and
pottery; input 3 selects writing, while the inputs 2 (known), 0 and 11 (out of
range) leave the game as it is. -/
theorem research_tech_selects_witness :
    ((research_tech potteryGame 3).players 0).researching = 2 ∧
      research_tech potteryGame 2 = potteryGame ∧
      research_tech potteryGame 0 = potteryGame ∧
      research_tech potteryGame 11 = potteryGame :=
  ⟨by rw [(research_tech_selects potteryGame 3).1 (by decide)]; decide,
    (research_tech_selects potteryGame 2).2 (by decide),
    (research_tech_selects potteryGame 0).2 (by decide),
    (research_tech_selects potteryGame 11).2 (by decide)⟩

/-! ## Claim C15 -/

theorem shiftGame_consistent : UnitRefsConsistent shiftGame := by
  intro y x _ _ _ _ hu
  refine ⟨0, le_refl _, by decide, ?_⟩
  by_cases h1 : y = 0 ∧ x = 1
  · obtain ⟨hy, hx⟩ := h1
    subst hy hx
    decide
  · by_cases h0 : y = 0 ∧ x = 0
    · obtain ⟨hy, hx⟩ := h0
      subst hy hx
      decide
    · exfalso
      apply hu
      show (if y = 0 ∧ x = 1 then _ else if y = 0 ∧ x = 0 then _ else sampleTile).unit_id = -1
      rw [if_neg h1, if_neg h0]
      rfl

/-- C15: there is a game state, `shiftGame`, in which tile/unit references are
consistent and the current player owns a settler (unit 0) standing on a tile
without a city and followed in the unit list by a warrior (unit 1 on tile
`(1, 0)`), such that after `found_city` the warrior is unit 0 of one unit while
its tile still holds `unit_id = 1`: the references are no longer consistent. -/
theorem found_city_desynchronizes :
    UnitRefsConsistent shiftGame ∧
      ((shiftGame.players 0).units 0).type = UNIT_SETTLER ∧
      (shiftGame.map ((shiftGame.players 0).units 0).y
        ((shiftGame.players 0).units 0).x).city_id = -1 ∧
      (shiftGame.players 0).unit_count = 2 ∧
      ((found_city zeroEnv shiftGame "Memphis").players 0).unit_count = 1 ∧
      (((found_city zeroEnv shiftGame "Memphis").players 0).units 0).type = UNIT_WARRIOR ∧
      (((found_city zeroEnv shiftGame "Memphis").players 0).units 0).x = 1 ∧
      (((found_city zeroEnv shiftGame "Memphis").players 0).units 0).y = 0 ∧
      ((found_city zeroEnv shiftGame "Memphis").map 0 1).unit_id = 1 ∧
      ¬ UnitRefsConsistent (found_city zeroEnv shiftGame "Memphis") := by
  refine ⟨shiftGame_consistent, by decide, by decide, by decide, by decide, by decide,
    by decide, by decide, by decide, ?_⟩
  intro hc
  obtain ⟨p, hp1, hp2, hp3, _, _⟩ := hc 0 1 (by decide) (by decide) (by decide) (by decide)
    (by decide)
  have hpc : (found_city zeroEnv shiftGame "Memphis").player_count = 1 := by decide
  have hp : p = 0 := by omega
  subst hp
  exact absurd hp3 (by decide)

/-! ## Claim C16 -/

theorem wrap_step_in_range (pos d size : Int) (hp : 0 ≤ pos ∧ pos < size)
    (hd : -1 ≤ d ∧ d ≤ 1) : 0 ≤ wrap_step pos d size ∧ wrap_step pos d size < size := by
  unfold wrap_step
  have h0 : 0 ≤ pos + d + size := by omega
  have hs : 0 < size := by omega
  exact ⟨Int.tmod_nonneg _ h0, Int.tmod_lt_of_pos _ hs⟩

theorem wrap_step_zero (pos size : Int) (hp : 0 ≤ pos ∧ pos < size) :
    wrap_step pos 0 size = pos := by
  unfold wrap_step
  rw [Int.tmod_eq_emod (by omega) (by omega), add_zero, Int.add_emod_self]
  exact Int.emod_eq_of_lt hp.1 hp.2

theorem ai_turn_city_frame (env : Env) (p i : Int) (st : Game × Nat) :
    (ai_turn_city env p i st).1.map = st.1.map ∧
    (∀ q, ((ai_turn_city env p i st).1.players q).units = (st.1.players q).units ∧
      ((ai_turn_city env p i st).1.players q).unit_count = (st.1.players q).unit_count) := by
  unfold ai_turn_city
  dsimp only
  refine ⟨by split_ifs <;> rfl, ?_⟩
  intro q
  by_cases hq : q = p
  · subst hq
    split_ifs <;> simp [upd]
  · split_ifs <;> simp [upd, hq]

theorem ai_city_loop_frame (env : Env) (p : Int) (n : Nat) (st : Game × Nat) :
    (forUp (fun i st => ai_turn_city env p i st) n 0 st).1.map = st.1.map ∧
    (∀ q, ((forUp (fun i st => ai_turn_city env p i st) n 0 st).1.players q).units
        = (st.1.players q).units ∧
      ((forUp (fun i st => ai_turn_city env p i st) n 0 st).1.players q).unit_count
        = (st.1.players q).unit_count) := by
  induction n with
  | zero => exact ⟨rfl, fun _ => ⟨rfl, rfl⟩⟩
  | succ n ih =>
    rw [forUp_succ_last]
    obtain ⟨f1, f2⟩ := ai_turn_city_frame env p (0 + (n : Int))
      (forUp (fun i st => ai_turn_city env p i st) n 0 st)
    refine ⟨by rw [f1, ih.1], ?_⟩
    intro q
    exact ⟨by rw [(f2 q).1, (ih.2 q).1], by rw [(f2 q).2, (ih.2 q).2]⟩

/-- The body of the unit loop of `ai_turn`: no terrain and no unit count
changes, the other units of the player stay, and unit `i` makes an `AiMove`. -/
theorem ai_turn_unit_step (env : Env) (p i : Int) (st : Game × Nat) :
    (∀ y x, ((ai_turn_unit env p i st).1.map y x).terrain = (st.1.map y x).terrain) ∧
    ((ai_turn_unit env p i st).1.players p).unit_count = (st.1.players p).unit_count ∧
    (∀ j, j ≠ i →
      ((ai_turn_unit env p i st).1.players p).units j = (st.1.players p).units j) ∧
    AiMove st.1.map ((st.1.players p).units i)
      (((ai_turn_unit env p i st).1.players p).units i) := by
  have hr1 : (0 : Int) ≤ rand env st.2 := Int.ofNat_nonneg _
  have hr2 : (0 : Int) ≤ rand env (st.2 + 1) := Int.ofNat_nonneg _
  have a1 := Int.tmod_nonneg 3 hr1
  have a2 := Int.tmod_lt_of_pos (rand env st.2) (show (0 : Int) < 3 by decide)
  have b1 := Int.tmod_nonneg 3 hr2
  have b2 := Int.tmod_lt_of_pos (rand env (st.2 + 1)) (show (0 : Int) < 3 by decide)
  unfold ai_turn_unit
  dsimp only
  split_ifs with h
  · refine ⟨?_, by simp [upd, Game.setUnitId], ?_, ?_⟩
    · intro y x
      simp only [Game.setUnitId, setTile]
      split_ifs <;> simp_all
    · intro j hj
      simp [upd, Game.setUnitId, hj]
    · right
      refine ⟨(rand env st.2).tmod 3 - 1, (rand env (st.2 + 1)).tmod 3 - 1,
        by omega, by omega, by omega, by omega, ?_, ?_, ?_⟩
      · simp [upd, Game.setUnitId]
      · simp [upd, Game.setUnitId]
      · simpa [upd, Game.setUnitId, LandTile] using h
  · exact ⟨fun _ _ => rfl, rfl, fun _ _ => rfl, Or.inl rfl⟩

theorem ai_unit_loop (env : Env) (p : Int) (n : Nat) (st : Game × Nat) :
    (∀ y x, ((forUp (fun i st => ai_turn_unit env p i st) n 0 st).1.map y x).terrain
      = (st.1.map y x).terrain) ∧
    ((forUp (fun i st => ai_turn_unit env p i st) n 0 st).1.players p).unit_count
      = (st.1.players p).unit_count ∧
    (∀ j, j < 0 ∨ (n : Int) ≤ j →
      ((forUp (fun i st => ai_turn_unit env p i st) n 0 st).1.players p).units j
        = (st.1.players p).units j) ∧
    (∀ j, 0 ≤ j → j < (n : Int) →
      AiMove st.1.map ((st.1.players p).units j)
        (((forUp (fun i st => ai_turn_unit env p i st) n 0 st).1.players p).units j)) := by
  induction n with
  | zero =>
    refine ⟨fun _ _ => rfl, rfl, fun _ _ => rfl, ?_⟩
    intro j h1 h2
    simp at h2
    omega
  | succ n ih =>
    rw [forUp_succ_last]
    obtain ⟨h1, h2, h3, h4⟩ := ih
    obtain ⟨s1, s2, s3, s4⟩ := ai_turn_unit_step env p (0 + (n : Int))
      (forUp (fun i st => ai_turn_unit env p i st) n 0 st)
    refine ⟨fun y x => by rw [s1, h1], by rw [s2, h2], ?_, ?_⟩
    · intro j hj
      rw [s3 j (by push_cast at hj; omega)]
      exact h3 j (by push_cast at hj; omega)
    · intro j hj1 hj2
      by_cases hj : j = (n : Int)
      · have e : (0 : Int) + (n : Int) = j := by omega
        rw [e] at s4
        rw [h3 j (Or.inr (by omega))] at s4
        rw [e]
        rcases s4 with s4 | ⟨dx, dy, d1, d2, d3, d4, d5, d6, d7⟩
        · exact Or.inl s4
        · refine Or.inr ⟨dx, dy, d1, d2, d3, d4, d5, d6, ?_⟩
          unfold LandTile at *
          rw [← h1]
          exact d7
      · rw [s3 j (by omega)]
        exact h4 j hj1 (by push_cast at hj2; omega)

/-- C16: for every game state, every random stream and every unit `i` of the
current player whose position is inside the grid, after `ai_turn` the unit is
still inside the grid, its position is the old one moved by some `dx` and `dy`
in `-1..1` with wraparound, and if the position has changed then the tile it
stands on is neither ocean nor mountains. -/
theorem ai_turn_bounded_walk (env : Env) (g : Game) (k : Nat) (i : Int)
    (hi : 0 ≤ i ∧ i < (g.players g.current_player).unit_count)
    (hin : InGrid ((g.players g.current_player).units i)) :
    InGrid (((ai_turn env (g, k)).1.players g.current_player).units i) ∧
    (∃ dx dy, -1 ≤ dx ∧ dx ≤ 1 ∧ -1 ≤ dy ∧ dy ≤ 1 ∧
      (((ai_turn env (g, k)).1.players g.current_player).units i).x
        = wrap_step ((g.players g.current_player).units i).x dx MAP_WIDTH ∧
      (((ai_turn env (g, k)).1.players g.current_player).units i).y
        = wrap_step ((g.players g.current_player).units i).y dy MAP_HEIGHT) ∧
    ((((ai_turn env (g, k)).1.players g.current_player).units i).x
          ≠ ((g.players g.current_player).units i).x ∨
        (((ai_turn env (g, k)).1.players g.current_player).units i).y
          ≠ ((g.players g.current_player).units i).y →
      LandTile (g.map (((ai_turn env (g, k)).1.players g.current_player).units i).y
        (((ai_turn env (g, k)).1.players g.current_player).units i).x)) := by
  unfold ai_turn
  dsimp only
  obtain ⟨c1, c2⟩ := ai_city_loop_frame env g.current_player
    (g.players g.current_player).city_count.toNat (g, k)
  generalize forUp (fun i st => ai_turn_city env g.current_player i st)
    (g.players g.current_player).city_count.toNat 0 (g, k) = mid at c1 c2
  obtain ⟨_, _, _, h4⟩ := ai_unit_loop env g.current_player
    (mid.1.players g.current_player).unit_count.toNat mid
  have hu : (mid.1.players g.current_player).unit_count
      = (g.players g.current_player).unit_count := (c2 g.current_player).2
  have hl : (mid.1.players g.current_player).units = (g.players g.current_player).units :=
    (c2 g.current_player).1
  have hmap : mid.1.map = g.map := c1
  have hm := h4 i hi.1 (by rw [hu]; have := hi.2; omega)
  rw [hl, hmap] at hm
  obtain ⟨g1, g2, g3, g4⟩ := hin
  rcases hm with hm | ⟨dx, dy, d1, d2, d3, d4, d5, d6, d7⟩
  · rw [hm]
    refine ⟨⟨g1, g2, g3, g4⟩, ⟨0, 0, by decide, by decide, by decide, by decide, ?_, ?_⟩, ?_⟩
    · exact (wrap_step_zero _ _ ⟨g1, g2⟩).symm
    · exact (wrap_step_zero _ _ ⟨g3, g4⟩).symm
    · intro hne
      rcases hne with hne | hne <;> exact absurd rfl hne
  · have hx := wrap_step_in_range _ dx MAP_WIDTH ⟨g1, g2⟩ ⟨d1, d2⟩
    have hy := wrap_step_in_range _ dy MAP_HEIGHT ⟨g3, g4⟩ ⟨d3, d4⟩
    refine ⟨⟨by rw [d5]; exact hx.1, by rw [d5]; exact hx.2, by rw [d6]; exact hy.1,
      by rw [d6]; exact hy.2⟩, ⟨dx, dy, d1, d2, d3, d4, d5, d6⟩, fun _ => d7⟩

/-- Witness for C16: in `coastGame` with every step `dx = dy = 1`, the settler
moves from `(0, 0)` to the land tile `(1, 1)`, and the warrior on `(1, 0)`, whose
destination `(2, 1)` is ocean, stays. -/
theorem ai_turn_bounded_walk_witness :
    (((ai_turn stepEnv (coastGame, 0)).1.players 0).units 0).x = 1 ∧
      (((ai_turn stepEnv (coastGame, 0)).1.players 0).units 0).y = 1 ∧
      (((ai_turn stepEnv (coastGame, 0)).1.players 0).units 1).x = 1 ∧
      (((ai_turn stepEnv (coastGame, 0)).1.players 0).units 1).y = 0 ∧
      InGrid (((ai_turn stepEnv (coastGame, 0)).1.players coastGame.current_player).units 0) ∧
      InGrid (((ai_turn stepEnv (coastGame, 0)).1.players coastGame.current_player).units 1) :=
  ⟨by decide, by decide, by decide, by decide,
    (ai_turn_bounded_walk stepEnv coastGame 0 0 ⟨by decide, by decide⟩
      ⟨by decide, by decide, by decide, by decide⟩).1,
    (ai_turn_bounded_walk stepEnv coastGame 0 1 ⟨by decide, by decide⟩
      ⟨by decide, by decide, by decide, by decide⟩).1⟩

/-! ## Claim C17 -/

/-- The body of the city loop on a city that does not complete an entry: with a
non-empty queue and positive progress the progress drops by 10, with an empty
queue it stays; the queue and its count stay in both cases. -/
theorem end_year_city_progress (env : Env) (p c : Int) (st : Game × Nat) :
    (0 < ((st.1.players p).cities c).queue_count →
      0 < ((st.1.players p).cities c).production_progress →
      (((end_year_city env p c st).1.players p).cities c).production_progress
          = ((st.1.players p).cities c).production_progress - 10 ∧
        (((end_year_city env p c st).1.players p).cities c).production_queue
          = ((st.1.players p).cities c).production_queue ∧
        (((end_year_city env p c st).1.players p).cities c).queue_count
          = ((st.1.players p).cities c).queue_count) ∧
    (((st.1.players p).cities c).queue_count = 0 →
      (((end_year_city env p c st).1.players p).cities c).production_progress
          = ((st.1.players p).cities c).production_progress ∧
        (((end_year_city env p c st).1.players p).cities c).production_queue
          = ((st.1.players p).cities c).production_queue ∧
        (((end_year_city env p c st).1.players p).cities c).queue_count
          = ((st.1.players p).cities c).queue_count) := by
  unfold end_year_city
  dsimp only
  constructor
  · intro h1 h2
    rw [if_pos (show ((st.1.players p).cities c).queue_count > 0 from h1),
      if_neg (show ¬ ((st.1.players p).cities c).production_progress ≤ 0 by omega)]
    simp [upd]
  · intro h1
    rw [if_neg (show ¬ ((st.1.players p).cities c).queue_count > 0 by omega)]
    simp [upd]

/-- C17 (as amended): for a city `c` of a player `p` of the game, one
application of `end_year` acts as follows.  With a non-empty queue and
`production_progress > 0`, the progress decreases by exactly 10 and the queue
entries and `queue_count` are unchanged.  With an empty queue, the progress, the
queue entries and `queue_count` are unchanged.  The unit list and the unit count
of the owner are unchanged when none of the owner's cities has a non-empty queue
with `production_progress ≤ 0`. -/
theorem end_year_works_on_queue (env : Env) (g : Game) (k : Nat) (p c : Int)
    (hp : 0 ≤ p ∧ p < g.player_count) (hc : 0 ≤ c ∧ c < (g.players p).city_count) :
    (0 < ((g.players p).cities c).queue_count →
      0 < ((g.players p).cities c).production_progress →
      (((end_year env (g, k)).1.players p).cities c).production_progress
          = ((g.players p).cities c).production_progress - 10 ∧
        (((end_year env (g, k)).1.players p).cities c).production_queue
          = ((g.players p).cities c).production_queue ∧
        (((end_year env (g, k)).1.players p).cities c).queue_count
          = ((g.players p).cities c).queue_count) ∧
    (((g.players p).cities c).queue_count = 0 →
      (((end_year env (g, k)).1.players p).cities c).production_progress
          = ((g.players p).cities c).production_progress ∧
        (((end_year env (g, k)).1.players p).cities c).production_queue
          = ((g.players p).cities c).production_queue ∧
        (((end_year env (g, k)).1.players p).cities c).queue_count
          = ((g.players p).cities c).queue_count) ∧
    ((∀ d, 0 ≤ d → d < (g.players p).city_count →
        ¬ (((g.players p).cities d).queue_count > 0 ∧
          ((g.players p).cities d).production_progress ≤ 0)) →
      ((end_year env (g, k)).1.players p).units = (g.players p).units ∧
        ((end_year env (g, k)).1.players p).unit_count = (g.players p).unit_count) := by
  obtain ⟨st1, e1, e2⟩ := end_year_city_exact env g k p c hp hc
  have hs := end_year_city_progress env p c st1
  rw [e1] at hs
  rw [e2]
  exact ⟨hs.1, hs.2, end_year_idle_units env g k p hp⟩

/-- Witness for the amended C17: in `twinGame`, city 0 of player 0 has an archer
queued with progress 50; after `end_year` the progress is 40 and the queue still
holds the archer. -/
theorem end_year_works_on_queue_witness :
    (((end_year zeroEnv (twinGame, 0)).1.players 0).cities 0).production_progress = 50 - 10 ∧
      (((end_year zeroEnv (twinGame, 0)).1.players 0).cities 0).production_queue 0
        = UNIT_ARCHER ∧
      (((end_year zeroEnv (twinGame, 0)).1.players 0).cities 0).queue_count = 1 := by
  have h := (end_year_works_on_queue zeroEnv twinGame 0 0 0 ⟨by decide, by decide⟩
    ⟨by decide, by decide⟩).1 (by decide) (by decide)
  exact ⟨h.1, by rw [h.2.1]; decide, h.2.2⟩

/-- Counterexample to C17 as stated: in `twinGame`, city 0 of player 0 has a
non-empty queue and `production_progress = 50 > 0`, the owner has no unit, and
after one `end_year` the owner has one unit, an archer: the other city of the
same owner completed its entry in the same year. -/
theorem end_year_changes_unit_list :
    0 < ((twinGame.players 0).cities 0).queue_count ∧
      0 < ((twinGame.players 0).cities 0).production_progress ∧
      (twinGame.players 0).unit_count = 0 ∧
      ((end_year zeroEnv (twinGame, 0)).1.players 0).unit_count = 1 ∧
      (((end_year zeroEnv (twinGame, 0)).1.players 0).units 0).type = UNIT_ARCHER ∧
      ((end_year zeroEnv (twinGame, 0)).1.players 0).units ≠ (twinGame.players 0).units := by
  refine ⟨by decide, by decide, by decide, by decide, by decide, ?_⟩
  intro h
  have h0 := congrFun h 0
  have h1 : (((end_year zeroEnv (twinGame, 0)).1.players 0).units 0).type = UNIT_ARCHER := by
    decide
  rw [h0] at h1
  exact absurd h1 (by decide)

/-! ## Claim C18 -/

theorem end_year_city_techs (env : Env) (p c q : Int) (st : Game × Nat) :
    ((end_year_city env p c st).1.players q).techs = (st.1.players q).techs ∧
    ((end_year_city env p c st).1.players q).researching = (st.1.players q).researching := by
  unfold end_year_city
  dsimp only
  by_cases h : q = p
  · subst h
    split_ifs <;> simp [upd]
  · split_ifs <;> simp [upd, h]

theorem city_loop_techs (env : Env) (p q : Int) (n : Nat) (st : Game × Nat) :
    ((forUp (fun c st => end_year_city env p c st) n 0 st).1.players q).techs
      = (st.1.players q).techs ∧
    ((forUp (fun c st => end_year_city env p c st) n 0 st).1.players q).researching
      = (st.1.players q).researching := by
  induction n with
  | zero => exact ⟨rfl, rfl⟩
  | succ n ih =>
    rw [forUp_succ_last]
    obtain ⟨f1, f2⟩ := end_year_city_techs env p (0 + (n : Int)) q
      (forUp (fun c st => end_year_city env p c st) n 0 st)
    exact ⟨by rw [f1, ih.1], by rw [f2, ih.2]⟩

/-- The research roll of a player: on a roll below 30 the technology under
research becomes known and the next one is taken up, otherwise nothing changes. -/
theorem end_year_research_step (env : Env) (p : Int) (st : Game × Nat) :
    ((rand env st.2).tmod 100 < 30 →
      ((end_year_research env p st).1.players p).techs
          = upd (st.1.players p).techs (st.1.players p).researching true ∧
        ((end_year_research env p st).1.players p).researching
          = ((st.1.players p).researching + 1).tmod TECH_COUNT) ∧
    (¬ (rand env st.2).tmod 100 < 30 →
      ((end_year_research env p st).1.players p).techs = (st.1.players p).techs ∧
        ((end_year_research env p st).1.players p).researching
          = (st.1.players p).researching) := by
  unfold end_year_research
  dsimp only
  constructor
  · intro h
    rw [if_pos h]
    simp [upd]
  · intro h
    rw [if_neg h]
    exact ⟨rfl, rfl⟩

/-- C18: for every player `p` of the game with `researching` in
`0..TECH_COUNT-1`, the research roll `r` that `end_year` draws for `p` (the
value of `rand() % 100` at some cursor `kp`) is in `0..99` and decides the
outcome: if `r < 30` then `techs[researching]` becomes true and `researching`
becomes `(researching + 1) mod TECH_COUNT`, otherwise `techs` and `researching`
are unchanged; in both cases every technology that was true stays true. -/
theorem end_year_research_roll (env : Env) (g : Game) (k : Nat) (p : Int)
    (hp : 0 ≤ p ∧ p < g.player_count)
    (hr : 0 ≤ (g.players p).researching ∧ (g.players p).researching < TECH_COUNT) :
    ∃ kp : Nat, 0 ≤ (rand env kp).tmod 100 ∧ (rand env kp).tmod 100 < 100 ∧
      ((rand env kp).tmod 100 < 30 →
        ((end_year env (g, k)).1.players p).techs
            = upd (g.players p).techs (g.players p).researching true ∧
          ((end_year env (g, k)).1.players p).researching
            = ((g.players p).researching + 1) % TECH_COUNT) ∧
      (¬ (rand env kp).tmod 100 < 30 →
        ((end_year env (g, k)).1.players p).techs = (g.players p).techs ∧
          ((end_year env (g, k)).1.players p).researching = (g.players p).researching) ∧
      ∀ t, (g.players p).techs t = true →
        ((end_year env (g, k)).1.players p).techs t = true := by
  obtain ⟨st1, e1, e2⟩ := end_year_player_exact env g k p hp
  rw [e2]
  unfold end_year_player
  dsimp only
  obtain ⟨t1, t2⟩ := city_loop_techs env p p (st1.1.players p).city_count.toNat st1
  generalize forUp (fun c st => end_year_city env p c st)
    (st1.1.players p).city_count.toNat 0 st1 = mid at t1 t2
  rw [e1] at t1 t2
  obtain ⟨s1, s2⟩ := end_year_research_step env p mid
  rw [t1, t2] at s1 s2
  have hnn : (0 : Int) ≤ rand env mid.2 := Int.ofNat_nonneg _
  refine ⟨mid.2, Int.tmod_nonneg _ hnn, Int.tmod_lt_of_pos _ (by decide), ?_, s2, ?_⟩
  · intro h
    obtain ⟨a1, a2⟩ := s1 h
    refine ⟨a1, ?_⟩
    rw [a2]
    exact Int.tmod_eq_emod (by omega) (by decide)
  · intro t ht
    by_cases h : (rand env mid.2).tmod 100 < 30
    · rw [(s1 h).1]
      unfold upd
      split_ifs
      · rfl
      · exact ht
    · rw [(s2 h).1]
      exact ht

/-- Witness for C18: in `conquestGame` player 0 researches pottery (technology 1)
and knows agriculture; with every roll equal to 7, after `end_year` it knows
technology 1, still knows agriculture, and researches technology 2. -/
theorem end_year_research_roll_witness :
    ((end_year luckyEnv (conquestGame, 0)).1.players 0).techs 1 = true ∧
      ((end_year luckyEnv (conquestGame, 0)).1.players 0).researching = 2 ∧
      ((end_year luckyEnv (conquestGame, 0)).1.players 0).techs 0 = true := by
  obtain ⟨kp, _, _, _, _, h⟩ := end_year_research_roll luckyEnv conquestGame 0 0
    ⟨by decide, by decide⟩ ⟨by decide, by decide⟩
  exact ⟨by decide, by decide, h 0 (by decide)⟩

/-! ## Claim C19 -/

theorem check_game_over_year (g : Game) : (check_game_over g).2.year = g.year := by
  unfold check_game_over
  split_ifs with hy
  · have h := (time_victory_inv g g.player_count.toNat).1
    simp only
    rw [h]
  · rcases conquest_cases g g.player_count.toNat 0 with ⟨i, _, _, _, _, h5⟩ | ⟨h1, _⟩
    · rw [h5]
    · rw [h1]

theorem ai_turn_year (env : Env) (st : Game × Nat) : (ai_turn env st).1.year = st.1.year := by
  unfold ai_turn
  dsimp only
  have h1 : ∀ (n : Nat) (p : Int) (t : Game × Nat),
      (forUp (fun i st => ai_turn_city env p i st) n 0 t).1.year = t.1.year := by
    intro n p t
    refine forUp_inv _ (fun _ u => u.1.year = t.1.year) n 0 t rfl ?_
    intro i u _ _ hu
    rw [← hu]
    unfold ai_turn_city
    dsimp only
    split_ifs <;> rfl
  have h2 : ∀ (n : Nat) (p : Int) (t : Game × Nat),
      (forUp (fun i st => ai_turn_unit env p i st) n 0 t).1.year = t.1.year := by
    intro n p t
    refine forUp_inv _ (fun _ u => u.1.year = t.1.year) n 0 t rfl ?_
    intro i u _ _ hu
    rw [← hu]
    unfold ai_turn_unit
    dsimp only
    split_ifs <;> rfl
  rw [h2, h1]

theorem manage_cities_year (g : Game) (city_choice : Int) (actions : List (Int × Int)) :
    (manage_cities g city_choice actions).year = g.year := by
  have hl : ∀ (p c : Int) (l : List (Int × Int)) (t : Game),
      (manage_loop p c l t).year = t.year := by
    intro p c l
    induction l with
    | nil => intro t; rfl
    | cons a l ih =>
      intro t
      rw [manage_loop]
      split_ifs
      · rfl
      · rw [ih]
        unfold manage_action
        dsimp only
        split_ifs <;> rfl
  unfold manage_cities
  dsimp only
  split_ifs
  · rfl
  · rfl
  · rw [hl]

theorem move_unit_year (g : Game) (unit_choice dx dy : Int) :
    (move_unit g unit_choice dx dy).year = g.year := by
  unfold move_unit
  dsimp only
  split_ifs <;> rfl

theorem research_tech_year (g : Game) (n : Int) : (research_tech g n).year = g.year := by
  unfold research_tech
  dsimp only
  split_ifs <;> rfl

/-- In every reachable state the year is at least `START_YEAR`. -/
theorem reachable_year (g : Game) (h : Reachable g) : START_YEAR ≤ g.year := by
  induction h with
  | init env fuel pc st r hr =>
    rw [(init_game_state env fuel pc st r hr).1]
  | check g _ ih => rw [check_game_over_year]; exact ih
  | ai env g k _ ih => rw [ai_turn_year]; exact ih
  | manage g cc acts _ ih => rw [manage_cities_year]; exact ih
  | move g u dx dy _ ih => rw [move_unit_year]; exact ih
  | found env g nm _ ih => rw [(found_city_frame env g nm).1]; exact ih
  | research g n _ ih => rw [research_tech_year]; exact ih
  | next g _ ih => exact ih
  | year env g k _ ih =>
    have hy : (end_year env (g, k)).1.year = g.year + 10 := by
      unfold end_year
      rw [(player_loop_frame env _ _).1]
    rw [hy]
    omega

/-- C19: the state `r` that `init_game` returns already satisfies
`check_game_over` (its year is `START_YEAR = 4000 ≥ END_YEAR = 2050`); `run_game`
started in it returns after the first test of the loop condition, with no turn
played, no random value drawn and no input read, the game being the one that
`check_game_over` leaves; and `check_game_over` is true in every reachable
state. -/
theorem game_over_from_start (env : Env) (fuel : Nat) (player_count : Int)
    (st r : Game × Nat) (h : init_game env fuel player_count st = some r) :
    (check_game_over r.1).1 = true ∧
    (∀ (steps : Nat) (input : List Answers),
      run_game env (steps + 1) { game := r.1, k := r.2, input := input, turns := 0 }
        = some { game := (check_game_over r.1).2, k := r.2, input := input, turns := 0 }) ∧
    (∀ g, Reachable g → (check_game_over g).1 = true) := by
  have hover : ∀ g, Reachable g → (check_game_over g).1 = true := by
    intro g hg
    have hy := reachable_year g hg
    unfold check_game_over
    rw [if_pos (show g.year ≥ END_YEAR by
      have h1 : START_YEAR = 4000 := rfl
      have h2 : END_YEAR = 2050 := rfl
      omega)]
  have h0 := hover r.1 (Reachable.init env fuel player_count st r h)
  refine ⟨h0, ?_, hover⟩
  intro steps input
  rw [run_game]
  dsimp only
  rw [if_pos h0]

/-- Witness for C19: for two players and the stream `stripeEnv`, `init_game`
returns a state in which `check_game_over` is true, and `run_game` ends in it
with 0 turns played. -/
theorem game_over_from_start_witness :
    ∃ r, init_game stripeEnv 5 2 (staleGame, 0) = some r ∧
      (check_game_over r.1).1 = true ∧
      (run_game stripeEnv 1 { game := r.1, k := r.2, input := [], turns := 0 }).map
        (fun s => s.turns) = some 0 := by
  obtain ⟨r, hr⟩ := Option.isSome_iff_exists.mp
    (show (init_game stripeEnv 5 2 (staleGame, 0)).isSome = true by decide!)
  have h := game_over_from_start stripeEnv 5 2 (staleGame, 0) r hr
  refine ⟨r, hr, h.1, ?_⟩
  rw [h.2.1 0 []]
  rfl

/-! ## Claim C3 -/

theorem forUp_mono (body : Int → Int → Int) (n : Nat) (lo s : Int)
    (h : ∀ i t, t ≤ body i t) : s ≤ forUp body n lo s := by
  induction n generalizing lo s with
  | zero => exact le_refl _
  | succ n ih =>
    rw [forUp]
    exact le_trans (h lo s) (ih (lo + 1) (body lo s))

/-- A `Settled` player has a positive score: agriculture alone counts 50. -/
theorem calculate_score_pos (g : Game) (q : Int) (h : Settled (g.players q)) :
    0 < calculate_score g q := by
  obtain ⟨h1, h2, h3⟩ := h
  unfold calculate_score
  dsimp only
  have h10 : TECH_COUNT.toNat = 9 + 1 := rfl
  have hpop := forUp_inv
    (fun i score => score + ((g.players q).cities i).population * 50)
    (fun _ s => (0 : Int) ≤ s) (g.players q).city_count.toNat 0
    (0 + (g.players q).city_count * 100) (by omega) (by
      intro i s hi1 hi2 hs
      have := h3 i hi1 (by omega)
      show (0 : Int) ≤ s + ((g.players q).cities i).population * 50
      omega)
  simp only at hpop
  refine lt_of_lt_of_le ?_ (forUp_mono _ _ _ _ ?_)
  · rw [h10, forUp]
    refine lt_of_lt_of_le ?_ (forUp_mono _ _ _ _ ?_)
    · simp only [if_pos h1]
      omega
    · intro i t
      dsimp only
      split_ifs <;> omega
  · intro y t
    exact forUp_mono _ _ _ _ (fun x u => by split_ifs <;> omega)

theorem settled_transfer (pl pl' : Player) (h : Settled pl)
    (ht : pl.techs TECH_AGRICULTURE = true → pl'.techs TECH_AGRICULTURE = true)
    (hc : pl'.city_count = pl.city_count)
    (hp : ∀ c, (pl.cities c).population ≤ (pl'.cities c).population) : Settled pl' := by
  refine ⟨ht h.1, by rw [hc]; exact h.2.1, ?_⟩
  intro c hc1 hc2
  rw [hc] at hc2
  exact le_trans (h.2.2 c hc1 hc2) (hp c)

theorem check_game_over_players (g : Game) :
    (check_game_over g).2.players = g.players ∧
    (check_game_over g).2.player_count = g.player_count := by
  unfold check_game_over
  split_ifs with hy
  · have h := (time_victory_inv g g.player_count.toNat).1
    simp only
    rw [h]
    exact ⟨rfl, rfl⟩
  · rcases conquest_cases g g.player_count.toNat 0 with ⟨i, _, _, _, _, h5⟩ | ⟨h1, _⟩
    · rw [h5]
      exact ⟨rfl, rfl⟩
    · rw [h1]
      exact ⟨rfl, rfl⟩

theorem create_player_techs (env : Env) (fuel : Nat) (i : Int) (st r : Game × Nat)
    (h : create_player env fuel i st = some r) :
    (r.1.players i).techs TECH_AGRICULTURE = true := by
  unfold create_player at h
  dsimp only at h
  split at h
  · exact absurd h (by simp)
  · injection h with h
    subst h
    simp [upd]

theorem create_players_settled (env : Env) (fuel : Nat) (n : Nat) (st r : Game × Nat)
    (h : forUpOpt (create_player env fuel) n 0 st = some r) :
    ∀ i, 0 ≤ i → i < (n : Int) → Settled (r.1.players i) := by
  induction n generalizing r with
  | zero =>
    intro i h1 h2
    simp at h2
    omega
  | succ n ih =>
    intro i hi1 hi2
    rw [forUpOpt_succ_last] at h
    cases hm : forUpOpt (create_player env fuel) n 0 st with
    | none => rw [hm] at h; exact absurd h (by simp)
    | some mid =>
      rw [hm, Option.some_bind] at h
      obtain ⟨h1, h2⟩ := create_player_some env fuel _ mid r h
      have h3 := create_player_techs env fuel _ mid r h
      by_cases hi : i = (n : Int)
      · have e : (0 : Int) + (n : Int) = i := by omega
        rw [e] at h1 h3
        obtain ⟨c1, c2, _⟩ := h1
        refine ⟨h3, by rw [c1]; decide, ?_⟩
        intro c hc1 hc2
        rw [c1] at hc2
        have hc : c = 0 := by omega
        rw [hc, c2]
        decide
      · rw [h2 i (by omega)]
        exact ih mid hm i hi1 (by push_cast at hi2; omega)

theorem init_game_established (env : Env) (fuel : Nat) (player_count : Int)
    (st r : Game × Nat) (h : init_game env fuel player_count st = some r) :
    Established r.1 := by
  have hpc := (init_game_state env fuel player_count st r h).2.1
  unfold init_game create_players at h
  dsimp only at h
  intro q hq1 hq2
  rw [hpc] at hq2
  exact create_players_settled env fuel _ _ r h q hq1 (by omega)

theorem ai_turn_city_settled (env : Env) (p i q : Int) (st : Game × Nat) :
    (ai_turn_city env p i st).1.player_count = st.1.player_count ∧
    (Settled (st.1.players q) → Settled ((ai_turn_city env p i st).1.players q)) := by
  refine ⟨?_, fun h => settled_transfer _ _ h ?_ ?_ ?_⟩
  · unfold ai_turn_city
    dsimp only
    split_ifs <;> rfl
  · unfold ai_turn_city
    dsimp only
    by_cases hq : q = p
    · subst hq
      split_ifs <;> simp [upd]
    · split_ifs <;> simp [upd, hq]
  · unfold ai_turn_city
    dsimp only
    by_cases hq : q = p
    · subst hq
      split_ifs <;> simp [upd]
    · split_ifs <;> simp [upd, hq]
  · intro c
    unfold ai_turn_city
    dsimp only
    by_cases hq : q = p
    · subst hq
      by_cases hc : c = i
      · subst hc
        split_ifs <;> simp [upd]
      · split_ifs <;> simp [upd, hc]
    · split_ifs <;> simp [upd, hq]

theorem ai_turn_unit_settled (env : Env) (p i q : Int) (st : Game × Nat) :
    (ai_turn_unit env p i st).1.player_count = st.1.player_count ∧
    (Settled (st.1.players q) → Settled ((ai_turn_unit env p i st).1.players q)) := by
  refine ⟨?_, fun h => settled_transfer _ _ h ?_ ?_ ?_⟩
  · unfold ai_turn_unit
    dsimp only
    split_ifs <;> rfl
  · unfold ai_turn_unit
    dsimp only
    by_cases hq : q = p
    · subst hq
      split_ifs <;> simp [upd, Game.setUnitId]
    · split_ifs <;> simp [upd, hq, Game.setUnitId]
  · unfold ai_turn_unit
    dsimp only
    by_cases hq : q = p
    · subst hq
      split_ifs <;> simp [upd, Game.setUnitId]
    · split_ifs <;> simp [upd, hq, Game.setUnitId]
  · intro c
    unfold ai_turn_unit
    dsimp only
    by_cases hq : q = p
    · subst hq
      split_ifs <;> simp [upd, Game.setUnitId]
    · split_ifs <;> simp [upd, hq, Game.setUnitId]

theorem ai_turn_settled (env : Env) (st : Game × Nat) (q : Int) :
    (ai_turn env st).1.player_count = st.1.player_count ∧
    (Settled (st.1.players q) → Settled ((ai_turn env st).1.players q)) := by
  unfold ai_turn
  dsimp only
  have h1 : ∀ (n : Nat) (p : Int) (t : Game × Nat),
      (forUp (fun i st => ai_turn_city env p i st) n 0 t).1.player_count = t.1.player_count ∧
      (Settled (t.1.players q) →
        Settled ((forUp (fun i st => ai_turn_city env p i st) n 0 t).1.players q)) := by
    intro n p t
    refine forUp_inv _ (fun _ u => u.1.player_count = t.1.player_count ∧
      (Settled (t.1.players q) → Settled (u.1.players q))) n 0 t ⟨rfl, id⟩ ?_
    intro i u _ _ hu
    obtain ⟨f1, f2⟩ := ai_turn_city_settled env p i q u
    exact ⟨by rw [f1, hu.1], fun ht => f2 (hu.2 ht)⟩
  have h2 : ∀ (n : Nat) (p : Int) (t : Game × Nat),
      (forUp (fun i st => ai_turn_unit env p i st) n 0 t).1.player_count = t.1.player_count ∧
      (Settled (t.1.players q) →
        Settled ((forUp (fun i st => ai_turn_unit env p i st) n 0 t).1.players q)) := by
    intro n p t
    refine forUp_inv _ (fun _ u => u.1.player_count = t.1.player_count ∧
      (Settled (t.1.players q) → Settled (u.1.players q))) n 0 t ⟨rfl, id⟩ ?_
    intro i u _ _ hu
    obtain ⟨f1, f2⟩ := ai_turn_unit_settled env p i q u
    exact ⟨by rw [f1, hu.1], fun ht => f2 (hu.2 ht)⟩
  obtain ⟨a1, a2⟩ := h1 (st.1.players st.1.current_player).city_count.toNat
    st.1.current_player st
  obtain ⟨b1, b2⟩ := h2
    ((forUp (fun i st1 => ai_turn_city env st.1.current_player i st1)
      (st.1.players st.1.current_player).city_count.toNat 0 st).1.players
        st.1.current_player).unit_count.toNat
    st.1.current_player
    (forUp (fun i st1 => ai_turn_city env st.1.current_player i st1)
      (st.1.players st.1.current_player).city_count.toNat 0 st)
  exact ⟨by rw [b1, a1], fun h => b2 (a2 h)⟩

theorem manage_action_settled (p c action selection q : Int) (g : Game) :
    (manage_action p c action selection g).player_count = g.player_count ∧
    (Settled (g.players q) → Settled ((manage_action p c action selection g).players q)) := by
  refine ⟨?_, fun h => settled_transfer _ _ h ?_ ?_ ?_⟩
  · unfold manage_action
    dsimp only
    split_ifs <;> rfl
  · unfold manage_action
    dsimp only
    by_cases hq : q = p
    · subst hq
      split_ifs <;> simp [upd]
    · split_ifs <;> simp [upd, hq]
  · unfold manage_action
    dsimp only
    by_cases hq : q = p
    · subst hq
      split_ifs <;> simp [upd]
    · split_ifs <;> simp [upd, hq]
  · intro d
    unfold manage_action
    dsimp only
    by_cases hq : q = p
    · subst hq
      by_cases hd : d = c
      · subst hd
        split_ifs <;> simp [upd]
      · split_ifs <;> simp [upd, hd]
    · split_ifs <;> simp [upd, hq]

theorem manage_cities_settled (g : Game) (city_choice : Int) (actions : List (Int × Int))
    (q : Int) :
    (manage_cities g city_choice actions).player_count = g.player_count ∧
    (Settled (g.players q) → Settled ((manage_cities g city_choice actions).players q)) := by
  have hl : ∀ (p c : Int) (l : List (Int × Int)) (t : Game),
      (manage_loop p c l t).player_count = t.player_count ∧
      (Settled (t.players q) → Settled ((manage_loop p c l t).players q)) := by
    intro p c l
    induction l with
    | nil => intro t; exact ⟨rfl, id⟩
    | cons a l ih =>
      intro t
      rw [manage_loop]
      split_ifs
      · exact ⟨rfl, id⟩
      · obtain ⟨f1, f2⟩ := manage_action_settled p c a.1 a.2 q t
        obtain ⟨g1, g2⟩ := ih (manage_action p c a.1 a.2 t)
        exact ⟨by rw [g1, f1], fun ht => g2 (f2 ht)⟩
  unfold manage_cities
  dsimp only
  split_ifs
  · exact ⟨rfl, id⟩
  · exact ⟨rfl, id⟩
  · exact hl _ _ _ _

theorem move_unit_settled (g : Game) (unit_choice dx dy q : Int) :
    (move_unit g unit_choice dx dy).player_count = g.player_count ∧
    (Settled (g.players q) → Settled ((move_unit g unit_choice dx dy).players q)) := by
  refine ⟨?_, fun h => settled_transfer _ _ h ?_ ?_ ?_⟩
  · unfold move_unit
    dsimp only
    split_ifs <;> rfl
  · unfold move_unit
    dsimp only
    by_cases hq : q = g.current_player
    · subst hq
      split_ifs <;> simp [upd, Game.setUnitId]
    · split_ifs <;> simp [upd, hq, Game.setUnitId]
  · unfold move_unit
    dsimp only
    by_cases hq : q = g.current_player
    · subst hq
      split_ifs <;> simp [upd, Game.setUnitId]
    · split_ifs <;> simp [upd, hq, Game.setUnitId]
  · intro c
    unfold move_unit
    dsimp only
    by_cases hq : q = g.current_player
    · subst hq
      split_ifs <;> simp [upd, Game.setUnitId]
    · split_ifs <;> simp [upd, hq, Game.setUnitId]

theorem research_tech_settled (g : Game) (n q : Int) :
    (research_tech g n).player_count = g.player_count ∧
    (Settled (g.players q) → Settled ((research_tech g n).players q)) := by
  refine ⟨?_, fun h => settled_transfer _ _ h ?_ ?_ ?_⟩
  · unfold research_tech
    dsimp only
    split_ifs <;> rfl
  · unfold research_tech
    dsimp only
    by_cases hq : q = g.current_player
    · subst hq
      split_ifs <;> simp [upd]
    · split_ifs <;> simp [upd, hq]
  · unfold research_tech
    dsimp only
    by_cases hq : q = g.current_player
    · subst hq
      split_ifs <;> simp [upd]
    · split_ifs <;> simp [upd, hq]
  · intro c
    unfold research_tech
    dsimp only
    by_cases hq : q = g.current_player
    · subst hq
      split_ifs <;> simp [upd]
    · split_ifs <;> simp [upd, hq]

/-- What `found_city` leaves of the score data of the current player: the
technologies stay, and a city it adds has population 1. -/
theorem found_city_core (env : Env) (g : Game) (nm : String) :
    ((found_city env g nm).players g.current_player).techs
      = (g.players g.current_player).techs ∧
    (found_city env g nm = g ∨
      (((found_city env g nm).players g.current_player).cities
        (g.players g.current_player).city_count).population = 1) := by
  unfold found_city
  dsimp only
  split_ifs
  · exact ⟨rfl, Or.inl rfl⟩
  · exact ⟨rfl, Or.inl rfl⟩
  · exact ⟨by simp [upd], Or.inr (by simp [upd])⟩

theorem found_city_settled (env : Env) (g : Game) (nm : String) (q : Int)
    (h : Settled (g.players q)) : Settled ((found_city env g nm).players q) := by
  by_cases hq : q = g.current_player
  · subst hq
    obtain ⟨t1, t2⟩ := found_city_core env g nm
    rcases found_city_counts env g nm with e | ⟨_, _, e2, _, e4⟩
    · rw [e]
      exact h
    · rcases t2 with t2 | t2
      · rw [t2]
        exact h
      · refine ⟨by rw [t1]; exact h.1, by rw [e2]; have := h.2.1; omega, ?_⟩
        intro c hc1 hc2
        rw [e2] at hc2
        by_cases hc : c = (g.players g.current_player).city_count
        · rw [hc, t2]
          decide
        · rw [e4 c hc]
          exact h.2.2 c hc1 (by omega)
  · rw [(found_city_frame env g nm).2.2.2.2 q hq]
    exact h

theorem end_year_city_population (env : Env) (p c : Int) (st : Game × Nat) :
    (((end_year_city env p c st).1.players p).cities c).population
      = ((st.1.players p).cities c).population + (rand env st.2).tmod 2 := by
  unfold end_year_city
  dsimp only
  split_ifs <;> simp [upd]

theorem end_year_city_settled (env : Env) (p c q : Int) (st : Game × Nat)
    (h : Settled (st.1.players q)) : Settled ((end_year_city env p c st).1.players q) := by
  by_cases hq : q = p
  · subst hq
    refine settled_transfer _ _ h ?_ (end_year_city_count env q c q st) ?_
    · rw [(end_year_city_techs env q c q st).1]
      exact id
    · intro d
      by_cases hd : d = c
      · subst hd
        rw [end_year_city_population]
        have hr : (0 : Int) ≤ rand env st.2 := Int.ofNat_nonneg _
        have := Int.tmod_nonneg 2 hr
        omega
      · rw [end_year_city_other_city env q c d st hd]
  · rw [end_year_city_other_player env p c q st hq]
    exact h

theorem end_year_research_settled (env : Env) (p q : Int) (st : Game × Nat)
    (h : Settled (st.1.players q)) : Settled ((end_year_research env p st).1.players q) := by
  obtain ⟨c1, c2⟩ := end_year_research_cities env p q st
  refine settled_transfer _ _ h ?_ c2 (fun c => by rw [c1])
  intro ht
  by_cases hq : q = p
  · subst hq
    by_cases hroll : (rand env st.2).tmod 100 < 30
    · rw [((end_year_research_step env q st).1 hroll).1]
      unfold upd
      split_ifs
      · rfl
      · exact ht
    · rw [((end_year_research_step env q st).2 hroll).1]
      exact ht
  · rw [end_year_research_other_player env p q st hq]
    exact ht

theorem end_year_settled (env : Env) (st : Game × Nat) (q : Int) :
    (end_year env st).1.player_count = st.1.player_count ∧
    (Settled (st.1.players q) → Settled ((end_year env st).1.players q)) := by
  have hc : ∀ (n : Nat) (p : Int) (t : Game × Nat), Settled (t.1.players q) →
      Settled ((forUp (fun c st => end_year_city env p c st) n 0 t).1.players q) := by
    intro n p t ht
    refine forUp_inv _ (fun _ u => Settled (u.1.players q)) n 0 t ht ?_
    intro i u _ _ hu
    exact end_year_city_settled env p i q u hu
  have hp : ∀ (p : Int) (t : Game × Nat), Settled (t.1.players q) →
      Settled ((end_year_player env p t).1.players q) := by
    intro p t ht
    unfold end_year_player
    exact end_year_research_settled env p q _ (hc _ p t ht)
  unfold end_year
  dsimp only
  refine ⟨(player_loop_frame env _ _).2.1, fun h => ?_⟩
  refine forUp_inv _ (fun _ (u : Game × Nat) => Settled (u.1.players q)) _ 0 _ h ?_
  intro i u _ _ hu
  exact hp i u hu

/-- Every reachable state is `Established`. -/
theorem reachable_established (g : Game) (h : Reachable g) : Established g := by
  induction h with
  | init env fuel pc st r hr => exact init_game_established env fuel pc st r hr
  | check g _ ih =>
    intro q hq1 hq2
    rw [(check_game_over_players g).2] at hq2
    rw [(check_game_over_players g).1]
    exact ih q hq1 hq2
  | ai env g k _ ih =>
    intro q hq1 hq2
    obtain ⟨f1, f2⟩ := ai_turn_settled env (g, k) q
    rw [f1] at hq2
    exact f2 (ih q hq1 hq2)
  | manage g cc acts _ ih =>
    intro q hq1 hq2
    obtain ⟨f1, f2⟩ := manage_cities_settled g cc acts q
    rw [f1] at hq2
    exact f2 (ih q hq1 hq2)
  | move g u dx dy _ ih =>
    intro q hq1 hq2
    obtain ⟨f1, f2⟩ := move_unit_settled g u dx dy q
    rw [f1] at hq2
    exact f2 (ih q hq1 hq2)
  | found env g nm _ ih =>
    intro q hq1 hq2
    rw [(found_city_frame env g nm).2.1] at hq2
    exact found_city_settled env g nm q (ih q hq1 hq2)
  | research g n _ ih =>
    intro q hq1 hq2
    obtain ⟨f1, f2⟩ := research_tech_settled g n q
    rw [f1] at hq2
    exact f2 (ih q hq1 hq2)
  | next g _ ih => exact ih
  | year env g k _ ih =>
    intro q hq1 hq2
    obtain ⟨f1, f2⟩ := end_year_settled env (g, k) q
    rw [f1] at hq2
    exact f2 (ih q hq1 hq2)

/-- C3: in every state that the program can reach, with `year ≥ END_YEAR` and
at least one player, `check_game_over` returns true and leaves in `winner_id`
the index of a player whose `calculate_score` is at least the score of every
player.  In such a state every player knows agriculture, so every score is
positive and the comparison with `highest_score = 0` selects a winner. -/
theorem check_game_over_highest (g : Game) (hr : Reachable g) (hy : END_YEAR ≤ g.year)
    (hpc : 1 ≤ g.player_count) :
    (check_game_over g).1 = true ∧
      HighestScorer (check_game_over g).2 (check_game_over g).2.winner_id := by
  have he := reachable_established g hr 0 (le_refl _) (by omega)
  have h := time_victory_outcome g hy
  exact ⟨h.1, h.2.1 ⟨0, le_refl _, by omega, calculate_score_pos g 0 he⟩⟩

/-- Witness for C3: in the state that `init_game` builds for two players with
the stream `stripeEnv`, which is reachable, has year `START_YEAR ≥ END_YEAR` and
two players, `check_game_over` returns true and names player 1, a highest
scorer. -/
theorem check_game_over_highest_witness :
    ∃ r, init_game stripeEnv 5 2 (staleGame, 0) = some r ∧
      Reachable r.1 ∧ END_YEAR ≤ r.1.year ∧ 1 ≤ r.1.player_count ∧
      (check_game_over r.1).2.winner_id = 1 ∧
      (check_game_over r.1).1 = true ∧
      HighestScorer (check_game_over r.1).2 (check_game_over r.1).2.winner_id := by
  have hw : (init_game stripeEnv 5 2 (staleGame, 0)).map (fun r =>
      (check_game_over r.1).2.winner_id) = some 1 := by decide!
  obtain ⟨r, hr, hw⟩ := Option.map_eq_some'.mp hw
  obtain ⟨s1, s2, _⟩ := init_game_state stripeEnv 5 2 (staleGame, 0) r hr
  have hreach : Reachable r.1 := Reachable.init stripeEnv 5 2 (staleGame, 0) r hr
  have hy : END_YEAR ≤ r.1.year := by rw [s1]; decide
  have hpc : 1 ≤ r.1.player_count := by rw [s2]; decide
  exact ⟨r, hr, hreach, hy, hpc, hw, check_game_over_highest r.1 hreach hy hpc⟩

/-! ## Claim C20 -/

/-- C20 fails on the code.  In `shiftGame` unit 1 of the current player (the
settler) stands on tile `(0, 0)`, inside the grid.  For the input `dx = -21`,
`dy = 0` the destination column is `(0 - 21 + 20) % 20 = -1` with C's truncating
remainder, so `move_unit` looks up `map[0][-1]`, outside the grid, and records
the unit at `x = -1`. -/
theorem move_unit_leaves_grid :
    InGrid ((shiftGame.players 0).units 0) ∧
      wrap_step ((shiftGame.players 0).units 0).x (-21) MAP_WIDTH = -1 ∧
      wrap_step ((shiftGame.players 0).units 0).y 0 MAP_HEIGHT = 0 ∧
      (((move_unit shiftGame 1 (-21) 0).players 0).units 0).x = -1 ∧
      ((move_unit shiftGame 1 (-21) 0).map 0 (-1)).unit_id = 0 ∧
      ¬ InGrid (((move_unit shiftGame 1 (-21) 0).players 0).units 0) := by
  refine ⟨⟨by decide, by decide, by decide, by decide⟩, by decide, by decide, by decide,
    by decide, ?_⟩
  intro h
  exact absurd h.1 (by decide)

/-! ## Claim C21 -/

/-- C21 fails on the code.  After `init_game` with two players and the stream
`stripeEnv`, the warriors stand on tile `(1, 1)`: its `unit_id` is 1, so
`display_map` looks a unit up on it, but its `owner_id` is still -1, because
`create_players` sets `owner_id` only on the city tile.  The lookup reads
`players[-1]`. -/
theorem init_game_lookup_invalid :
    ∃ r, init_game stripeEnv 5 2 (staleGame, 0) = some r ∧
      (r.1.map 1 1).unit_id = 1 ∧ (r.1.map 1 1).owner_id = -1 ∧
      ¬ ((r.1.map 1 1).unit_id ≠ -1 → LookupValid r.1 1 1) := by
  obtain ⟨r, hr⟩ := Option.isSome_iff_exists.mp
    (show (init_game stripeEnv 5 2 (staleGame, 0)).isSome = true by decide!)
  have h1 : (init_game stripeEnv 5 2 (staleGame, 0)).map (fun r =>
      ((r.1.map 1 1).unit_id, (r.1.map 1 1).owner_id)) = some (1, -1) := by decide!
  rw [hr] at h1
  simp only [Option.map_some', Option.some.injEq, Prod.mk.injEq] at h1
  obtain ⟨a1, a2⟩ := h1
  refine ⟨r, hr, a1, a2, ?_⟩
  intro h
  have hv := (h (by rw [a1]; decide)).1
  rw [a2] at hv
  exact absurd hv (by decide)

/-! ## Claim C22 -/

theorem find_settler_first (pl : Player) (n : Nat) (lo s : Int)
    (h1 : lo ≤ s) (h2 : s < lo + n) (h3 : (pl.units s).type = UNIT_SETTLER)
    (h4 : ∀ j, lo ≤ j → j < s → (pl.units j).type ≠ UNIT_SETTLER) :
    find_settler pl n lo = s := by
  induction n generalizing lo with
  | zero => simp at h2; omega
  | succ n ih =>
    rw [find_settler]
    by_cases hs : s = lo
    · subst hs
      rw [if_pos h3]
    · rw [if_neg (h4 lo (le_refl _) (by omega))]
      exact ih (lo + 1) (by omega) (by push_cast at h2; omega)
        (fun j hj1 hj2 => h4 j (by omega) hj2)

theorem find_settler_none (pl : Player) (n : Nat) (lo : Int)
    (h : ∀ j, lo ≤ j → j < lo + n → (pl.units j).type ≠ UNIT_SETTLER) :
    find_settler pl n lo = -1 := by
  induction n generalizing lo with
  | zero => rfl
  | succ n ih =>
    rw [find_settler, if_neg (h lo (le_refl _) (by push_cast; omega))]
    exact ih (lo + 1) (fun j hj1 hj2 => h j (by omega) (by push_cast; omega))

/-- The shift loop of a removal from index `lo`: the `n` cells from `lo` on take
the value of their right neighbour, every other cell stays. -/
theorem shift_loop_from {α : Type} (u : Int → α) (lo : Int) (n : Nat) :
    (∀ i, lo ≤ i → i < lo + n →
      forUp (fun i u => upd u i (u (i + 1))) n lo u i = u (i + 1)) ∧
    (∀ i, i < lo ∨ lo + n ≤ i → forUp (fun i u => upd u i (u (i + 1))) n lo u i = u i) := by
  induction n with
  | zero =>
    refine ⟨?_, fun _ _ => rfl⟩
    intro i h1 h2
    simp at h2
    omega
  | succ n ih =>
    rw [forUp_succ_last]
    obtain ⟨h1, h2⟩ := ih
    constructor
    · intro i hi1 hi2
      by_cases hi : i = lo + (n : Int)
      · subst hi
        simp only [upd, if_true]
        exact h2 _ (Or.inr (by omega))
      · simp only [upd, if_neg hi]
        exact h1 i hi1 (by push_cast at hi2; omega)
    · intro i hi
      have hne : i ≠ lo + (n : Int) := by push_cast at hi; omega
      simp only [upd, if_neg hne]
      exact h2 i (by push_cast at hi; omega)

/-- C22: in a game state where the current player has fewer than `MAX_CITIES`
cities and its first settler `s` stands inside the grid on a tile with
`city_id = -1`, `found_city` increases `city_count` by 1, the new city at the old
`city_count` has population 1, an empty queue and no buildings, the settler's
tile gets `city_id` = old `city_count`, `owner_id` = current player and
`unit_id = -1`, and `unit_count` decreases by 1 with exactly unit `s` removed:
the units before `s` are unchanged and every unit after `s` moves down one
index. -/
theorem found_city_founds (env : Env) (g : Game) (nm : String) (s : Int)
    (hs : FirstSettler (g.players g.current_player) s)
    (_hgrid : InGrid ((g.players g.current_player).units s))
    (hfree : (g.map ((g.players g.current_player).units s).y
      ((g.players g.current_player).units s).x).city_id = -1)
    (_hcap : (g.players g.current_player).city_count < MAX_CITIES) :
    ((found_city env g nm).players g.current_player).city_count
        = (g.players g.current_player).city_count + 1 ∧
    ((((found_city env g nm).players g.current_player).cities
        (g.players g.current_player).city_count).population = 1 ∧
      (((found_city env g nm).players g.current_player).cities
        (g.players g.current_player).city_count).queue_count = 0 ∧
      (((found_city env g nm).players g.current_player).cities
        (g.players g.current_player).city_count).building_count = 0) ∧
    (((found_city env g nm).map ((g.players g.current_player).units s).y
        ((g.players g.current_player).units s).x).city_id
          = (g.players g.current_player).city_count ∧
      ((found_city env g nm).map ((g.players g.current_player).units s).y
        ((g.players g.current_player).units s).x).owner_id = g.current_player ∧
      ((found_city env g nm).map ((g.players g.current_player).units s).y
        ((g.players g.current_player).units s).x).unit_id = -1) ∧
    ((found_city env g nm).players g.current_player).unit_count
        = (g.players g.current_player).unit_count - 1 ∧
    (∀ j, 0 ≤ j → j < s →
      ((found_city env g nm).players g.current_player).units j
        = (g.players g.current_player).units j) ∧
    (∀ j, s ≤ j → j < (g.players g.current_player).unit_count - 1 →
      ((found_city env g nm).players g.current_player).units j
        = (g.players g.current_player).units (j + 1)) := by
  obtain ⟨s1, s2, s3, s4⟩ := hs
  have hfind : find_settler (g.players g.current_player)
      (g.players g.current_player).unit_count.toNat 0 = s :=
    find_settler_first _ _ 0 s s1 (by omega) s3 s4
  have hsh := shift_loop_from (g.players g.current_player).units s
    ((g.players g.current_player).unit_count - 1 - s).toNat
  unfold found_city
  dsimp only
  rw [hfind, if_neg (show ¬ s = -1 by omega), if_neg (show ¬ _ ≠ (-1 : Int) from not_not.mpr hfree)]
  refine ⟨by simp [upd], ⟨by simp [upd], by simp [upd], by simp [upd]⟩,
    ⟨by simp [Game.setUnitId, Game.setCityId, Game.setOwnerId, setTile],
      by simp [Game.setUnitId, Game.setCityId, Game.setOwnerId, setTile],
      by simp [Game.setUnitId, Game.setCityId, Game.setOwnerId, setTile]⟩,
    by simp [upd], ?_, ?_⟩
  · intro j hj1 hj2
    simp only [upd, if_true]
    exact hsh.2 j (Or.inl hj2)
  · intro j hj1 hj2
    simp only [upd, if_true]
    exact hsh.1 j hj1 (by omega)

/-- Witness for C22: in `shiftGame` the settler is unit 0 on the free tile
`(0, 0)`; after `found_city` the player has one city and one unit, the warrior,
now at index 0, and the tile holds city 0 of player 0 and no unit. -/
theorem found_city_founds_witness :
    ((found_city zeroEnv shiftGame "Memphis").players shiftGame.current_player).city_count
        = (shiftGame.players shiftGame.current_player).city_count + 1 ∧
      ((found_city zeroEnv shiftGame "Memphis").players shiftGame.current_player).units 0
        = (shiftGame.players shiftGame.current_player).units (0 + 1) ∧
      ((found_city zeroEnv shiftGame "Memphis").map 0 0).city_id = 0 := by
  have h := found_city_founds zeroEnv shiftGame "Memphis" 0
    ⟨by decide, by decide, by decide, fun j h1 h2 => by omega⟩
    ⟨by decide, by decide, by decide, by decide⟩ (by decide) (by decide)
  exact ⟨h.1, h.2.2.2.2.2 0 (by decide) (by decide), by decide⟩

/-! ## Claim C23 -/

/-- C23: when the current player has no settler among its units, or when its
first settler stands on a tile whose `city_id` is not -1, `found_city` returns
the game state unchanged. -/
theorem found_city_refuses (env : Env) (g : Game) (nm : String) :
    ((∀ j, 0 ≤ j → j < (g.players g.current_player).unit_count →
        ((g.players g.current_player).units j).type ≠ UNIT_SETTLER) →
      found_city env g nm = g) ∧
    (∀ s, FirstSettler (g.players g.current_player) s →
      (g.map ((g.players g.current_player).units s).y
        ((g.players g.current_player).units s).x).city_id ≠ -1 →
      found_city env g nm = g) := by
  constructor
  · intro h
    have hfind : find_settler (g.players g.current_player)
        (g.players g.current_player).unit_count.toNat 0 = -1 :=
      find_settler_none _ _ 0 (fun j hj1 hj2 => h j hj1 (by omega))
    unfold found_city
    dsimp only
    rw [hfind, if_pos rfl]
  · rintro s ⟨s1, s2, s3, s4⟩ hcity
    have hfind : find_settler (g.players g.current_player)
        (g.players g.current_player).unit_count.toNat 0 = s :=
      find_settler_first _ _ 0 s s1 (by omega) s3 s4
    unfold found_city
    dsimp only
    rw [hfind, if_neg (show ¬ s = -1 by omega), if_pos hcity]

/-- Witness for C23: `conquestGame`, whose current player has no unit, and
`settledGame`, whose settler stands on a city tile, are returned unchanged. -/
theorem found_city_refuses_witness :
    found_city zeroEnv conquestGame "Memphis" = conquestGame ∧
      found_city zeroEnv settledGame "Memphis" = settledGame :=
  ⟨(found_city_refuses zeroEnv conquestGame "Memphis").1
      (fun j h1 h2 => by
        have h : (conquestGame.players conquestGame.current_player).unit_count = 0 := by decide
        omega),
    (found_city_refuses zeroEnv settledGame "Memphis").2 0
      ⟨by decide, by decide, by decide, fun j h1 h2 => by omega⟩ (by decide)⟩

/-! ## Claim C24 -/

/-- The inner loop of the search: it stops at a free tile of the row, records
it in the unit and marks it, or it finds none and changes nothing. -/
theorem place_x_cases (uc pop y : Int) (n : Nat) (u : Unit) (m : Int → Int → Tile) :
    (∃ x : Int, 0 ≤ x ∧ x < (n : Int) ∧
      (m ((y + pop).tmod MAP_HEIGHT) ((x + pop).tmod MAP_WIDTH)).unit_id = -1 ∧
      place_x uc pop y n (u, m)
        = (placedUnit u ((x + pop).tmod MAP_WIDTH) ((y + pop).tmod MAP_HEIGHT),
            markTile m ((y + pop).tmod MAP_HEIGHT) ((x + pop).tmod MAP_WIDTH) uc)) ∨
    ((∀ x : Int, 0 ≤ x → x < (n : Int) →
        (m ((y + pop).tmod MAP_HEIGHT) ((x + pop).tmod MAP_WIDTH)).unit_id ≠ -1) ∧
      place_x uc pop y n (u, m) = (u, m)) := by
  induction n with
  | zero =>
    right
    refine ⟨?_, rfl⟩
    intro x h1 h2
    simp at h2
    omega
  | succ n ih =>
    rw [place_x]
    dsimp only
    by_cases hf : (m ((y + pop).tmod MAP_HEIGHT) (((n : Int) + pop).tmod MAP_WIDTH)).unit_id = -1
    · rw [if_pos hf]
      left
      exact ⟨(n : Int), by omega, by push_cast; omega, hf, rfl⟩
    · rw [if_neg hf]
      rcases ih with ⟨x, h1, h2, h3, h4⟩ | ⟨h1, h2⟩
      · left
        exact ⟨x, h1, by push_cast; omega, h3, h4⟩
      · right
        refine ⟨?_, h2⟩
        intro x hx1 hx2
        by_cases hx : x = (n : Int)
        · rw [hx]; exact hf
        · exact h1 x hx1 (by push_cast at hx2; omega)

/-- The whole search, started with a unit whose `x` is -1: it stops at a free
scanned tile, records it in the unit and marks it, or no scanned tile is free
and nothing changes. -/
theorem place_y_cases (uc pop : Int) (n : Nat) (u : Unit) (m : Int → Int → Tile)
    (hu : u.x = -1) :
    (∃ x y : Int, 0 ≤ x ∧ x ≤ pop ∧ 0 ≤ y ∧ y < (n : Int) ∧
      (m ((y + pop).tmod MAP_HEIGHT) ((x + pop).tmod MAP_WIDTH)).unit_id = -1 ∧
      place_y uc pop n (u, m)
        = (placedUnit u ((x + pop).tmod MAP_WIDTH) ((y + pop).tmod MAP_HEIGHT),
            markTile m ((y + pop).tmod MAP_HEIGHT) ((x + pop).tmod MAP_WIDTH) uc)) ∨
    ((∀ x y : Int, 0 ≤ x → x ≤ pop → 0 ≤ y → y < (n : Int) →
        (m ((y + pop).tmod MAP_HEIGHT) ((x + pop).tmod MAP_WIDTH)).unit_id ≠ -1) ∧
      place_y uc pop n (u, m) = (u, m)) := by
  induction n with
  | zero =>
    right
    refine ⟨?_, rfl⟩
    intro x y _ _ h1 h2
    simp at h2
    omega
  | succ n ih =>
    rw [place_y]
    rcases place_x_cases uc pop (n : Int) (pop + 1).toNat u m with ⟨x, h1, h2, h3, h4⟩ | ⟨h1, h2⟩
    · left
      have hx : (0 : Int) ≤ (x + pop).tmod MAP_WIDTH := Int.tmod_nonneg _ (by omega)
      rw [h4, if_pos (show (placedUnit u ((x + pop).tmod MAP_WIDTH)
        (((n : Int) + pop).tmod MAP_HEIGHT)).x ≠ -1 by
          show (x + pop).tmod MAP_WIDTH ≠ -1
          omega)]
      exact ⟨x, (n : Int), h1, by omega, by omega, by push_cast; omega, h3, rfl⟩
    · rw [h2, if_neg (show ¬ u.x ≠ -1 from not_not.mpr hu)]
      rcases ih with ⟨x, y, a1, a2, a3, a4, a5, a6⟩ | ⟨a1, a2⟩
      · left
        exact ⟨x, y, a1, a2, a3, by push_cast; omega, a5, a6⟩
      · right
        refine ⟨?_, a2⟩
        intro x y hx1 hx2 hy1 hy2
        by_cases hy : y = (n : Int)
        · rw [hy]
          exact h1 x hx1 (by omega)
        · exact a1 x y hx1 hx2 hy1 (by push_cast at hy2; omega)

theorem scan_coords (pop x y : Int) (hx : 0 ≤ x) (hy : 0 ≤ y) (hp : 0 ≤ pop) :
    (x + pop).tmod MAP_WIDTH = (x + pop) % MAP_WIDTH ∧
    (y + pop).tmod MAP_HEIGHT = (y + pop) % MAP_HEIGHT :=
  ⟨Int.tmod_eq_emod (by omega) (by decide), Int.tmod_eq_emod (by omega) (by decide)⟩

/-- C24: when the body of the city loop of `end_year` completes a queue entry
(non-empty queue, `production_progress ≤ 0`) for city `c` of player `p`, who has
fewer than `MAX_UNITS` units, with `pop` the population after this year's
growth: if some scanned tile `((x + pop) mod 20, (y + pop) mod 15)`,
`0 ≤ x, y ≤ pop`, has `unit_id = -1`, then the new unit is stored at the index
of the previous `unit_count`, with the type of the head entry, health 100 and
owner `p`, its recorded position is a scanned tile that was free, and that
tile's `unit_id` becomes the index of the new unit; if no scanned tile is free,
`unit_count` and the map are unchanged.  The entry is dequeued in both cases. -/
theorem end_year_city_spawns (env : Env) (p c : Int) (st : Game × Nat)
    (hq : 0 < ((st.1.players p).cities c).queue_count)
    (hprog : ((st.1.players p).cities c).production_progress ≤ 0)
    (_hcap : (st.1.players p).unit_count < MAX_UNITS) :
    ((∃ ty tx, ScanTile (((st.1.players p).cities c).population + (rand env st.2).tmod 2) ty tx ∧
        (st.1.map ty tx).unit_id = -1) →
      ((end_year_city env p c st).1.players p).unit_count = (st.1.players p).unit_count + 1 ∧
      (((end_year_city env p c st).1.players p).units (st.1.players p).unit_count).type
        = ((st.1.players p).cities c).production_queue 0 ∧
      (((end_year_city env p c st).1.players p).units (st.1.players p).unit_count).health
        = 100 ∧
      (((end_year_city env p c st).1.players p).units (st.1.players p).unit_count).owner_id
        = p ∧
      ScanTile (((st.1.players p).cities c).population + (rand env st.2).tmod 2)
        (((end_year_city env p c st).1.players p).units (st.1.players p).unit_count).y
        (((end_year_city env p c st).1.players p).units (st.1.players p).unit_count).x ∧
      (st.1.map
        (((end_year_city env p c st).1.players p).units (st.1.players p).unit_count).y
        (((end_year_city env p c st).1.players p).units (st.1.players p).unit_count).x).unit_id
          = -1 ∧
      ((end_year_city env p c st).1.map
        (((end_year_city env p c st).1.players p).units (st.1.players p).unit_count).y
        (((end_year_city env p c st).1.players p).units (st.1.players p).unit_count).x).unit_id
          = (st.1.players p).unit_count ∧
      (((end_year_city env p c st).1.players p).cities c).queue_count
        = ((st.1.players p).cities c).queue_count - 1) ∧
    ((∀ ty tx, ScanTile (((st.1.players p).cities c).population + (rand env st.2).tmod 2) ty tx →
        (st.1.map ty tx).unit_id ≠ -1) →
      ((end_year_city env p c st).1.players p).unit_count = (st.1.players p).unit_count ∧
      (end_year_city env p c st).1.map = st.1.map ∧
      (((end_year_city env p c st).1.players p).cities c).queue_count
        = ((st.1.players p).cities c).queue_count - 1) := by
  have key := place_y_cases (st.1.players p).unit_count
    (((st.1.players p).cities c).population + (rand env st.2).tmod 2)
    (((st.1.players p).cities c).population + (rand env st.2).tmod 2 + 1).toNat
    (freshUnit env p (((st.1.players p).cities c).production_queue 0)) st.1.map rfl
  unfold freshUnit at key
  unfold end_year_city
  dsimp only
  rw [if_pos (show _ > (0 : Int) from hq), if_pos hprog]
  rcases key with ⟨x, y, h1, h2, h3, h4, h5, hP⟩ | ⟨hnone, hP⟩
  · have hpop : 0 ≤ ((st.1.players p).cities c).population + (rand env st.2).tmod 2 := by omega
    obtain ⟨e1, e2⟩ := scan_coords _ x y h1 h3 hpop
    have hx : (0 : Int) ≤ (x + (((st.1.players p).cities c).population
        + (rand env st.2).tmod 2)).tmod MAP_WIDTH := Int.tmod_nonneg _ (by omega)
    rw [hP]
    constructor
    · intro _
      rw [if_pos (show (placedUnit _ _ _).x ≠ -1 by
        show (x + _).tmod MAP_WIDTH ≠ -1
        omega)]
      refine ⟨by simp [upd], by simp [upd, placedUnit], by simp [upd, placedUnit],
        by simp [upd, placedUnit], ?_, ?_, ?_, by simp [upd]⟩
      · simp only [upd, if_true, placedUnit]
        exact ⟨x, y, h1, h2, h3, by omega, e1, e2⟩
      · simp only [upd, if_true, placedUnit]
        exact h5
      · simp [upd, placedUnit, markTile, setTile]
    · intro hall
      exfalso
      refine hall _ _ ⟨x, y, h1, h2, h3, by omega, rfl, rfl⟩ ?_
      rw [← e1, ← e2]
      exact h5
  · rw [hP]
    constructor
    · rintro ⟨ty, tx, ⟨x, y, h1, h2, h3, h4, h5, h6⟩, hfree⟩
      exfalso
      have hpop : 0 ≤ ((st.1.players p).cities c).population + (rand env st.2).tmod 2 := by
        omega
      obtain ⟨e1, e2⟩ := scan_coords _ x y h1 h3 hpop
      refine hnone x y h1 h2 h3 (by omega) ?_
      rw [e1, e2, ← h5, ← h6]
      exact hfree
    · intro _
      rw [if_neg (show ¬ (-1 : Int) ≠ -1 by decide)]
      exact ⟨by simp [upd], rfl, by simp [upd]⟩

/-- Witness for C24: in `queueGame`, with population 1 after growth, the scanned
tile `(2, 2)` is free and the archer is stored as unit 0 on it; in `blockedGame`
the four scanned tiles are occupied, and the unit count and the map stay while
the entry is dequeued. -/
theorem end_year_city_spawns_witness :
    (((end_year_city zeroEnv 0 0 (queueGame, 0)).1.players 0).unit_count = 0 + 1 ∧
      (((end_year_city zeroEnv 0 0 (queueGame, 0)).1.players 0).units 0).type = UNIT_ARCHER ∧
      (((end_year_city zeroEnv 0 0 (queueGame, 0)).1.players 0).units 0).x = 2 ∧
      (((end_year_city zeroEnv 0 0 (queueGame, 0)).1.players 0).units 0).y = 2 ∧
      ((end_year_city zeroEnv 0 0 (queueGame, 0)).1.map 2 2).unit_id = 0) ∧
    (((end_year_city zeroEnv 0 0 (blockedGame, 0)).1.players 0).unit_count = 0 ∧
      (end_year_city zeroEnv 0 0 (blockedGame, 0)).1.map = blockedGame.map ∧
      (((end_year_city zeroEnv 0 0 (blockedGame, 0)).1.players 0).cities 0).queue_count
        = 2 - 1) := by
  have h1 := (end_year_city_spawns zeroEnv 0 0 (queueGame, 0) (by decide) (by decide)
    (by decide)).1 ⟨2, 2, ⟨1, 1, by decide, by decide, by decide, by decide, by decide,
      by decide⟩, by decide⟩
  have h2 := (end_year_city_spawns zeroEnv 0 0 (blockedGame, 0) (by decide) (by decide)
    (by decide)).2 (by
      rintro ty tx ⟨x, y, a1, a2, a3, a4, a5, a6⟩
      have hp : (((blockedGame, 0).1.players 0).cities 0).population
          + (rand zeroEnv (blockedGame, 0).2).tmod 2 = 1 := by decide
      rw [hp] at a2 a4 a5 a6
      have hx : x = 0 ∨ x = 1 := by omega
      have hy : y = 0 ∨ y = 1 := by omega
      rcases hx with hx | hx <;> rcases hy with hy | hy <;> subst hx hy a5 a6 <;> decide)
  exact ⟨⟨h1.1, by decide, by decide, by decide, by decide⟩, h2⟩

/-! ## Claim C25 -/

/-- A call of `manage_cities` with a valid city selection and one menu round
other than "Back" is that round played on the selected city. -/
theorem manage_cities_single (g : Game) (city_choice action sel : Int)
    (hc : 1 ≤ city_choice ∧ city_choice ≤ (g.players g.current_player).city_count)
    (ha : action ≠ 4) :
    manage_cities g city_choice [(action, sel)]
      = manage_action g.current_player (city_choice - 1) action sel g := by
  unfold manage_cities
  dsimp only
  rw [if_neg (show ¬ (g.players g.current_player).city_count = 0 by omega),
    if_neg (show ¬ (city_choice - 1 < 0 ∨
      city_choice - 1 ≥ (g.players g.current_player).city_count) by omega)]
  simp [manage_loop, ha]

/-- C25: for a city of the current player, selected in `manage_cities`, with
`queue_count < 10`: a valid produce-unit selection `u` (`1 ≤ u ≤ UNIT_COUNT`)
stores the tag `u - 1` at index `queue_count`, leaves every other entry of the
queue unchanged, increases `queue_count` by 1 and sets `production_progress` to
100, whatever it was; a valid build-building selection `b`
(`1 ≤ b ≤ BUILDING_COUNT`) does the same with the tag `b - 1` and progress 50;
an out-of-range selection leaves the game unchanged. -/
theorem manage_cities_enqueues (g : Game) (city_choice sel : Int)
    (hc : 1 ≤ city_choice ∧ city_choice ≤ (g.players g.current_player).city_count)
    (_hcap : ((g.players g.current_player).cities (city_choice - 1)).queue_count < 10) :
    ((1 ≤ sel ∧ sel ≤ UNIT_COUNT) →
      (((manage_cities g city_choice [(1, sel)]).players g.current_player).cities
          (city_choice - 1)).production_queue
            ((g.players g.current_player).cities (city_choice - 1)).queue_count = sel - 1 ∧
        (∀ i, i ≠ ((g.players g.current_player).cities (city_choice - 1)).queue_count →
          (((manage_cities g city_choice [(1, sel)]).players g.current_player).cities
              (city_choice - 1)).production_queue i
            = ((g.players g.current_player).cities (city_choice - 1)).production_queue i) ∧
        (((manage_cities g city_choice [(1, sel)]).players g.current_player).cities
            (city_choice - 1)).queue_count
          = ((g.players g.current_player).cities (city_choice - 1)).queue_count + 1 ∧
        (((manage_cities g city_choice [(1, sel)]).players g.current_player).cities
            (city_choice - 1)).production_progress = 100) ∧
    ((1 ≤ sel ∧ sel ≤ BUILDING_COUNT) →
      (((manage_cities g city_choice [(2, sel)]).players g.current_player).cities
          (city_choice - 1)).production_queue
            ((g.players g.current_player).cities (city_choice - 1)).queue_count = sel - 1 ∧
        (∀ i, i ≠ ((g.players g.current_player).cities (city_choice - 1)).queue_count →
          (((manage_cities g city_choice [(2, sel)]).players g.current_player).cities
              (city_choice - 1)).production_queue i
            = ((g.players g.current_player).cities (city_choice - 1)).production_queue i) ∧
        (((manage_cities g city_choice [(2, sel)]).players g.current_player).cities
            (city_choice - 1)).queue_count
          = ((g.players g.current_player).cities (city_choice - 1)).queue_count + 1 ∧
        (((manage_cities g city_choice [(2, sel)]).players g.current_player).cities
            (city_choice - 1)).production_progress = 50) ∧
    (¬ (1 ≤ sel ∧ sel ≤ UNIT_COUNT) → manage_cities g city_choice [(1, sel)] = g) ∧
    (¬ (1 ≤ sel ∧ sel ≤ BUILDING_COUNT) → manage_cities g city_choice [(2, sel)] = g) := by
  have hu : UNIT_COUNT = 8 := rfl
  have hb : BUILDING_COUNT = 8 := rfl
  rw [manage_cities_single g city_choice 1 sel hc (by decide),
    manage_cities_single g city_choice 2 sel hc (by decide)]
  unfold manage_action
  dsimp only
  refine ⟨?_, ?_, ?_, ?_⟩
  · intro h
    rw [if_pos rfl, if_pos (show sel - 1 ≥ 0 ∧ sel - 1 < UNIT_COUNT by omega)]
    refine ⟨by simp [upd], ?_, by simp [upd], by simp [upd]⟩
    intro i hi
    simp [upd, hi]
  · intro h
    rw [if_neg (show ¬ (2 : Int) = 1 by decide), if_pos rfl,
      if_pos (show sel - 1 ≥ 0 ∧ sel - 1 < BUILDING_COUNT by omega)]
    refine ⟨by simp [upd], ?_, by simp [upd], by simp [upd]⟩
    intro i hi
    simp [upd, hi]
  · intro h
    rw [if_pos rfl, if_neg (show ¬ (sel - 1 ≥ 0 ∧ sel - 1 < UNIT_COUNT) by omega)]
  · intro h
    rw [if_neg (show ¬ (2 : Int) = 1 by decide), if_pos rfl,
      if_neg (show ¬ (sel - 1 ≥ 0 ∧ sel - 1 < BUILDING_COUNT) by omega)]

/-- Witness for C25: in `twinGame` the city selected as number 1 (index 0) holds
an archer with progress 50; selecting unit 5 (knight) stores tag 4 at index 1, keeps the
archer at index 0, makes the count 2 and resets the progress to 100; the
selection 9 leaves the game unchanged. -/
theorem manage_cities_enqueues_witness :
    (((manage_cities twinGame 1 [(1, 5)]).players 0).cities 0).production_queue 1 = UNIT_KNIGHT ∧
      (((manage_cities twinGame 1 [(1, 5)]).players 0).cities 0).production_queue 0
        = UNIT_ARCHER ∧
      (((manage_cities twinGame 1 [(1, 5)]).players 0).cities 0).queue_count = 2 ∧
      (((manage_cities twinGame 1 [(1, 5)]).players twinGame.current_player).cities
        (1 - 1)).production_progress = 100 ∧
      manage_cities twinGame 1 [(1, 9)] = twinGame :=
  ⟨by decide, by decide, by decide,
    ((manage_cities_enqueues twinGame 1 5 ⟨by decide, by decide⟩ (by decide)).1
      ⟨by decide, by decide⟩).2.2.2,
    (manage_cities_enqueues twinGame 1 9 ⟨by decide, by decide⟩ (by decide)).2.2.1
      (by decide)⟩

end Civ
